import Mathlib

/-!
# Verification of the VEOS co-simulation client core

Shallow embedding of `src/BusBuffer.h` (the `RingBuffer` template) and of the
request handlers of `src/PortMapper.cpp`, followed by the properties proved
about them.
-/

namespace DsVeosCoSim

/-! ## `RingBuffer` (src/BusBuffer.h) -/

/-- Number of values of the C++ type `size_t` on the 64-bit targets of the library. -/
def SizeMod : Nat := 2 ^ 64

/-- The data members of `RingBuffer<T>`: `_items` is the `std::vector<T>`, the four
counters are `size_t`, the two flags are `bool`. -/
structure RingBuffer (T : Type) where
  _items : List T
  _capacity : Nat
  _readIndex : Nat
  _writeIndex : Nat
  _size : Nat
  _isFull : Bool
  _isEmpty : Bool
  deriving Repr, DecidableEq

namespace RingBuffer

variable {T : Type}

/-- A default-constructed `RingBuffer`: empty vector, all counters `0` (the `{}`
initialisers), `_isFull = false`, `_isEmpty = true`. -/
def fresh : RingBuffer T :=
  { _items := [], _capacity := 0, _readIndex := 0, _writeIndex := 0, _size := 0,
    _isFull := false, _isEmpty := true }

/-- The effect of `std::vector<T>::resize(size)`: keep the first `size` elements and
pad with value-initialised elements up to length `size`. -/
def vectorResize [Inhabited T] (items : List T) (size : Nat) : List T :=
  items.take size ++ List.replicate (size - items.length) default

/-- `RingBuffer::Resize`: `_capacity = size; _items.resize(size);`. -/
def Resize [Inhabited T] (rb : RingBuffer T) (size : Nat) : RingBuffer T :=
  { rb with _capacity := size, _items := vectorResize rb._items size }

/-- `RingBuffer::ClearData`: resets the two flags and the two indices, and nothing else. -/
def ClearData (rb : RingBuffer T) : RingBuffer T :=
  { rb with _isEmpty := true, _isFull := false, _readIndex := 0, _writeIndex := 0 }

/-- `RingBuffer::Clear`: `ClearData(); _items.clear();`. -/
def Clear (rb : RingBuffer T) : RingBuffer T :=
  { rb.ClearData with _items := [] }

/-- `RingBuffer::Size`: returns `_size`. -/
def Size (rb : RingBuffer T) : Nat := rb._size

/-- `RingBuffer::IsFull`: returns `_isFull`. -/
def IsFull (rb : RingBuffer T) : Bool := rb._isFull

/-- `RingBuffer::IsEmpty`: returns `_isEmpty`. -/
def IsEmpty (rb : RingBuffer T) : Bool := rb._isEmpty

/-- `RingBuffer::Push`: stores `element` at the write index, advances the write index
with wrap-around at `_capacity`, clears `_isEmpty`, sets `_isFull` when the write index
meets the read index, and increments `_size`. The C++ function returns a reference to
the slot just written; the model returns the new state. The increments are `size_t`
increments, hence taken modulo `SizeMod`. A write index outside the vector (undefined
behaviour in C++) leaves the vector unchanged. -/
def Push (rb : RingBuffer T) (element : T) : RingBuffer T :=
  let currentWriteIndex := rb._writeIndex
  let items := rb._items.set currentWriteIndex element
  let writeIndex1 := (rb._writeIndex + 1) % SizeMod
  let writeIndex2 := if writeIndex1 = rb._capacity then 0 else writeIndex1
  { _items := items
    _capacity := rb._capacity
    _readIndex := rb._readIndex
    _writeIndex := writeIndex2
    _size := (rb._size + 1) % SizeMod
    _isFull := if writeIndex2 = rb._readIndex then true else rb._isFull
    _isEmpty := false }

/-- `RingBuffer::Pop`: reads the item at the read index (`none` when the index is outside
the vector), advances the read index with wrap-around at `_capacity`, clears `_isFull`,
sets `_isEmpty` when the read index meets the write index, and decrements `_size`
(a `size_t` decrement, hence modulo `SizeMod`). Returns the item and the new state. -/
def Pop (rb : RingBuffer T) : Option T × RingBuffer T :=
  let item := rb._items[rb._readIndex]?
  let readIndex1 := (rb._readIndex + 1) % SizeMod
  let readIndex2 := if readIndex1 = rb._capacity then 0 else readIndex1
  (item,
   { _items := rb._items
     _capacity := rb._capacity
     _readIndex := readIndex2
     _writeIndex := rb._writeIndex
     _size := (rb._size + SizeMod - 1) % SizeMod
     _isFull := false
     _isEmpty := if rb._writeIndex = readIndex2 then true else rb._isEmpty })

/-- A call made on a ring buffer by its user: `Push(x)` or `Pop()`. -/
inductive Op (T : Type) where
  | push (x : T)
  | pop
  deriving Repr, DecidableEq

/-- Runs a sequence of calls, returning the final state and the items returned by the
`Pop` calls, in call order. -/
def run (rb : RingBuffer T) : List (Op T) → RingBuffer T × List (Option T)
  | [] => (rb, [])
  | Op.push x :: ops => run (rb.Push x) ops
  | Op.pop :: ops => ((run rb.Pop.2 ops).1, rb.Pop.1 :: (run rb.Pop.2 ops).2)

/-- The calling discipline of the users of the buffer: `Push` is called only when
`IsFull()` is false and `Pop` only when `IsEmpty()` is false. -/
def guarded (rb : RingBuffer T) : List (Op T) → Bool
  | [] => true
  | Op.push x :: ops => !rb.IsFull && guarded (rb.Push x) ops
  | Op.pop :: ops => !rb.IsEmpty && guarded rb.Pop.2 ops

/-- The elements given to the `Push` calls of a sequence, in call order. -/
def pushed : List (Op T) → List T
  | [] => []
  | Op.push x :: ops => x :: pushed ops
  | Op.pop :: ops => pushed ops

/-- The number of `Push` calls of a sequence. -/
def pushCount : List (Op T) → Nat
  | [] => 0
  | Op.push _ :: ops => pushCount ops + 1
  | Op.pop :: ops => pushCount ops

/-- The number of `Pop` calls of a sequence. -/
def popCount : List (Op T) → Nat
  | [] => 0
  | Op.push _ :: ops => popCount ops
  | Op.pop :: ops => popCount ops + 1

/-- Calls `Push` for every element of the list, in order. -/
def pushAll (rb : RingBuffer T) : List T → RingBuffer T
  | [] => rb
  | x :: xs => pushAll (rb.Push x) xs

/-- A producer that offers the elements one by one and pushes an element only while
`IsFull()` is false, dropping it otherwise. -/
def offerAll (rb : RingBuffer T) : List T → RingBuffer T
  | [] => rb
  | x :: xs => if rb.IsFull then offerAll rb xs else offerAll (rb.Push x) xs

/-- A consumer that calls `Pop` while `IsEmpty()` is false, at most `fuel` times, and
collects the returned items. -/
def drain (rb : RingBuffer T) : Nat → List (Option T)
  | 0 => []
  | fuel + 1 => if rb.IsEmpty then [] else rb.Pop.1 :: drain rb.Pop.2 fuel

end RingBuffer

/-! ## Port mapper (src/PortMapper.cpp) -/

/-- Modelled from the spec: the frame kinds of the wire protocol, in the order of the
enumeration (`Protocol.h` is not among the sources at hand). -/
inductive FrameKind where
  | Ok | Error | Ping | PingOk | Connect | ConnectOk | Start | Stop | Terminate
  | Pause | Continue | Step | StepOk | GetPort | GetPortOk | SetPort | UnsetPort
  deriving Repr, DecidableEq

/-- Modelled from the spec: the name of a frame kind as used in messages (`ToString` of
`Protocol.h`, which is not among the sources at hand). -/
def FrameKind.ToString : FrameKind → String
  | .Ok => "Ok" | .Error => "Error" | .Ping => "Ping" | .PingOk => "PingOk"
  | .Connect => "Connect" | .ConnectOk => "ConnectOk" | .Start => "Start" | .Stop => "Stop"
  | .Terminate => "Terminate" | .Pause => "Pause" | .Continue => "Continue" | .Step => "Step"
  | .StepOk => "StepOk" | .GetPort => "GetPort" | .GetPortOk => "GetPortOk"
  | .SetPort => "SetPort" | .UnsetPort => "UnsetPort"

/-- Modelled from the spec: a frame of the port-mapper conversation, a kind followed by
its payload: `Error{message}`, `GetPort{name}`, `GetPortOk{port}`, `SetPort{name, port}`,
`UnsetPort{name}`. `text` is the string field and `port` the `u16` field, absent when the
payload has none (or is truncated). -/
structure Frame where
  kind : FrameKind
  text : Option String
  port : Option Nat
  deriving Repr, DecidableEq

namespace Frame

/-- The `Ok` frame (no payload). -/
def ok : Frame := { kind := FrameKind.Ok, text := none, port := none }

/-- The frame `Error{message}`. -/
def error (message : String) : Frame :=
  { kind := FrameKind.Error, text := some message, port := none }

/-- The frame `GetPort{name}`. -/
def getPort (name : String) : Frame :=
  { kind := FrameKind.GetPort, text := some name, port := none }

/-- The frame `GetPortOk{port}`. -/
def getPortOk (port : Nat) : Frame :=
  { kind := FrameKind.GetPortOk, text := none, port := some port }

/-- The frame `SetPort{name, port}`. -/
def setPort (name : String) (port : Nat) : Frame :=
  { kind := FrameKind.SetPort, text := some name, port := some port }

/-- The frame `UnsetPort{name}`. -/
def unsetPort (name : String) : Frame :=
  { kind := FrameKind.UnsetPort, text := some name, port := none }

end Frame

/-- Modelled from the spec: a framed channel (`Channel`, `SocketChannel.h` are not among
the sources at hand). `pending` are the frames the peer has sent and the reader has not
started yet, `current` is the frame whose header the reader has taken, `written` are the
frames sent through the writer, oldest first, and `connected` tells whether the transport
is still open: reading a header and sending fail on a closed transport. -/
structure Channel where
  pending : List Frame
  current : Option Frame
  written : List Frame
  connected : Bool
  deriving Repr, DecidableEq

namespace Protocol

/-- Modelled from the spec: `Protocol::ReceiveHeader` takes the header of the next frame
and yields its kind; it fails when the transport is closed or no frame arrives. -/
def ReceiveHeader (channel : Channel) : Option (FrameKind × Channel) :=
  if channel.connected then
    match channel.pending with
    | [] => none
    | frame :: rest => some (frame.kind, { channel with pending := rest, current := some frame })
  else none

/-- Modelled from the spec: `Protocol::ReadGetPort` reads the payload `{name}` of the
current frame. -/
def ReadGetPort (channel : Channel) : Option String :=
  match channel.current with
  | none => none
  | some frame => frame.text

/-- Modelled from the spec: `Protocol::ReadSetPort` reads the payload `{name, port:u16}`
of the current frame. -/
def ReadSetPort (channel : Channel) : Option (String × Nat) :=
  match channel.current with
  | none => none
  | some frame =>
    match frame.text, frame.port with
    | some name, some port => some (name, port)
    | _, _ => none

/-- Modelled from the spec: `Protocol::ReadUnsetPort` reads the payload `{name}` of the
current frame. -/
def ReadUnsetPort (channel : Channel) : Option String :=
  match channel.current with
  | none => none
  | some frame => frame.text

/-- Modelled from the spec: sending a frame through the writer appends it to the frames
delivered to the peer; it fails on a closed transport. -/
def Send (channel : Channel) (frame : Frame) : Option Channel :=
  if channel.connected then some { channel with written := channel.written ++ [frame] }
  else none

/-- Modelled from the spec: `Protocol::SendOk`. -/
def SendOk (channel : Channel) : Option Channel := Send channel Frame.ok

/-- Modelled from the spec: `Protocol::SendError`. -/
def SendError (channel : Channel) (message : String) : Option Channel :=
  Send channel (Frame.error message)

/-- Modelled from the spec: `Protocol::SendGetPortOk`. -/
def SendGetPortOk (channel : Channel) (port : Nat) : Option Channel :=
  Send channel (Frame.getPortOk port)

end Protocol

/-- The state of a `PortMapperServer` seen by its request handlers: the map `_ports`
(a `std::unordered_map<std::string, uint16_t>`, kept as an association list, whose
order stands for the unspecified iteration order), the value of
`IsPortMapperServerVerbose()` and the lines handed to the log functions so far. -/
structure PortMapperServer where
  _ports : List (String × Nat)
  verbose : Bool
  log : List String
  deriving Repr, DecidableEq

namespace PortMapperServer

/-- A call of `LogTrace` or `LogError` with the given message. -/
def Log (server : PortMapperServer) (message : String) : PortMapperServer :=
  { server with log := server.log ++ [message] }

/-- The lookup `_ports.find(name)`: the bound port, or `none` for `_ports.end()`. -/
def find (ports : List (String × Nat)) (name : String) : Option Nat :=
  ports.lookup name

/-- The removal `_ports.erase(name)`. -/
def erase (ports : List (String × Nat)) (name : String) : List (String × Nat) :=
  ports.filter (fun entry => entry.1 != name)

/-- The assignment `_ports[name] = port`: afterwards `name` has the single binding
`port`. -/
def assign (ports : List (String × Nat)) (name : String) (port : Nat) :
    List (String × Nat) :=
  (name, port) :: erase ports name

/-- `PortMapperServer::DumpEntries`. -/
def DumpEntries (server : PortMapperServer) : PortMapperServer :=
  if server._ports.isEmpty then
    server.Log "No PortMapper Ports."
  else
    server._ports.foldl
      (fun s entry => s.Log ("  '" ++ entry.1 ++ "': \x7b\x7d" ++ toString entry.2))
      (server.Log "PortMapper Ports:")

/-- What a handler leaves behind: its `bool` result, the server state and the channel. -/
structure HandlerResult where
  result : Bool
  server : PortMapperServer
  channel : Channel
  deriving Repr, DecidableEq

/-- `PortMapperServer::HandleGetPort`. A failed `CheckResultWithMessage` logs its message
and returns `false`. -/
def HandleGetPort (server : PortMapperServer) (channel : Channel) : HandlerResult :=
  match Protocol.ReadGetPort channel with
  | none => ⟨false, server.Log "Could not read get port frame.", channel⟩
  | some name =>
    let server := if server.verbose then server.Log ("Get '" ++ name ++ "'") else server
    match find server._ports name with
    | none =>
      match Protocol.SendError channel
          ("Could not find port for dSPACE VEOS CoSim server '" ++ name ++ "'.") with
      | none => ⟨false, server.Log "Could not send error frame.", channel⟩
      | some channel => ⟨true, server, channel⟩
    | some port =>
      match Protocol.SendGetPortOk channel port with
      | none => ⟨false, server.Log "Could not send get port ok frame.", channel⟩
      | some channel => ⟨true, server, channel⟩

/-- `PortMapperServer::HandleSetPort`. -/
def HandleSetPort (server : PortMapperServer) (channel : Channel) : HandlerResult :=
  match Protocol.ReadSetPort channel with
  | none => ⟨false, server.Log "Could not read set port frame.", channel⟩
  | some (name, port) =>
    let server :=
      if server.verbose then server.Log ("Set '" ++ name ++ "':" ++ toString port) else server
    let server := { server with _ports := assign server._ports name port }
    let server := if server.verbose then server.DumpEntries else server
    match Protocol.SendOk channel with
    | none => ⟨false, server.Log "Could not send ok frame.", channel⟩
    | some channel => ⟨true, server, channel⟩

/-- `PortMapperServer::HandleUnsetPort`. -/
def HandleUnsetPort (server : PortMapperServer) (channel : Channel) : HandlerResult :=
  match Protocol.ReadUnsetPort channel with
  | none => ⟨false, server.Log "Could not read unset port frame.", channel⟩
  | some name =>
    let server := if server.verbose then server.Log ("Unset '" ++ name ++ "'") else server
    let server := { server with _ports := erase server._ports name }
    let server := if server.verbose then server.DumpEntries else server
    match Protocol.SendOk channel with
    | none => ⟨false, server.Log "Could not send ok frame.", channel⟩
    | some channel => ⟨true, server, channel⟩

/-- How a call of `HandleClient` ends: it returns a `bool` or throws a `CoSimException`
with a message. -/
inductive Outcome where
  | returned (value : Bool)
  | thrown (message : String)
  deriving Repr, DecidableEq

/-- What `HandleClient` leaves behind. -/
structure ClientResult where
  outcome : Outcome
  server : PortMapperServer
  channel : Channel
  deriving Repr, DecidableEq

/-- `PortMapperServer::HandleClient`: reads the header of the request and dispatches on
its kind; a failed `CheckResult` returns `false`, an unexpected kind throws. -/
def HandleClient (server : PortMapperServer) (channel : Channel) : ClientResult :=
  match Protocol.ReceiveHeader channel with
  | none => ⟨Outcome.returned false, server, channel⟩
  | some (frameKind, channel) =>
    match frameKind with
    | FrameKind.GetPort =>
      let r := HandleGetPort server channel
      if r.result then ⟨Outcome.returned true, r.server, r.channel⟩
      else ⟨Outcome.returned false, r.server.Log "Could not handle get port request.", r.channel⟩
    | FrameKind.SetPort =>
      let r := HandleSetPort server channel
      if r.result then ⟨Outcome.returned true, r.server, r.channel⟩
      else ⟨Outcome.returned false, r.server.Log "Could not handle set port request.", r.channel⟩
    | FrameKind.UnsetPort =>
      let r := HandleUnsetPort server channel
      if r.result then ⟨Outcome.returned true, r.server, r.channel⟩
      else
        ⟨Outcome.returned false, r.server.Log "Could not handle unset port request.", r.channel⟩
    | other =>
      ⟨Outcome.thrown ("Received unexpected frame " ++ other.ToString ++ "."), server, channel⟩

end PortMapperServer

/-- A connection a client has just opened and on which it has sent the single frame
`request`: nothing read and nothing written yet by the server. -/
def Channel.carrying (request : Frame) : Channel :=
  { pending := [request], current := none, written := [], connected := true }

namespace PortMapperServer

/-- `PortMapperServer::RunPortMapperServer`: the loop runs while the stop event is not set;
the list holds, for each pass, what `_server.TryAccept()` gives in that pass: an exception
(`Except.error` with its `what()`), no connection, or an accepted channel. The stop event
is set after the last pass. An exception of a pass is caught and logged, and the loop goes
on. The result is the server state at the end and the accepted channels as the handlers
left them, in order. -/
def RunPortMapperServer (server : PortMapperServer) :
    List (Except String (Option Channel)) → PortMapperServer × List Channel
  | [] => (server, [])
  | Except.error what :: rest =>
    RunPortMapperServer
      (server.Log ("The following exception occurred in port mapper thread: " ++ what)) rest
  | Except.ok none :: rest => RunPortMapperServer server rest
  | Except.ok (some channel) :: rest =>
    match (HandleClient server channel).outcome with
    | Outcome.returned true =>
      ((RunPortMapperServer (HandleClient server channel).server rest).1,
       (HandleClient server channel).channel ::
         (RunPortMapperServer (HandleClient server channel).server rest).2)
    | Outcome.returned false =>
      ((RunPortMapperServer
          ((HandleClient server channel).server.Log
            "Port mapper client disconnected unexpectedly.") rest).1,
       (HandleClient server channel).channel ::
         (RunPortMapperServer
          ((HandleClient server channel).server.Log
            "Port mapper client disconnected unexpectedly.") rest).2)
    | Outcome.thrown what =>
      ((RunPortMapperServer
          ((HandleClient server channel).server.Log
            ("The following exception occurred in port mapper thread: " ++ what)) rest).1,
       (HandleClient server channel).channel ::
         (RunPortMapperServer
          ((HandleClient server channel).server.Log
            ("The following exception occurred in port mapper thread: " ++ what)) rest).2)

end PortMapperServer

namespace Protocol

/-- Modelled from the spec: `Protocol::SendGetPort`. -/
def SendGetPort (channel : Channel) (name : String) : Option Channel :=
  Send channel (Frame.getPort name)

/-- Modelled from the spec: `Protocol::ReadGetPortOk` reads the payload `{port:u16}` of the
current frame. -/
def ReadGetPortOk (channel : Channel) : Option Nat :=
  match channel.current with
  | none => none
  | some frame => frame.port

/-- Modelled from the spec: `Protocol::ReadError` reads the payload `{message}` of the
current frame. -/
def ReadError (channel : Channel) : Option String :=
  match channel.current with
  | none => none
  | some frame => frame.text

end Protocol

/-- The message of the exception that `CoSimException(std::string_view message)` builds
(`what()`): the constructor of src/CoSimTypes.h hands `message.data()`, a `const char*`,
to `std::runtime_error`, which copies the characters before the first NUL. The messages
given at the call sites are `std::string`s, so a NUL follows their last character. -/
def CoSimException_what (message : String) : String :=
  ⟨message.data.takeWhile (fun c => c != Char.ofNat 0)⟩

/-- What a call of `PortMapper_GetPort` leaves behind: how it ended, the value of the
reference parameter `port` and the lines handed to the log functions. -/
structure GetPortResult where
  outcome : PortMapperServer.Outcome
  port : Nat
  log : List String
  deriving Repr, DecidableEq

/-- `PortMapper_GetPort`. `verbose` is the value of `IsPortMapperClientVerbose()`,
`connection` is what `TryConnectToTcpChannel` gives (the channel to the port mapper, on
which the replies of the server are pending, or nothing), and `port` is the value of the
reference parameter at the call. The two `throw CoSimException(...)` statements end the
call with the message that the constructor of `CoSimException` keeps. -/
def PortMapper_GetPort (verbose : Bool) (connection : Option Channel)
    (ipAddress serverName : String) (port : Nat) : GetPortResult :=
  let log : List String :=
    if verbose then
      ["PortMapper_GetPort(ipAddress: '" ++ ipAddress ++ "', serverName: '" ++ serverName ++ "')"]
    else []
  match connection with
  | none => ⟨PortMapperServer.Outcome.returned false, port, log ++ ["Could not connect to port mapper."]⟩
  | some channel =>
    match Protocol.SendGetPort channel serverName with
    | none => ⟨PortMapperServer.Outcome.returned false, port, log ++ ["Could not send get port frame."]⟩
    | some channel =>
      match Protocol.ReceiveHeader channel with
      | none => ⟨PortMapperServer.Outcome.returned false, port, log⟩
      | some (frameKind, channel) =>
        match frameKind with
        | FrameKind.GetPortOk =>
          match Protocol.ReadGetPortOk channel with
          | none => ⟨PortMapperServer.Outcome.returned false, port, log ++ ["Could not receive port ok frame."]⟩
          | some received => ⟨PortMapperServer.Outcome.returned true, received, log⟩
        | FrameKind.Error =>
          match Protocol.ReadError channel with
          | none => ⟨PortMapperServer.Outcome.returned false, port, log ++ ["Could not read error frame."]⟩
          | some errorMessage =>
            ⟨PortMapperServer.Outcome.thrown (CoSimException_what errorMessage), port, log⟩
        | other =>
          ⟨PortMapperServer.Outcome.thrown
            (CoSimException_what
              ("PortMapper_GetPort: Received unexpected frame " ++ other.ToString ++ ".")),
           port, log⟩

/-! ## Data types (src/CoSimTypes.h, shared/Generator.cpp) -/

/-- Modelled from the spec: a value of the C enumeration `DsVeosCoSim_DataType`, kept as
its number, so that a value naming no enumerator can be spoken of. The header
`DsVeosCoSim/DsVeosCoSim.h` that declares the enumerators is not among the sources at
hand; they are numbered here from 1 in the order `Bool, Int8, Int16, Int32, Int64, UInt8,
UInt16, UInt32, UInt64, Float32, Float64`, and the sentinel is `INT32_MAX`. -/
abbrev DsVeosCoSim_DataType := Nat

/-- Modelled from the spec: enumerator `Bool` of `DsVeosCoSim_DataType`. -/
def DsVeosCoSim_DataType_Bool : DsVeosCoSim_DataType := 1
/-- Modelled from the spec: enumerator `Int8` of `DsVeosCoSim_DataType`. -/
def DsVeosCoSim_DataType_Int8 : DsVeosCoSim_DataType := 2
/-- Modelled from the spec: enumerator `Int16` of `DsVeosCoSim_DataType`. -/
def DsVeosCoSim_DataType_Int16 : DsVeosCoSim_DataType := 3
/-- Modelled from the spec: enumerator `Int32` of `DsVeosCoSim_DataType`. -/
def DsVeosCoSim_DataType_Int32 : DsVeosCoSim_DataType := 4
/-- Modelled from the spec: enumerator `Int64` of `DsVeosCoSim_DataType`. -/
def DsVeosCoSim_DataType_Int64 : DsVeosCoSim_DataType := 5
/-- Modelled from the spec: enumerator `UInt8` of `DsVeosCoSim_DataType`. -/
def DsVeosCoSim_DataType_UInt8 : DsVeosCoSim_DataType := 6
/-- Modelled from the spec: enumerator `UInt16` of `DsVeosCoSim_DataType`. -/
def DsVeosCoSim_DataType_UInt16 : DsVeosCoSim_DataType := 7
/-- Modelled from the spec: enumerator `UInt32` of `DsVeosCoSim_DataType`. -/
def DsVeosCoSim_DataType_UInt32 : DsVeosCoSim_DataType := 8
/-- Modelled from the spec: enumerator `UInt64` of `DsVeosCoSim_DataType`. -/
def DsVeosCoSim_DataType_UInt64 : DsVeosCoSim_DataType := 9
/-- Modelled from the spec: enumerator `Float32` of `DsVeosCoSim_DataType`. -/
def DsVeosCoSim_DataType_Float32 : DsVeosCoSim_DataType := 10
/-- Modelled from the spec: enumerator `Float64` of `DsVeosCoSim_DataType`. -/
def DsVeosCoSim_DataType_Float64 : DsVeosCoSim_DataType := 11
/-- Modelled from the spec: the sentinel enumerator of `DsVeosCoSim_DataType`. -/
def DsVeosCoSim_DataType_INT_MAX_SENTINEL_DO_NOT_USE_ : DsVeosCoSim_DataType := 2147483647

/-- The eleven data types, in the order of the test parameter list `dataTypes` of
`test/TestIoBuffer.cpp`. -/
def dataTypes : List DsVeosCoSim_DataType :=
  [DsVeosCoSim_DataType_Bool, DsVeosCoSim_DataType_Int8, DsVeosCoSim_DataType_Int16,
   DsVeosCoSim_DataType_Int32, DsVeosCoSim_DataType_Int64, DsVeosCoSim_DataType_UInt8,
   DsVeosCoSim_DataType_UInt16, DsVeosCoSim_DataType_UInt32, DsVeosCoSim_DataType_UInt64,
   DsVeosCoSim_DataType_Float32, DsVeosCoSim_DataType_Float64]

/-- `GetDataTypeSize`: the `switch` over the data type; the sentinel case breaks out of the
switch and, like every value without a case, reaches the final `return 0`. -/
def GetDataTypeSize (dataType : DsVeosCoSim_DataType) : Nat :=
  if dataType = DsVeosCoSim_DataType_Bool ∨ dataType = DsVeosCoSim_DataType_Int8
      ∨ dataType = DsVeosCoSim_DataType_UInt8 then 1
  else if dataType = DsVeosCoSim_DataType_Int16 ∨ dataType = DsVeosCoSim_DataType_UInt16 then 2
  else if dataType = DsVeosCoSim_DataType_Int32 ∨ dataType = DsVeosCoSim_DataType_UInt32
      ∨ dataType = DsVeosCoSim_DataType_Float32 then 4
  else if dataType = DsVeosCoSim_DataType_Int64 ∨ dataType = DsVeosCoSim_DataType_UInt64
      ∨ dataType = DsVeosCoSim_DataType_Float64 then 8
  else if dataType = DsVeosCoSim_DataType_INT_MAX_SENTINEL_DO_NOT_USE_ then 0
  else 0

/-- `CreateZeroedIoData` of `shared/Generator.cpp`: a vector resized to
`GetDataTypeSize(signal.dataType) * signal.length` value-initialised bytes. -/
def CreateZeroedIoData (dataType : DsVeosCoSim_DataType) (length : Nat) : List Nat :=
  List.replicate (GetDataTypeSize dataType * length) 0

/-! ## Sockets (src/OsAbstraction/Socket.cpp, the non-Windows branches) -/

/-- The log function a piece of code calls: `LogError`, `LogWarning`, `LogInfo` or
`LogTrace` of `Helpers/CoSimHelper.cpp`. -/
inductive LogFunction where
  | LogError | LogWarning | LogInfo | LogTrace
  deriving Repr, DecidableEq

/-- A call of one of the log functions with a message. -/
structure LogCall where
  function : LogFunction
  message : String
  deriving Repr, DecidableEq

/-- A thrown `CoSimException`: its message and, for the constructor that takes one, the
error code. -/
structure CoSimException where
  message : String
  errorCode : Option Int
  deriving Repr, DecidableEq

/-- `ErrorCodeInterrupted = EINTR` (the Linux value of the constant of `<cerrno>`). -/
def ErrorCodeInterrupted : Int := 4
/-- `ErrorCodeWouldBlock = EINPROGRESS` (Linux value). -/
def ErrorCodeWouldBlock : Int := 115
/-- `ErrorCodeBrokenPipe = EPIPE` (Linux value). -/
def ErrorCodeBrokenPipe : Int := 32
/-- `ErrorCodeNotSupported = EAFNOSUPPORT` (Linux value). -/
def ErrorCodeNotSupported : Int := 97
/-- `ErrorCodeConnectionAborted = ECONNABORTED` (Linux value). -/
def ErrorCodeConnectionAborted : Int := 103
/-- `ErrorCodeConnectionReset = ECONNRESET` (Linux value). -/
def ErrorCodeConnectionReset : Int := 104

/-- `GetSystemErrorMessage` of `Helpers/CoSimHelper.cpp`; `systemMessage` stands for
`std::system_category().message`. -/
def GetSystemErrorMessage (systemMessage : Int → String) (errorCode : Int) : String :=
  "Error code: " ++ toString errorCode ++ ". " ++ systemMessage errorCode

/-- Modelled from the spec: `InvalidSocket` of `Socket.h` (not among the sources at hand),
the value `-1` that `::socket` and `::accept` return on failure. -/
def InvalidSocket : Int := -1

/-- Modelled from the spec: a value of `enum class AddressFamily` of `Socket.h` (not among
the sources at hand), kept as its number; `TryConnect` casts `ai_family` to it, so the
enumerators carry the values of `AF_INET`, `AF_INET6` and `AF_UNIX`, and `{}` is 0. -/
abbrev AddressFamily := Int

/-- `AF_UNIX` (Linux value). -/
def AF_UNIX : Int := 1
/-- `AF_INET` (Linux value). -/
def AF_INET : Int := 2
/-- `AF_INET6` (Linux value). -/
def AF_INET6 : Int := 10

/-- Modelled from the spec: `AddressFamily::Ipv4`. -/
def AddressFamily.Ipv4 : AddressFamily := AF_INET
/-- Modelled from the spec: `AddressFamily::Ipv6`. -/
def AddressFamily.Ipv6 : AddressFamily := AF_INET6
/-- Modelled from the spec: `AddressFamily::Uds`. -/
def AddressFamily.Uds : AddressFamily := AF_UNIX

/-- The data members of `Socket`: the handle, the address family and the path of a bound
Unix-domain socket (a `std::string`, kept as its bytes). -/
structure Socket where
  _socket : Int
  _addressFamily : AddressFamily
  _path : List Nat
  deriving Repr, DecidableEq

/-- What `Socket::Receive` and `Socket::Send` leave behind: the `bool` result, the value
stored in the reference parameter `receivedSize` or `sentSize`, and the log calls made. -/
structure TransferResult where
  result : Bool
  size : Int
  log : List LogCall
  deriving Repr, DecidableEq

namespace Socket

/-- `Socket::IsValid`. -/
def IsValid (self : Socket) : Bool := self._socket != InvalidSocket

/-- `Socket::EnsureIsValid`: throws when the socket is not valid. -/
def EnsureIsValid (self : Socket) : Except CoSimException Unit :=
  if !self.IsValid then Except.error ⟨"Socket is not valid.", none⟩ else Except.ok ()

/-- `Socket::Receive`: `received` is what `::recv` returns (cast to `int32_t`) and
`errorCode` what `GetLastNetworkError()` gives after it. -/
def Receive (systemMessage : Int → String) (received : Int) (errorCode : Int) :
    TransferResult :=
  if received > 0 then ⟨true, received, []⟩
  else if received = 0 then
    ⟨false, received, [⟨LogFunction.LogTrace, "Remote endpoint disconnected."⟩]⟩
  else if errorCode = ErrorCodeConnectionAborted ∨ errorCode = ErrorCodeConnectionReset
      ∨ errorCode = ErrorCodeBrokenPipe then
    ⟨false, received, [⟨LogFunction.LogTrace, "Remote endpoint disconnected."⟩]⟩
  else
    ⟨false, received,
      [⟨LogFunction.LogError,
        "Could not receive from remote endpoint. "
          ++ GetSystemErrorMessage systemMessage errorCode⟩]⟩

/-- `Socket::Send`: `sent` is what `::send` returns (cast to `int32_t`) and `errorCode`
what `GetLastNetworkError()` gives after it. -/
def Send (systemMessage : Int → String) (sent : Int) (errorCode : Int) : TransferResult :=
  if sent > 0 then ⟨true, sent, []⟩
  else if sent = 0 then
    ⟨false, sent, [⟨LogFunction.LogTrace, "Remote endpoint disconnected."⟩]⟩
  else if errorCode = ErrorCodeConnectionAborted ∨ errorCode = ErrorCodeConnectionReset
      ∨ errorCode = ErrorCodeBrokenPipe then
    ⟨false, sent, [⟨LogFunction.LogTrace, "Remote endpoint disconnected."⟩]⟩
  else
    ⟨false, sent,
      [⟨LogFunction.LogError,
        "Could not send to remote endpoint. " ++ GetSystemErrorMessage systemMessage errorCode⟩]⟩

end Socket

deriving instance DecidableEq for Except

/-- What the operating system answers during one pass of the loop of `Poll`: the result of
`::poll` and the error code after it, the result of `::getsockopt` and the error code after
it, and the clock read by `GetCurrentTimeInMilliseconds()` after an interrupted
`::getsockopt`. -/
structure PollPass where
  pollResult : Int
  pollError : Int
  getsockoptResult : Int
  getsockoptError : Int
  now : Int
  deriving Repr, DecidableEq

/-- The loop of `Poll`, started with `millisecondsUntilDeadline`; every pass consumes one
answer of the operating system. `none` means that the loop is still running after the
listed passes. -/
def PollLoop (deadline : Int) :
    Int → List PollPass → Option (Except CoSimException Bool)
  | millisecondsUntilDeadline, [] =>
    if millisecondsUntilDeadline < 0 then some (Except.ok false) else none
  | millisecondsUntilDeadline, pass :: rest =>
    if millisecondsUntilDeadline < 0 then some (Except.ok false)
    else if pass.pollResult < 0 then
      some (Except.error ⟨"Could not poll on socket.", some pass.pollError⟩)
    else if pass.pollResult = 0 then some (Except.ok false)
    else if pass.getsockoptResult ≠ 0 then
      if pass.getsockoptError = ErrorCodeInterrupted then
        PollLoop deadline (deadline - pass.now) rest
      else some (Except.error ⟨"Could not poll on socket.", some pass.getsockoptError⟩)
    else some (Except.ok true)

/-- `Poll`: `start` is the clock at entry, `timeoutInMilliseconds` a `uint32_t`. -/
def Poll (start : Int) (timeoutInMilliseconds : Nat) (passes : List PollPass) :
    Option (Except CoSimException Bool) :=
  PollLoop (start + timeoutInMilliseconds) timeoutInMilliseconds passes

/-- What `Socket::TryAccept` leaves behind: the optional socket it returns or the exception
it throws, and the number of calls of `::accept` it made. -/
structure TryAcceptResult where
  outcome : Except CoSimException (Option Socket)
  acceptCalls : Nat
  deriving Repr, DecidableEq

/-- `Socket::TryAccept`: `accepted` is what `::accept` returns and `acceptError` the error
code after it. `none` means that `Poll` is still running after the listed passes. -/
def Socket.TryAccept (self : Socket) (start : Int) (timeoutInMilliseconds : Nat)
    (passes : List PollPass) (accepted acceptError : Int) : Option TryAcceptResult :=
  match self.EnsureIsValid with
  | Except.error e => some ⟨Except.error e, 0⟩
  | Except.ok () =>
    match Poll start timeoutInMilliseconds passes with
    | none => none
    | some (Except.error e) => some ⟨Except.error e, 0⟩
    | some (Except.ok false) => some ⟨Except.ok none, 0⟩
    | some (Except.ok true) =>
      if accepted = InvalidSocket then
        some ⟨Except.error ⟨"Could not accept.", some acceptError⟩, 1⟩
      else some ⟨Except.ok (some ⟨accepted, self._addressFamily, []⟩), 1⟩

/-- What the operating system answers while `Socket::TryConnect` tries one candidate
address of the list of `getaddrinfo`: the family of the address, the result of `::socket`,
the results and error codes of `::setsockopt(SO_REUSEADDR)` and `::bind` (consulted when a
local port is given), of `::fcntl(O_NONBLOCK)`, of `::connect`, the result of `::select`
with `FD_ISSET`, and the result and error code of the `::fcntl` that switches back to
blocking mode. -/
structure ConnectAttempt where
  ai_family : Int
  socket : Int
  reuseAddressResult : Int
  reuseAddressError : Int
  bindResult : Int
  bindError : Int
  nonBlockingResult : Int
  nonBlockingError : Int
  connectResult : Int
  connectError : Int
  selectResult : Int
  selectIsSet : Bool
  blockingResult : Int
  blockingError : Int
  deriving Repr, DecidableEq

/-- `Socket::EnableReuseAddress`. -/
def Socket.EnableReuseAddress (self : Socket) (result errorCode : Int) :
    Except CoSimException Unit :=
  match self.EnsureIsValid with
  | Except.error e => Except.error e
  | Except.ok () =>
    if self._addressFamily = AddressFamily.Uds then
      Except.error ⟨"Not supported for address family.", none⟩
    else if result < 0 then
      Except.error ⟨"Could not enable socket option reuse address.", some errorCode⟩
    else Except.ok ()

/-- `Socket::Bind(uint16_t port, bool enableRemoteAccess)` with `BindForIpv4` and
`BindForIpv6`: `result` is what `::bind` returns. -/
def Socket.Bind (self : Socket) (result errorCode : Int) : Except CoSimException Unit :=
  match self.EnsureIsValid with
  | Except.error e => Except.error e
  | Except.ok () =>
    if self._addressFamily = AddressFamily.Uds then
      Except.error ⟨"Not supported for address family.", none⟩
    else if result < 0 then Except.error ⟨"Could not bind socket.", some errorCode⟩
    else Except.ok ()

/-- `ConnectWithTimeout` with `SwitchToNonBlockingMode` and `SwitchToBlockingMode`. -/
def ConnectWithTimeout (attempt : ConnectAttempt) : Except CoSimException Bool :=
  if attempt.nonBlockingResult < 0 then
    Except.error ⟨"Could not switch to non-blocking mode.", some attempt.nonBlockingError⟩
  else if attempt.connectResult ≥ 0 then Except.error ⟨"Invalid connect result.", none⟩
  else if attempt.connectError ≠ ErrorCodeWouldBlock then
    Except.error ⟨"Could not connect.", some attempt.connectError⟩
  else if attempt.selectResult > 0 ∧ attempt.selectIsSet = true then
    if attempt.blockingResult < 0 then
      Except.error ⟨"Could not switch to non-blocking mode.", some attempt.blockingError⟩
    else Except.ok true
  else Except.ok false

/-- The loop of `Socket::TryConnect` over the candidate addresses. -/
def TryConnectLoop (localPort : Nat) :
    List ConnectAttempt → Except CoSimException (Option Socket)
  | [] => Except.ok none
  | attempt :: rest =>
    if attempt.socket = InvalidSocket then TryConnectLoop localPort rest
    else
      let connectedSocket : Socket := ⟨attempt.socket, attempt.ai_family, []⟩
      let bound : Except CoSimException Unit :=
        if localPort ≠ 0 then
          match connectedSocket.EnableReuseAddress attempt.reuseAddressResult
              attempt.reuseAddressError with
          | Except.error e => Except.error e
          | Except.ok () => connectedSocket.Bind attempt.bindResult attempt.bindError
        else Except.ok ()
      match bound with
      | Except.error _ => TryConnectLoop localPort rest
      | Except.ok () =>
        match ConnectWithTimeout attempt with
        | Except.error e => Except.error e
        | Except.ok false => TryConnectLoop localPort rest
        | Except.ok true => Except.ok (some connectedSocket)

/-- The static `Socket::TryConnect(ipAddress, remotePort, localPort, timeout)`:
`addressInfo` is what `ConvertToInternetAddress` gives, the error code of `getaddrinfo`
or the list of candidate addresses, each with the answers of the operating system for
it. -/
def Socket.TryConnect (remotePort localPort : Nat)
    (addressInfo : Except Int (List ConnectAttempt)) : Except CoSimException (Option Socket) :=
  if remotePort = 0 then Except.error ⟨"Remote port 0 is not valid.", none⟩
  else
    match addressInfo with
    | Except.error errorCode =>
      Except.error ⟨"Could not get address information. ", some errorCode⟩
    | Except.ok candidates => TryConnectLoop localPort candidates

/-- The bytes of the string literal `"dSPACE.VEOS.CoSim."`. -/
def UdsPathPrefix : List Nat :=
  [100, 83, 80, 65, 67, 69, 46, 86, 69, 79, 83, 46, 67, 111, 83, 105, 109, 46]

/-- `GetUdsPath` (non-Windows branch): `"dSPACE.VEOS.CoSim." + name`, a `std::string` kept
as its bytes. -/
def GetUdsPath (name : List Nat) : List Nat := UdsPathPrefix ++ name

/-- `sizeof(address.sun_path)` of `sockaddr_un` (Linux value). -/
def SunPathSize : Nat := 108

/-- The structure `sockaddr_un` of `<sys/un.h>`: the family and the `sun_path` array. -/
structure sockaddr_un where
  sun_family : Int
  sun_path : List Nat
  deriving Repr, DecidableEq

/-- The C string that `std::string::c_str()` points to: the bytes before the first NUL. -/
def c_str (s : List Nat) : List Nat := s.takeWhile (fun b => b != 0)

/-- The C function `strncpy(destination, source, count)` on a C string `source`: copies at
most `count` bytes of the string, pads with NUL bytes up to `count` bytes written, and
leaves the rest of `destination` as it was. -/
def strncpy (destination source : List Nat) (count : Nat) : List Nat :=
  source.take count ++ List.replicate (count - (source.take count).length) 0
    ++ destination.drop count

/-- What the member functions `TryConnect(name)` and `Bind(name)` leave behind: the result
or the exception, the socket address handed to `::connect` or `::bind` (if the call was
reached) and the socket object afterwards. -/
structure UdsCallResult (α : Type) where
  outcome : Except CoSimException α
  address : Option sockaddr_un
  self : Socket

/-- The member function `Socket::TryConnect(const std::string& name)`; `connectResult` is
what `::connect` returns. -/
def Socket.TryConnectName (self : Socket) (name : List Nat) (connectResult : Int) :
    UdsCallResult Bool :=
  match self.EnsureIsValid with
  | Except.error e => ⟨Except.error e, none, self⟩
  | Except.ok () =>
    if self._addressFamily ≠ AddressFamily.Uds then
      ⟨Except.error ⟨"Not supported for address family.", none⟩, none, self⟩
    else if name.isEmpty then ⟨Except.error ⟨"Empty name is not valid.", none⟩, none, self⟩
    else
      let path := GetUdsPath name
      let address : sockaddr_un := ⟨0, List.replicate SunPathSize 0⟩
      let address := { address with sun_family := AF_UNIX }
      let address :=
        { address with sun_path := strncpy address.sun_path (c_str path) (SunPathSize - 1) }
      let address := { address with sun_path := address.sun_path.set 0 0 }
      ⟨Except.ok (decide (connectResult ≥ 0)), some address, self⟩

/-- The member function `Socket::Bind(const std::string& name)`; `bindResult` is what
`::bind` returns and `bindError` the error code after it. -/
def Socket.BindName (self : Socket) (name : List Nat) (bindResult bindError : Int) :
    UdsCallResult Unit :=
  match self.EnsureIsValid with
  | Except.error e => ⟨Except.error e, none, self⟩
  | Except.ok () =>
    if self._addressFamily ≠ AddressFamily.Uds then
      ⟨Except.error ⟨"Not supported for address family.", none⟩, none, self⟩
    else if name.isEmpty then ⟨Except.error ⟨"Empty name is not valid.", none⟩, none, self⟩
    else
      let self := { self with _path := GetUdsPath name }
      let address : sockaddr_un := ⟨0, List.replicate SunPathSize 0⟩
      let address := { address with sun_family := AF_UNIX }
      let address :=
        { address with
          sun_path := strncpy address.sun_path (c_str self._path) (SunPathSize - 1) }
      let address := { address with sun_path := address.sun_path.set 0 0 }
      if bindResult < 0 then
        ⟨Except.error ⟨"Could not bind socket.", some bindError⟩, some address, self⟩
      else ⟨Except.ok (), some address, self⟩

/-! ## Wire encoding (spec section 4.2; `Protocol.cpp` is not among the sources at hand) -/

namespace Wire

/-- Modelled from the spec: the encoding of a `u8`, one byte. Bytes are natural numbers
below 256. -/
def encodeU8 (v : Nat) : List Nat := [v % 256]

/-- Modelled from the spec: the little-endian encoding of a `u16`. -/
def encodeU16 (v : Nat) : List Nat := [v % 256, v / 256 % 256]

/-- Modelled from the spec: the little-endian encoding of a `u32`. -/
def encodeU32 (v : Nat) : List Nat :=
  [v % 256, v / 256 % 256, v / 65536 % 256, v / 16777216 % 256]

/-- Modelled from the spec: the little-endian encoding of a `u64`. -/
def encodeU64 (v : Nat) : List Nat :=
  [v % 256, v / 256 % 256, v / 65536 % 256, v / 16777216 % 256,
   v / 4294967296 % 256, v / 1099511627776 % 256, v / 281474976710656 % 256,
   v / 72057594037927936 % 256]

/-- Modelled from the spec: the little-endian encoding of an `i64`, in two's complement. -/
def encodeI64 (v : Int) : List Nat := encodeU64 (v % 18446744073709551616).toNat

/-- Modelled from the spec: a string is encoded as its `u32` byte length followed by its
raw bytes, without terminator. A `std::string` is kept as its bytes. -/
def encodeString (s : List Nat) : List Nat := encodeU32 s.length ++ s

/-- The encodings of the elements of a list, one after the other. -/
def encodeAll {α : Type} (encode : α → List Nat) : List α → List Nat
  | [] => []
  | x :: xs => encode x ++ encodeAll encode xs

/-- Modelled from the spec: a vector is encoded as its `u32` count followed by its
elements in order. -/
def encodeVector {α : Type} (encode : α → List Nat) (xs : List α) : List Nat :=
  encodeU32 xs.length ++ encodeAll encode xs

/-- Modelled from the spec: decoding of a `u8`; the result is the value and the bytes
left. -/
def decodeU8 : List Nat → Option (Nat × List Nat)
  | b0 :: rest => some (b0, rest)
  | _ => none

/-- Modelled from the spec: decoding of a little-endian `u16`. -/
def decodeU16 : List Nat → Option (Nat × List Nat)
  | b0 :: b1 :: rest => some (b0 + 256 * b1, rest)
  | _ => none

/-- Modelled from the spec: decoding of a little-endian `u32`. -/
def decodeU32 : List Nat → Option (Nat × List Nat)
  | b0 :: b1 :: b2 :: b3 :: rest =>
    some (b0 + 256 * b1 + 65536 * b2 + 16777216 * b3, rest)
  | _ => none

/-- Modelled from the spec: decoding of a little-endian `u64`. -/
def decodeU64 : List Nat → Option (Nat × List Nat)
  | b0 :: b1 :: b2 :: b3 :: b4 :: b5 :: b6 :: b7 :: rest =>
    some (b0 + 256 * b1 + 65536 * b2 + 16777216 * b3 + 4294967296 * b4
      + 1099511627776 * b5 + 281474976710656 * b6 + 72057594037927936 * b7, rest)
  | _ => none

/-- Modelled from the spec: decoding of a little-endian `i64` in two's complement. -/
def decodeI64 (bytes : List Nat) : Option (Int × List Nat) :=
  match decodeU64 bytes with
  | none => none
  | some (v, rest) =>
    if v < 9223372036854775808 then some ((v : Int), rest)
    else some ((v : Int) - 18446744073709551616, rest)

/-- Modelled from the spec: reading `count` raw bytes; a frame that holds fewer bytes is
truncated, which is fatal. -/
def decodeBytes (count : Nat) (bytes : List Nat) : Option (List Nat × List Nat) :=
  if count ≤ bytes.length then some (bytes.take count, bytes.drop count) else none

/-- Modelled from the spec: decoding of a string, its `u32` length checked against the
bytes the frame still holds. -/
def decodeString (bytes : List Nat) : Option (List Nat × List Nat) :=
  match decodeU32 bytes with
  | none => none
  | some (length, rest) => decodeBytes length rest

/-- Decoding of `count` elements, one after the other. -/
def decodeMany {α : Type} (decode : List Nat → Option (α × List Nat)) :
    Nat → List Nat → Option (List α × List Nat)
  | 0, bytes => some ([], bytes)
  | count + 1, bytes =>
    match decode bytes with
    | none => none
    | some (x, rest) =>
      match decodeMany decode count rest with
      | none => none
      | some (xs, rest) => some (x :: xs, rest)

/-- Modelled from the spec: decoding of a vector, its `u32` count followed by the
elements. -/
def decodeVector {α : Type} (decode : List Nat → Option (α × List Nat))
    (bytes : List Nat) : Option (List α × List Nat) :=
  match decodeU32 bytes with
  | none => none
  | some (count, rest) => decodeMany decode count rest

end Wire

/-- Modelled from the spec: a value of the C enumeration `DsVeosCoSim_SizeKind`, kept as
its number (the header that declares it is not among the sources at hand). -/
abbrev DsVeosCoSim_SizeKind := Nat

/-- Modelled from the spec: enumerator `Fixed` of `DsVeosCoSim_SizeKind`. -/
def DsVeosCoSim_SizeKind_Fixed : DsVeosCoSim_SizeKind := 1
/-- Modelled from the spec: enumerator `Variable` of `DsVeosCoSim_SizeKind`. -/
def DsVeosCoSim_SizeKind_Variable : DsVeosCoSim_SizeKind := 2

/-- `struct IoSignal` of `CoSimTypes.h`; the `std::string` is kept as its bytes. -/
structure IoSignal where
  id : Nat
  length : Nat
  dataType : DsVeosCoSim_DataType
  sizeKind : DsVeosCoSim_SizeKind
  name : List Nat
  deriving Repr, DecidableEq

/-- `struct CanController` of `CoSimTypes.h`. -/
structure CanController where
  id : Nat
  queueSize : Nat
  bitsPerSecond : Nat
  flexibleDataRateBitsPerSecond : Nat
  name : List Nat
  channelName : List Nat
  clusterName : List Nat
  deriving Repr, DecidableEq

/-- `struct EthController` of `CoSimTypes.h`; `macAddress` is the array of
`EthAddressLength` bytes. -/
structure EthController where
  id : Nat
  queueSize : Nat
  bitsPerSecond : Nat
  macAddress : List Nat
  name : List Nat
  channelName : List Nat
  clusterName : List Nat
  deriving Repr, DecidableEq

/-- `struct LinController` of `CoSimTypes.h`; `type` is a `DsVeosCoSim_LinControllerType`
kept as its number. -/
structure LinController where
  id : Nat
  queueSize : Nat
  bitsPerSecond : Nat
  type : Nat
  name : List Nat
  channelName : List Nat
  clusterName : List Nat
  deriving Repr, DecidableEq

/-- Modelled from the spec: `EthAddressLength`, the length of a MAC address. -/
def EthAddressLength : Nat := 6
/-- Modelled from the spec: `CanMessageMaxLength`, the maximal payload of a CAN message. -/
def CanMessageMaxLength : Nat := 64
/-- Modelled from the spec: `EthMessageMaxLength`, the maximal payload of an Ethernet
message. -/
def EthMessageMaxLength : Nat := 1500
/-- Modelled from the spec: `LinMessageMaxLength`, the maximal payload of a LIN message. -/
def LinMessageMaxLength : Nat := 8

/-- Modelled from the spec: a CAN message `{controllerId, id, timestamp, length, flags,
data[length]}`. -/
structure CanMessage where
  controllerId : Nat
  id : Nat
  timestamp : Int
  flags : Nat
  length : Nat
  data : List Nat
  deriving Repr, DecidableEq

/-- Modelled from the spec: an Ethernet message `{controllerId, timestamp, length, flags,
data[length]}`. -/
structure EthMessage where
  controllerId : Nat
  timestamp : Int
  flags : Nat
  length : Nat
  data : List Nat
  deriving Repr, DecidableEq

/-- Modelled from the spec: a LIN message `{controllerId, id, timestamp, length, flags,
data[length]}`. -/
structure LinMessage where
  controllerId : Nat
  id : Nat
  timestamp : Int
  flags : Nat
  length : Nat
  data : List Nat
  deriving Repr, DecidableEq

/-- Modelled from the spec: one changed signal of the I/O payload of a step: the
descriptor of the signal, its current length in elements and its bytes. -/
structure IoEntry where
  signal : IoSignal
  length : Nat
  data : List Nat
  deriving Repr, DecidableEq

/-- Modelled from the spec: the bus payload of a step, the messages of the three bus kinds
in the fixed order CAN, Ethernet, LIN. -/
structure BusPayload where
  can : List CanMessage
  eth : List EthMessage
  lin : List LinMessage
  deriving Repr, DecidableEq

/-- Modelled from the spec: a frame of the wire protocol with its typed payload. Values of
enumerations (`Command`, `Mode`, `SimulationState`, `TerminateReason`) are kept as their
`u32` numbers, a `SimulationTime` as an integer. -/
inductive WireFrame where
  | Ok
  | Error (message : List Nat)
  | Ping
  | PingOk (command : Nat)
  | Connect (version mode : Nat) (serverName clientName : List Nat)
  | ConnectOk (protocolVersion mode : Nat) (stepSize : Int) (simulationState : Nat)
      (incomingSignals outgoingSignals : List IoSignal)
      (canControllers : List CanController) (ethControllers : List EthController)
      (linControllers : List LinController)
  | Start (simulationTime : Int)
  | Stop (simulationTime : Int)
  | Terminate (simulationTime : Int) (terminateReason : Nat)
  | Pause (simulationTime : Int)
  | Continue (simulationTime : Int)
  | Step (simulationTime : Int) (io : List IoEntry) (bus : BusPayload)
  | StepOk (simulationTime : Int) (nextCommand : Nat) (io : List IoEntry) (bus : BusPayload)
  | GetPort (name : List Nat)
  | GetPortOk (port : Nat)
  | SetPort (name : List Nat) (port : Nat)
  | UnsetPort (name : List Nat)
  deriving Repr, DecidableEq

/-- The kind of a frame. -/
def WireFrame.kind : WireFrame → FrameKind
  | .Ok => FrameKind.Ok
  | .Error _ => FrameKind.Error
  | .Ping => FrameKind.Ping
  | .PingOk _ => FrameKind.PingOk
  | .Connect _ _ _ _ => FrameKind.Connect
  | .ConnectOk _ _ _ _ _ _ _ _ _ => FrameKind.ConnectOk
  | .Start _ => FrameKind.Start
  | .Stop _ => FrameKind.Stop
  | .Terminate _ _ => FrameKind.Terminate
  | .Pause _ => FrameKind.Pause
  | .Continue _ => FrameKind.Continue
  | .Step _ _ _ => FrameKind.Step
  | .StepOk _ _ _ _ => FrameKind.StepOk
  | .GetPort _ => FrameKind.GetPort
  | .GetPortOk _ => FrameKind.GetPortOk
  | .SetPort _ _ => FrameKind.SetPort
  | .UnsetPort _ => FrameKind.UnsetPort

/-- Modelled from the spec: the stable one-byte value of a frame kind; the kinds are
numbered from 1 in the order in which the spec lists them. -/
def FrameKind.toByte : FrameKind → Nat
  | .Ok => 1 | .Error => 2 | .Ping => 3 | .PingOk => 4 | .Connect => 5 | .ConnectOk => 6
  | .Start => 7 | .Stop => 8 | .Terminate => 9 | .Pause => 10 | .Continue => 11
  | .Step => 12 | .StepOk => 13 | .GetPort => 14 | .GetPortOk => 15 | .SetPort => 16
  | .UnsetPort => 17

/-- Modelled from the spec: the frame kind of a header byte; an unknown value is fatal. -/
def FrameKind.ofByte : Nat → Option FrameKind
  | 1 => some .Ok | 2 => some .Error | 3 => some .Ping | 4 => some .PingOk
  | 5 => some .Connect | 6 => some .ConnectOk | 7 => some .Start | 8 => some .Stop
  | 9 => some .Terminate | 10 => some .Pause | 11 => some .Continue | 12 => some .Step
  | 13 => some .StepOk | 14 => some .GetPort | 15 => some .GetPortOk | 16 => some .SetPort
  | 17 => some .UnsetPort
  | _ => none

namespace Wire

/-- Modelled from the spec: `IoSignal` encodes as `{id:u32, length:u32, dataType:u32,
sizeKind:u32, name:string}`. -/
def encodeIoSignal (s : IoSignal) : List Nat :=
  encodeU32 s.id ++ encodeU32 s.length ++ encodeU32 s.dataType ++ encodeU32 s.sizeKind
    ++ encodeString s.name

/-- Modelled from the spec: decoding of an `IoSignal`. -/
def decodeIoSignal (bytes : List Nat) : Option (IoSignal × List Nat) := do
  let (id, bytes) ← decodeU32 bytes
  let (length, bytes) ← decodeU32 bytes
  let (dataType, bytes) ← decodeU32 bytes
  let (sizeKind, bytes) ← decodeU32 bytes
  let (name, bytes) ← decodeString bytes
  pure (⟨id, length, dataType, sizeKind, name⟩, bytes)

/-- Modelled from the spec: a CAN controller is encoded field by field in the order of
its declaration. -/
def encodeCanController (c : CanController) : List Nat :=
  encodeU32 c.id ++ encodeU32 c.queueSize ++ encodeU64 c.bitsPerSecond
    ++ encodeU64 c.flexibleDataRateBitsPerSecond ++ encodeString c.name
    ++ encodeString c.channelName ++ encodeString c.clusterName

/-- Modelled from the spec: decoding of a CAN controller. -/
def decodeCanController (bytes : List Nat) : Option (CanController × List Nat) := do
  let (id, bytes) ← decodeU32 bytes
  let (queueSize, bytes) ← decodeU32 bytes
  let (bitsPerSecond, bytes) ← decodeU64 bytes
  let (flexibleDataRateBitsPerSecond, bytes) ← decodeU64 bytes
  let (name, bytes) ← decodeString bytes
  let (channelName, bytes) ← decodeString bytes
  let (clusterName, bytes) ← decodeString bytes
  pure (⟨id, queueSize, bitsPerSecond, flexibleDataRateBitsPerSecond, name, channelName,
    clusterName⟩, bytes)

/-- Modelled from the spec: an Ethernet controller is encoded field by field in the order
of its declaration, the MAC address as its six raw bytes. -/
def encodeEthController (c : EthController) : List Nat :=
  encodeU32 c.id ++ encodeU32 c.queueSize ++ encodeU64 c.bitsPerSecond ++ c.macAddress
    ++ encodeString c.name ++ encodeString c.channelName ++ encodeString c.clusterName

/-- Modelled from the spec: decoding of an Ethernet controller. -/
def decodeEthController (bytes : List Nat) : Option (EthController × List Nat) := do
  let (id, bytes) ← decodeU32 bytes
  let (queueSize, bytes) ← decodeU32 bytes
  let (bitsPerSecond, bytes) ← decodeU64 bytes
  let (macAddress, bytes) ← decodeBytes EthAddressLength bytes
  let (name, bytes) ← decodeString bytes
  let (channelName, bytes) ← decodeString bytes
  let (clusterName, bytes) ← decodeString bytes
  pure (⟨id, queueSize, bitsPerSecond, macAddress, name, channelName, clusterName⟩, bytes)

/-- Modelled from the spec: a LIN controller is encoded field by field in the order of
its declaration. -/
def encodeLinController (c : LinController) : List Nat :=
  encodeU32 c.id ++ encodeU32 c.queueSize ++ encodeU64 c.bitsPerSecond ++ encodeU32 c.type
    ++ encodeString c.name ++ encodeString c.channelName ++ encodeString c.clusterName

/-- Modelled from the spec: decoding of a LIN controller. -/
def decodeLinController (bytes : List Nat) : Option (LinController × List Nat) := do
  let (id, bytes) ← decodeU32 bytes
  let (queueSize, bytes) ← decodeU32 bytes
  let (bitsPerSecond, bytes) ← decodeU64 bytes
  let (type, bytes) ← decodeU32 bytes
  let (name, bytes) ← decodeString bytes
  let (channelName, bytes) ← decodeString bytes
  let (clusterName, bytes) ← decodeString bytes
  pure (⟨id, queueSize, bitsPerSecond, type, name, channelName, clusterName⟩, bytes)

/-- Modelled from the spec: a CAN message is encoded as `{controllerId:u32, id:u32,
timestamp:i64, flags:u32, length:u32, data[length]}`. -/
def encodeCanMessage (m : CanMessage) : List Nat :=
  encodeU32 m.controllerId ++ encodeU32 m.id ++ encodeI64 m.timestamp ++ encodeU32 m.flags
    ++ encodeU32 m.length ++ m.data

/-- Modelled from the spec: decoding of a CAN message; a length above the maximum of the
bus is a protocol error. -/
def decodeCanMessage (bytes : List Nat) : Option (CanMessage × List Nat) := do
  let (controllerId, bytes) ← decodeU32 bytes
  let (id, bytes) ← decodeU32 bytes
  let (timestamp, bytes) ← decodeI64 bytes
  let (flags, bytes) ← decodeU32 bytes
  let (length, bytes) ← decodeU32 bytes
  if length > CanMessageMaxLength then none
  else do
    let (data, bytes) ← decodeBytes length bytes
    pure (⟨controllerId, id, timestamp, flags, length, data⟩, bytes)

/-- Modelled from the spec: an Ethernet message is encoded as `{controllerId:u32,
timestamp:i64, flags:u32, length:u32, data[length]}`. -/
def encodeEthMessage (m : EthMessage) : List Nat :=
  encodeU32 m.controllerId ++ encodeI64 m.timestamp ++ encodeU32 m.flags
    ++ encodeU32 m.length ++ m.data

/-- Modelled from the spec: decoding of an Ethernet message. -/
def decodeEthMessage (bytes : List Nat) : Option (EthMessage × List Nat) := do
  let (controllerId, bytes) ← decodeU32 bytes
  let (timestamp, bytes) ← decodeI64 bytes
  let (flags, bytes) ← decodeU32 bytes
  let (length, bytes) ← decodeU32 bytes
  if length > EthMessageMaxLength then none
  else do
    let (data, bytes) ← decodeBytes length bytes
    pure (⟨controllerId, timestamp, flags, length, data⟩, bytes)

/-- Modelled from the spec: a LIN message is encoded as `{controllerId:u32, id:u32,
timestamp:i64, flags:u32, length:u32, data[length]}`. -/
def encodeLinMessage (m : LinMessage) : List Nat :=
  encodeU32 m.controllerId ++ encodeU32 m.id ++ encodeI64 m.timestamp ++ encodeU32 m.flags
    ++ encodeU32 m.length ++ m.data

/-- Modelled from the spec: decoding of a LIN message. -/
def decodeLinMessage (bytes : List Nat) : Option (LinMessage × List Nat) := do
  let (controllerId, bytes) ← decodeU32 bytes
  let (id, bytes) ← decodeU32 bytes
  let (timestamp, bytes) ← decodeI64 bytes
  let (flags, bytes) ← decodeU32 bytes
  let (length, bytes) ← decodeU32 bytes
  if length > LinMessageMaxLength then none
  else do
    let (data, bytes) ← decodeBytes length bytes
    pure (⟨controllerId, id, timestamp, flags, length, data⟩, bytes)

/-- Modelled from the spec: the bus payload, for each bus kind in the order CAN, Ethernet,
LIN the `u32` count of messages followed by the messages. -/
def encodeBusPayload (bus : BusPayload) : List Nat :=
  encodeVector encodeCanMessage bus.can ++ encodeVector encodeEthMessage bus.eth
    ++ encodeVector encodeLinMessage bus.lin

/-- Modelled from the spec: decoding of the bus payload. -/
def decodeBusPayload (bytes : List Nat) : Option (BusPayload × List Nat) := do
  let (can, bytes) ← decodeVector decodeCanMessage bytes
  let (eth, bytes) ← decodeVector decodeEthMessage bytes
  let (lin, bytes) ← decodeVector decodeLinMessage bytes
  pure (⟨can, eth, lin⟩, bytes)

/-- Modelled from the spec: one changed signal is encoded as `{id:u32, length:u32
(Variable only), bytes}`. -/
def encodeIoEntry (e : IoEntry) : List Nat :=
  encodeU32 e.signal.id
    ++ (if e.signal.sizeKind = DsVeosCoSim_SizeKind_Variable then encodeU32 e.length else [])
    ++ e.data

/-- Modelled from the spec: decoding of one changed signal against the signals registered
on the receiving side: the id selects the descriptor, a Variable signal carries its
length, a Fixed signal has the length of its descriptor, and the value takes
`length × elementWidth` bytes. -/
def decodeIoEntry (signals : List IoSignal) (bytes : List Nat) :
    Option (IoEntry × List Nat) := do
  let (id, bytes) ← decodeU32 bytes
  let signal ← signals.find? (fun s => s.id == id)
  let (length, bytes) ←
    if signal.sizeKind = DsVeosCoSim_SizeKind_Variable then decodeU32 bytes
    else some (signal.length, bytes)
  let (data, bytes) ← decodeBytes (length * GetDataTypeSize signal.dataType) bytes
  pure (⟨signal, length, data⟩, bytes)

/-- Modelled from the spec: the I/O payload, the `u32` count of changed signals followed
by the changed signals. -/
def encodeIoPayload (entries : List IoEntry) : List Nat :=
  encodeVector encodeIoEntry entries

/-- Modelled from the spec: decoding of the I/O payload. -/
def decodeIoPayload (signals : List IoSignal) (bytes : List Nat) :
    Option (List IoEntry × List Nat) :=
  decodeVector (decodeIoEntry signals) bytes

/-- Modelled from the spec: `Protocol::Send<Kind>`, the bytes of a frame: the one-byte
kind followed by the payload of the kind. -/
def Send : WireFrame → List Nat
  | .Ok => encodeU8 FrameKind.Ok.toByte
  | .Error message => encodeU8 FrameKind.Error.toByte ++ encodeString message
  | .Ping => encodeU8 FrameKind.Ping.toByte
  | .PingOk command => encodeU8 FrameKind.PingOk.toByte ++ encodeU32 command
  | .Connect version mode serverName clientName =>
    encodeU8 FrameKind.Connect.toByte ++ encodeU32 version ++ encodeU32 mode
      ++ encodeString serverName ++ encodeString clientName
  | .ConnectOk protocolVersion mode stepSize simulationState incomingSignals outgoingSignals
      canControllers ethControllers linControllers =>
    encodeU8 FrameKind.ConnectOk.toByte ++ encodeU32 protocolVersion ++ encodeU32 mode
      ++ encodeI64 stepSize ++ encodeU32 simulationState
      ++ encodeVector encodeIoSignal incomingSignals
      ++ encodeVector encodeIoSignal outgoingSignals
      ++ encodeVector encodeCanController canControllers
      ++ encodeVector encodeEthController ethControllers
      ++ encodeVector encodeLinController linControllers
  | .Start simulationTime => encodeU8 FrameKind.Start.toByte ++ encodeI64 simulationTime
  | .Stop simulationTime => encodeU8 FrameKind.Stop.toByte ++ encodeI64 simulationTime
  | .Terminate simulationTime terminateReason =>
    encodeU8 FrameKind.Terminate.toByte ++ encodeI64 simulationTime
      ++ encodeU32 terminateReason
  | .Pause simulationTime => encodeU8 FrameKind.Pause.toByte ++ encodeI64 simulationTime
  | .Continue simulationTime =>
    encodeU8 FrameKind.Continue.toByte ++ encodeI64 simulationTime
  | .Step simulationTime io bus =>
    encodeU8 FrameKind.Step.toByte ++ encodeI64 simulationTime ++ encodeIoPayload io
      ++ encodeBusPayload bus
  | .StepOk simulationTime nextCommand io bus =>
    encodeU8 FrameKind.StepOk.toByte ++ encodeI64 simulationTime ++ encodeU32 nextCommand
      ++ encodeIoPayload io ++ encodeBusPayload bus
  | .GetPort name => encodeU8 FrameKind.GetPort.toByte ++ encodeString name
  | .GetPortOk port => encodeU8 FrameKind.GetPortOk.toByte ++ encodeU16 port
  | .SetPort name port =>
    encodeU8 FrameKind.SetPort.toByte ++ encodeString name ++ encodeU16 port
  | .UnsetPort name => encodeU8 FrameKind.UnsetPort.toByte ++ encodeString name

/-- Modelled from the spec: `Protocol::ReceiveHeader`, reading the one-byte frame kind;
an unknown kind is fatal. -/
def ReceiveHeader (bytes : List Nat) : Option (FrameKind × List Nat) := do
  let (byte, bytes) ← decodeU8 bytes
  let kind ← FrameKind.ofByte byte
  pure (kind, bytes)

/-- Modelled from the spec: `Protocol::Read<Kind>`, reading the payload of a frame of the
given kind; `signals` are the signals registered on the receiving side, against which the
I/O payload of a step is decoded. -/
def Read (signals : List IoSignal) : FrameKind → List Nat → Option (WireFrame × List Nat)
  | .Ok, bytes => some (.Ok, bytes)
  | .Error, bytes => do
    let (message, bytes) ← decodeString bytes
    pure (.Error message, bytes)
  | .Ping, bytes => some (.Ping, bytes)
  | .PingOk, bytes => do
    let (command, bytes) ← decodeU32 bytes
    pure (.PingOk command, bytes)
  | .Connect, bytes => do
    let (version, bytes) ← decodeU32 bytes
    let (mode, bytes) ← decodeU32 bytes
    let (serverName, bytes) ← decodeString bytes
    let (clientName, bytes) ← decodeString bytes
    pure (.Connect version mode serverName clientName, bytes)
  | .ConnectOk, bytes => do
    let (protocolVersion, bytes) ← decodeU32 bytes
    let (mode, bytes) ← decodeU32 bytes
    let (stepSize, bytes) ← decodeI64 bytes
    let (simulationState, bytes) ← decodeU32 bytes
    let (incomingSignals, bytes) ← decodeVector decodeIoSignal bytes
    let (outgoingSignals, bytes) ← decodeVector decodeIoSignal bytes
    let (canControllers, bytes) ← decodeVector decodeCanController bytes
    let (ethControllers, bytes) ← decodeVector decodeEthController bytes
    let (linControllers, bytes) ← decodeVector decodeLinController bytes
    pure (.ConnectOk protocolVersion mode stepSize simulationState incomingSignals
      outgoingSignals canControllers ethControllers linControllers, bytes)
  | .Start, bytes => do
    let (simulationTime, bytes) ← decodeI64 bytes
    pure (.Start simulationTime, bytes)
  | .Stop, bytes => do
    let (simulationTime, bytes) ← decodeI64 bytes
    pure (.Stop simulationTime, bytes)
  | .Terminate, bytes => do
    let (simulationTime, bytes) ← decodeI64 bytes
    let (terminateReason, bytes) ← decodeU32 bytes
    pure (.Terminate simulationTime terminateReason, bytes)
  | .Pause, bytes => do
    let (simulationTime, bytes) ← decodeI64 bytes
    pure (.Pause simulationTime, bytes)
  | .Continue, bytes => do
    let (simulationTime, bytes) ← decodeI64 bytes
    pure (.Continue simulationTime, bytes)
  | .Step, bytes => do
    let (simulationTime, bytes) ← decodeI64 bytes
    let (io, bytes) ← decodeIoPayload signals bytes
    let (bus, bytes) ← decodeBusPayload bytes
    pure (.Step simulationTime io bus, bytes)
  | .StepOk, bytes => do
    let (simulationTime, bytes) ← decodeI64 bytes
    let (nextCommand, bytes) ← decodeU32 bytes
    let (io, bytes) ← decodeIoPayload signals bytes
    let (bus, bytes) ← decodeBusPayload bytes
    pure (.StepOk simulationTime nextCommand io bus, bytes)
  | .GetPort, bytes => do
    let (name, bytes) ← decodeString bytes
    pure (.GetPort name, bytes)
  | .GetPortOk, bytes => do
    let (port, bytes) ← decodeU16 bytes
    pure (.GetPortOk port, bytes)
  | .SetPort, bytes => do
    let (name, bytes) ← decodeString bytes
    let (port, bytes) ← decodeU16 bytes
    pure (.SetPort name port, bytes)
  | .UnsetPort, bytes => do
    let (name, bytes) ← decodeString bytes
    pure (.UnsetPort name, bytes)

/-- The receiving side of a frame: `ReceiveHeader` followed by the `Read<Kind>` of the kind
received. -/
def Receive (signals : List IoSignal) (bytes : List Nat) : Option (WireFrame × List Nat) := do
  let (kind, bytes) ← ReceiveHeader bytes
  Read signals kind bytes

end Wire

/-- The value fits the C type `uint32_t`. -/
def IsU32 (v : Nat) : Prop := v < 4294967296

/-- The value fits the C type `uint64_t`. -/
def IsU64 (v : Nat) : Prop := v < 18446744073709551616

/-- The value fits the C type `int64_t`. -/
def IsI64 (v : Int) : Prop := -9223372036854775808 ≤ v ∧ v < 9223372036854775808

/-- The bytes are a `std::string` whose length fits the `u32` length prefix. -/
def IsWireString (s : List Nat) : Prop := s.length < 4294967296

/-- The fields of the signal descriptor fit their C types. -/
def IoSignal.Valid (s : IoSignal) : Prop :=
  IsU32 s.id ∧ IsU32 s.length ∧ IsU32 s.dataType ∧ IsU32 s.sizeKind ∧ IsWireString s.name

/-- The fields of the controller fit their C types. -/
def CanController.Valid (c : CanController) : Prop :=
  IsU32 c.id ∧ IsU32 c.queueSize ∧ IsU64 c.bitsPerSecond
    ∧ IsU64 c.flexibleDataRateBitsPerSecond ∧ IsWireString c.name
    ∧ IsWireString c.channelName ∧ IsWireString c.clusterName

/-- The fields of the controller fit their C types; the MAC address has six bytes. -/
def EthController.Valid (c : EthController) : Prop :=
  IsU32 c.id ∧ IsU32 c.queueSize ∧ IsU64 c.bitsPerSecond
    ∧ c.macAddress.length = EthAddressLength ∧ IsWireString c.name
    ∧ IsWireString c.channelName ∧ IsWireString c.clusterName

/-- The fields of the controller fit their C types. -/
def LinController.Valid (c : LinController) : Prop :=
  IsU32 c.id ∧ IsU32 c.queueSize ∧ IsU64 c.bitsPerSecond ∧ IsU32 c.type
    ∧ IsWireString c.name ∧ IsWireString c.channelName ∧ IsWireString c.clusterName

/-- The fields of the message fit their C types, the length is within the maximum of the
bus and the data has that length. -/
def CanMessage.Valid (m : CanMessage) : Prop :=
  IsU32 m.controllerId ∧ IsU32 m.id ∧ IsI64 m.timestamp ∧ IsU32 m.flags
    ∧ m.length ≤ CanMessageMaxLength ∧ m.data.length = m.length

/-- The fields of the message fit their C types, the length is within the maximum of the
bus and the data has that length. -/
def EthMessage.Valid (m : EthMessage) : Prop :=
  IsU32 m.controllerId ∧ IsI64 m.timestamp ∧ IsU32 m.flags
    ∧ m.length ≤ EthMessageMaxLength ∧ m.data.length = m.length

/-- The fields of the message fit their C types, the length is within the maximum of the
bus and the data has that length. -/
def LinMessage.Valid (m : LinMessage) : Prop :=
  IsU32 m.controllerId ∧ IsU32 m.id ∧ IsI64 m.timestamp ∧ IsU32 m.flags
    ∧ m.length ≤ LinMessageMaxLength ∧ m.data.length = m.length

/-- The messages of the three buses are valid and their counts fit a `u32`. -/
def BusPayload.Valid (bus : BusPayload) : Prop :=
  IsU32 bus.can.length ∧ (∀ m ∈ bus.can, m.Valid)
    ∧ IsU32 bus.eth.length ∧ (∀ m ∈ bus.eth, m.Valid)
    ∧ IsU32 bus.lin.length ∧ (∀ m ∈ bus.lin, m.Valid)

/-- The changed signal is one the receiving side has registered under its id, its length
fits a `u32`, a Fixed signal has the length of its descriptor, and the value has
`length × elementWidth` bytes. -/
def IoEntry.Valid (signals : List IoSignal) (e : IoEntry) : Prop :=
  IsU32 e.signal.id ∧ signals.find? (fun s => s.id == e.signal.id) = some e.signal
    ∧ IsU32 e.length
    ∧ (e.signal.sizeKind ≠ DsVeosCoSim_SizeKind_Variable → e.length = e.signal.length)
    ∧ e.data.length = e.length * GetDataTypeSize e.signal.dataType

/-- A valid frame: every field fits the type the wire format gives it; the I/O payload of
a step is valid for the signals registered on the receiving side. -/
def WireFrame.Valid (signals : List IoSignal) : WireFrame → Prop
  | .Ok => True
  | .Error message => IsWireString message
  | .Ping => True
  | .PingOk command => IsU32 command
  | .Connect version mode serverName clientName =>
    IsU32 version ∧ IsU32 mode ∧ IsWireString serverName ∧ IsWireString clientName
  | .ConnectOk protocolVersion mode stepSize simulationState incomingSignals outgoingSignals
      canControllers ethControllers linControllers =>
    IsU32 protocolVersion ∧ IsU32 mode ∧ IsI64 stepSize ∧ IsU32 simulationState
      ∧ IsU32 incomingSignals.length ∧ (∀ s ∈ incomingSignals, s.Valid)
      ∧ IsU32 outgoingSignals.length ∧ (∀ s ∈ outgoingSignals, s.Valid)
      ∧ IsU32 canControllers.length ∧ (∀ c ∈ canControllers, c.Valid)
      ∧ IsU32 ethControllers.length ∧ (∀ c ∈ ethControllers, c.Valid)
      ∧ IsU32 linControllers.length ∧ (∀ c ∈ linControllers, c.Valid)
  | .Start simulationTime => IsI64 simulationTime
  | .Stop simulationTime => IsI64 simulationTime
  | .Terminate simulationTime terminateReason => IsI64 simulationTime ∧ IsU32 terminateReason
  | .Pause simulationTime => IsI64 simulationTime
  | .Continue simulationTime => IsI64 simulationTime
  | .Step simulationTime io bus =>
    IsI64 simulationTime ∧ IsU32 io.length ∧ (∀ e ∈ io, e.Valid signals) ∧ bus.Valid
  | .StepOk simulationTime nextCommand io bus =>
    IsI64 simulationTime ∧ IsU32 nextCommand ∧ IsU32 io.length ∧ (∀ e ∈ io, e.Valid signals)
      ∧ bus.Valid
  | .GetPort name => IsWireString name
  | .GetPortOk port => port < 65536
  | .SetPort name port => IsWireString name ∧ port < 65536
  | .UnsetPort name => IsWireString name

/-! ## I/O-signal buffer (spec section 4.3; `IoBuffer.cpp` is not among the sources at
hand, its tests `test/TestIoBuffer.cpp` are) -/

/-- The bytes of an ASCII string literal of the source. -/
def asciiBytes (s : String) : List Nat := s.toList.map Char.toNat

/-- The decimal rendering of a number (`{}` of `fmt::format`), as bytes. -/
def decimalBytes (n : Nat) : List Nat := asciiBytes (toString n)

/-- Modelled from the spec: the slot the buffer keeps for a signal, `{descriptor,
storage[maxBytes], currentLength, dirty}`. -/
structure SignalSlot where
  descriptor : IoSignal
  storage : List Nat
  currentLength : Nat
  dirty : Bool
  deriving Repr, DecidableEq

namespace SignalSlot

/-- Modelled from the spec: the element width of the signal of the slot, derived from the
data type. -/
def elementWidth (slot : SignalSlot) : Nat := GetDataTypeSize slot.descriptor.dataType

/-- Modelled from the spec: the state of a slot after construction and after `ClearData`:
storage of `length × elementWidth` zero bytes, the length of the descriptor for a Fixed
signal and 0 for a Variable one, not dirty. -/
def initial (descriptor : IoSignal) : SignalSlot :=
  { descriptor := descriptor
    storage := List.replicate (descriptor.length * GetDataTypeSize descriptor.dataType) 0
    currentLength :=
      if descriptor.sizeKind = DsVeosCoSim_SizeKind_Variable then 0 else descriptor.length
    dirty := false }

/-- Modelled from the spec: the latest value of the slot, the first
`currentLength × elementWidth` bytes of its storage. -/
def value (slot : SignalSlot) : List Nat :=
  slot.storage.take (slot.currentLength * slot.elementWidth)

/-- Modelled from the spec: the update of an outgoing slot by a `Write` whose length was
accepted: the slot is marked dirty, and takes the new length and bytes, only if the new
bytes differ from the stored bytes or (Variable only) the length differs. `source` is the
memory the caller passes; it holds at least `length × elementWidth` bytes. -/
def store (slot : SignalSlot) (length : Nat) (source : List Nat) : SignalSlot :=
  if slot.storage.take (length * slot.elementWidth) ≠ source.take (length * slot.elementWidth)
      ∨ (slot.descriptor.sizeKind = DsVeosCoSim_SizeKind_Variable
          ∧ slot.currentLength ≠ length) then
    { slot with
      storage := source.take (length * slot.elementWidth)
        ++ slot.storage.drop (length * slot.elementWidth)
      currentLength := length
      dirty := true }
  else slot

/-- Modelled from the spec: the update of an incoming slot by a received entry. -/
def receive (slot : SignalSlot) (length : Nat) (data : List Nat) : SignalSlot :=
  { slot with storage := data ++ slot.storage.drop data.length, currentLength := length }

/-- Modelled from the spec: what `Serialize` emits for a dirty slot. -/
def entry (slot : SignalSlot) : IoEntry := ⟨slot.descriptor, slot.currentLength, slot.value⟩

end SignalSlot

/-- Modelled from the spec: the I/O-signal buffer of one side, the slots of its incoming
signals (read locally) and of its outgoing signals (written locally), in the order in
which the signals were given to the constructor. -/
structure IoBuffer where
  incoming : List SignalSlot
  outgoing : List SignalSlot
  deriving Repr, DecidableEq

/-- Modelled from the spec: an invocation of `incomingSignalChangedCallback(simulationTime,
signalDescriptor, length, valuePtr)`, the value kept as the bytes it points to. -/
structure SignalChangedEvent where
  simulationTime : Int
  signal : IoSignal
  length : Nat
  value : List Nat
  deriving Repr, DecidableEq

/-- A call `Write(id, length, source)`. -/
structure WriteCall where
  id : Nat
  length : Nat
  source : List Nat
  deriving Repr, DecidableEq

namespace IoBuffer

/-- The first id of the list that occurs a second time, the ids before it being `seen`. -/
def firstDuplicate : List Nat → List Nat → Option Nat
  | _, [] => none
  | seen, id :: rest => if id ∈ seen then some id else firstDuplicate (id :: seen) rest

/-- Modelled from the spec: the constructor of `IoBuffer`. Signal ids must be unique across
the union of the incoming and the outgoing signals; a duplicate fails with the message
"Duplicated IO signal id <id>." (the text is the one the tests expect). An empty signal
set is valid. -/
def construct (incomingSignals outgoingSignals : List IoSignal) :
    Except (List Nat) IoBuffer :=
  match firstDuplicate [] ((incomingSignals ++ outgoingSignals).map (fun s => s.id)) with
  | some id =>
    Except.error (asciiBytes "Duplicated IO signal id " ++ decimalBytes id ++ asciiBytes ".")
  | none =>
    Except.ok ⟨incomingSignals.map SignalSlot.initial, outgoingSignals.map SignalSlot.initial⟩

/-- Modelled from the spec: `Write(id, length, src)`. An unknown id fails with "IO signal id
<id> is unknown."; a Fixed signal requires `length == descriptor.length` and fails
otherwise with "Length of fixed sized IO signal '<name>' must be <L> but was <length>."; a
Variable signal requires `length ≤ descriptor.length` and fails otherwise with "Length of
variable sized IO signal '<name>' exceeds max size." (the texts are the ones the tests
expect). -/
def Write (buffer : IoBuffer) (id length : Nat) (source : List Nat) :
    Except (List Nat) IoBuffer :=
  match buffer.outgoing.find? (fun slot => slot.descriptor.id == id) with
  | none =>
    Except.error (asciiBytes "IO signal id " ++ decimalBytes id ++ asciiBytes " is unknown.")
  | some slot =>
    if slot.descriptor.sizeKind = DsVeosCoSim_SizeKind_Variable then
      if length > slot.descriptor.length then
        Except.error (asciiBytes "Length of variable sized IO signal '" ++ slot.descriptor.name
          ++ asciiBytes "' exceeds max size.")
      else
        Except.ok { buffer with
          outgoing := buffer.outgoing.map (fun s =>
            if s.descriptor.id == id then s.store length source else s) }
    else
      if length ≠ slot.descriptor.length then
        Except.error (asciiBytes "Length of fixed sized IO signal '" ++ slot.descriptor.name
          ++ asciiBytes "' must be " ++ decimalBytes slot.descriptor.length
          ++ asciiBytes " but was " ++ decimalBytes length ++ asciiBytes ".")
      else
        Except.ok { buffer with
          outgoing := buffer.outgoing.map (fun s =>
            if s.descriptor.id == id then s.store length source else s) }

/-- Modelled from the spec: `Read(id, &length, dst)`: the stored length and the
`length × elementWidth` bytes of the latest value of an incoming signal; an unknown id
fails with "IO signal id <id> is unknown.". -/
def Read (buffer : IoBuffer) (id : Nat) : Except (List Nat) (Nat × List Nat) :=
  match buffer.incoming.find? (fun slot => slot.descriptor.id == id) with
  | none =>
    Except.error (asciiBytes "IO signal id " ++ decimalBytes id ++ asciiBytes " is unknown.")
  | some slot => Except.ok (slot.currentLength, slot.value)

/-- Modelled from the spec: what `Serialize` emits, the entries of the dirty outgoing
signals in the order of the slots. -/
def changedEntries (buffer : IoBuffer) : List IoEntry :=
  (buffer.outgoing.filter (fun slot => slot.dirty)).map SignalSlot.entry

/-- Modelled from the spec: `Serialize(writer)`: emits the `u32` count of changed signals
and, for each dirty outgoing signal, `{id, length (Variable only), bytes}`, and clears the
dirty flags. The result is the bytes written and the buffer afterwards. -/
def Serialize (buffer : IoBuffer) : List Nat × IoBuffer :=
  (Wire.encodeIoPayload buffer.changedEntries,
   { buffer with outgoing := buffer.outgoing.map (fun slot => { slot with dirty := false }) })

/-- Modelled from the spec: the update of the incoming slot of a received entry. -/
def applyEntry (buffer : IoBuffer) (e : IoEntry) : IoBuffer :=
  { buffer with
    incoming := buffer.incoming.map (fun slot =>
      if slot.descriptor.id == e.signal.id then slot.receive e.length e.data else slot) }

/-- Modelled from the spec: `Deserialize(reader, simulationTime, callbacks)`: reads the
count and the entries, updates the incoming slot of each entry and invokes
`incomingSignalChangedCallback` for it, in the order on the wire; `hasCallback` tells
whether the callback is set (an unset callback is skipped). The result is the buffer
afterwards, the invocations of the callback and the bytes left; `none` is a protocol
error. -/
def Deserialize (buffer : IoBuffer) (bytes : List Nat) (simulationTime : Int)
    (hasCallback : Bool) : Option (IoBuffer × List SignalChangedEvent × List Nat) :=
  match Wire.decodeIoPayload (buffer.incoming.map (fun slot => slot.descriptor)) bytes with
  | none => none
  | some (entries, rest) =>
    some (entries.foldl applyEntry buffer,
      if hasCallback then
        entries.map (fun e => ⟨simulationTime, e.signal, e.length, e.data⟩)
      else [],
      rest)

/-- Modelled from the spec: `ClearData()`: zeroes the storage, resets the lengths and
clears the dirty flags. -/
def ClearData (buffer : IoBuffer) : IoBuffer :=
  ⟨buffer.incoming.map (fun slot => SignalSlot.initial slot.descriptor),
   buffer.outgoing.map (fun slot => SignalSlot.initial slot.descriptor)⟩

/-- A sequence of `Write` calls on a buffer, in order; a call that fails throws and leaves
the buffer as it was. -/
def writeAll (buffer : IoBuffer) : List WriteCall → IoBuffer
  | [] => buffer
  | call :: rest =>
    match buffer.Write call.id call.length call.source with
    | Except.ok next => writeAll next rest
    | Except.error _ => writeAll buffer rest

/-- The helper `TransferWithEvents` of the tests: `Serialize` on the writer, then
`Deserialize` of the bytes on the reader at `simulationTime` with the callback set. The
result is the writer and the reader afterwards and the invocations of the callback. -/
def transfer (writer reader : IoBuffer) (simulationTime : Int) :
    Option (IoBuffer × IoBuffer × List SignalChangedEvent) :=
  match reader.Deserialize writer.Serialize.1 simulationTime true with
  | none => none
  | some (reader, events, _) => some (writer.Serialize.2, reader, events)

/-- One step: the writes of the step on the writer, then the transfer. -/
def step (writer reader : IoBuffer) (calls : List WriteCall) (simulationTime : Int) :
    Option (IoBuffer × IoBuffer × List SignalChangedEvent) :=
  transfer (writer.writeAll calls) reader simulationTime

/-- A sequence of steps, each with its writes and its simulation time; the result is the
writer and the reader after the last step. -/
def steps (writer reader : IoBuffer) :
    List (List WriteCall × Int) → Option (IoBuffer × IoBuffer)
  | [] => some (writer, reader)
  | (calls, simulationTime) :: rest =>
    match step writer reader calls simulationTime with
    | none => none
    | some (writer, reader, _) => steps writer reader rest

end IoBuffer

/-! ### Notions used in the proofs about the I/O-signal buffer -/

/-- The source of the call holds exactly `length × elementWidth` bytes for the signal the
call names. -/
def WriteCall.Fits (signals : List IoSignal) (call : WriteCall) : Prop :=
  ∀ s ∈ signals, s.id = call.id → call.source.length = call.length * GetDataTypeSize s.dataType

namespace SignalSlot

/-- The invariants of a slot (spec section 3): the storage has `length × elementWidth`
bytes, the current length is at most the length of the descriptor and, for a Fixed signal,
equal to it. -/
structure WellFormed (slot : SignalSlot) : Prop where
  storage_length : slot.storage.length = slot.descriptor.length * slot.elementWidth
  length_le : slot.currentLength ≤ slot.descriptor.length
  fixed : slot.descriptor.sizeKind ≠ DsVeosCoSim_SizeKind_Variable →
    slot.currentLength = slot.descriptor.length

/-- Whether `Write` accepts the length for the signal of the slot. -/
def accepts (slot : SignalSlot) (length : Nat) : Bool :=
  if slot.descriptor.sizeKind = DsVeosCoSim_SizeKind_Variable then
    decide (length ≤ slot.descriptor.length)
  else decide (length = slot.descriptor.length)

/-- The effect of a `Write` call on one outgoing slot. -/
def write (slot : SignalSlot) (call : WriteCall) : SignalSlot :=
  if slot.descriptor.id = call.id ∧ slot.accepts call.length = true then
    slot.store call.length call.source
  else slot

/-- The effect of a received entry on one incoming slot. -/
def take (slot : SignalSlot) (e : IoEntry) : SignalSlot :=
  if slot.descriptor.id = e.signal.id then slot.receive e.length e.data else slot

/-- An outgoing slot of the writer and the incoming slot of the reader for the same
signal hold the same length and value, and the writer has nothing to send for it. -/
structure Mirrors (w r : SignalSlot) : Prop where
  descriptor : w.descriptor = r.descriptor
  length : w.currentLength = r.currentLength
  value : w.value = r.value
  clean : w.dirty = false
  writer : w.WellFormed
  reader : r.WellFormed

end SignalSlot

/-- The writer and the reader are in step: the outgoing slots of the writer mirror the
incoming slots of the reader one by one, the ids are pairwise distinct, and ids, lengths
and the number of signals fit a `u32`. -/
structure IoBuffer.InSync (writer reader : IoBuffer) : Prop where
  mirrors : List.Forall₂ SignalSlot.Mirrors writer.outgoing reader.incoming
  nodup : (writer.outgoing.map (fun slot => slot.descriptor.id)).Nodup
  ids : ∀ slot ∈ writer.outgoing, IsU32 slot.descriptor.id ∧ IsU32 slot.descriptor.length
  count : IsU32 writer.outgoing.length

/-! ## Log dispatch (src/Helpers/CoSimHelper.cpp) -/

/-- The values of `enum class Severity` (src/CoSimTypes.h). -/
inductive Severity where
  | Error | Warning | Info | Trace
  deriving Repr, DecidableEq

/-- A `std::string_view`: the characters it spans (`data()[0 .. size())`) and the bytes
that follow them in memory; a view does not own its characters, and nothing says that a NUL
follows them. -/
structure StringView where
  chars : List Nat
  following : List Nat
  deriving Repr, DecidableEq

/-- The `std::string_view` that the converting constructor builds from a `const char*`:
the bytes from the pointer up to the first NUL (`traits::length`). Memory without any NUL
is read to its end here; in C++ the read goes on past it. -/
def StringView.ofCString (memory : List Nat) : List Nat := memory.takeWhile (fun b => b != 0)

/-- An invocation of a log callback: the callable that was invoked (callables are told
apart by a number), the severity and the characters of the `std::string_view` it got. -/
structure LogInvocation where
  callback : Nat
  severity : Severity
  message : List Nat
  deriving Repr, DecidableEq

/-- The global `g_logCallback` (`none` is an empty `std::function`) together with the
invocations of callbacks made so far, in order. -/
structure LogState where
  g_logCallback : Option Nat
  invocations : List LogInvocation
  deriving Repr, DecidableEq

/-- `SetLogCallback`: `g_logCallback = std::move(logCallback);`. -/
def SetLogCallback (state : LogState) (logCallback : Option Nat) : LogState :=
  { state with g_logCallback := logCallback }

/-- `LogError`: copies `g_logCallback` and, if it is set, calls it with
`DsVeosCoSim_Severity_Error` and `message.data()`, a `const char*`, from which the
`std::string_view` parameter of the callback is built. -/
def LogError (state : LogState) (message : StringView) : LogState :=
  let logCallback := state.g_logCallback
  match logCallback with
  | some callback =>
    { state with
      invocations := state.invocations
        ++ [⟨callback, Severity.Error,
            StringView.ofCString (message.chars ++ message.following)⟩] }
  | none => state

/-- `LogWarning`: copies `g_logCallback` and, if it is set, calls it with
`DsVeosCoSim_Severity_Warning` and `message`. -/
def LogWarning (state : LogState) (message : StringView) : LogState :=
  let logCallback := state.g_logCallback
  match logCallback with
  | some callback =>
    { state with
      invocations := state.invocations ++ [⟨callback, Severity.Warning, message.chars⟩] }
  | none => state

/-- `LogInfo`: copies `g_logCallback` and, if it is set, calls it with
`DsVeosCoSim_Severity_Info` and `message`. -/
def LogInfo (state : LogState) (message : StringView) : LogState :=
  let logCallback := state.g_logCallback
  match logCallback with
  | some callback =>
    { state with
      invocations := state.invocations ++ [⟨callback, Severity.Info, message.chars⟩] }
  | none => state

/-- `LogTrace`: copies `g_logCallback` and, if it is set, calls it with
`DsVeosCoSim_Severity_Trace` and `message`. -/
def LogTrace (state : LogState) (message : StringView) : LogState :=
  let logCallback := state.g_logCallback
  match logCallback with
  | some callback =>
    { state with
      invocations := state.invocations ++ [⟨callback, Severity.Trace, message.chars⟩] }
  | none => state

/-! ## `Socket::Close` (src/OsAbstraction/Socket.cpp, the non-Windows branches) -/

/-- A call that `Close` makes to the operating system: `::shutdown(socket, SHUT_RDWR)`,
`::unlink(path)` with the C string of the path, or `::close(socket)`. -/
inductive SocketCall where
  | shutdown (socket : Int)
  | unlink (path : List Nat)
  | close (socket : Int)
  deriving Repr, DecidableEq

/-- `Socket::Shutdown`: nothing on an invalid socket, `::shutdown` otherwise. -/
def Socket.Shutdown (self : Socket) : List SocketCall :=
  if self._socket = InvalidSocket then [] else [SocketCall.shutdown self._socket]

/-- `CloseSocket`: nothing for `InvalidSocket`, `::close` otherwise. -/
def CloseSocket (socket : Int) : List SocketCall :=
  if socket = InvalidSocket then [] else [SocketCall.close socket]

/-- `Socket::Close`: the socket afterwards and the calls made to the operating system, in
order. `_addressFamily = {}` stores the value 0. -/
def Socket.Close (self : Socket) : Socket × List SocketCall :=
  let socket := self._socket
  if socket = InvalidSocket then (self, [])
  else
    let calls := self.Shutdown
    let self : Socket := { self with _socket := InvalidSocket }
    let self : Socket := { self with _addressFamily := 0 }
    if self._path ≠ [] then
      let calls := calls ++ [SocketCall.unlink (c_str self._path)]
      let self : Socket := { self with _path := [] }
      (self, calls ++ CloseSocket socket)
    else (self, calls ++ CloseSocket socket)

/-! ## CAN message flags (src/CoSimTypes.h) -/

/-- Modelled from the spec: the enumerators of `DsVeosCoSim_CanMessageFlags` of the C header
(not among the sources at hand), one bit each; a flags value is kept as its number. -/
def DsVeosCoSim_CanMessageFlags_Loopback : Nat := 1
/-- Modelled from the spec: the flag `Error`. -/
def DsVeosCoSim_CanMessageFlags_Error : Nat := 2
/-- Modelled from the spec: the flag `Drop`. -/
def DsVeosCoSim_CanMessageFlags_Drop : Nat := 4
/-- Modelled from the spec: the flag `ExtendedId`. -/
def DsVeosCoSim_CanMessageFlags_ExtendedId : Nat := 8
/-- Modelled from the spec: the flag `BitRateSwitch`. -/
def DsVeosCoSim_CanMessageFlags_BitRateSwitch : Nat := 16
/-- Modelled from the spec: the flag `FlexibleDataRateFormat`. -/
def DsVeosCoSim_CanMessageFlags_FlexibleDataRateFormat : Nat := 32

/-- `std::string::erase(index, count)`: removes `count` characters from position `index`
on. -/
def stringErase (s : String) (index count : Nat) : String :=
  ⟨s.data.take index ++ s.data.drop (index + count)⟩

/-- `CanMessageFlagsToString`: appends `",<name>"` for each of the six flags whose bit is
set in `flags`, in the order of the `if` statements, and erases the first character of a
non-empty result. -/
def CanMessageFlagsToString (flags : Nat) : String :=
  let flagsStr := ""
  let flagsStr :=
    if flags &&& DsVeosCoSim_CanMessageFlags_Loopback ≠ 0 then flagsStr ++ ",Loopback"
    else flagsStr
  let flagsStr :=
    if flags &&& DsVeosCoSim_CanMessageFlags_Error ≠ 0 then flagsStr ++ ",Error"
    else flagsStr
  let flagsStr :=
    if flags &&& DsVeosCoSim_CanMessageFlags_Drop ≠ 0 then flagsStr ++ ",Drop"
    else flagsStr
  let flagsStr :=
    if flags &&& DsVeosCoSim_CanMessageFlags_ExtendedId ≠ 0 then flagsStr ++ ",ExtendedId"
    else flagsStr
  let flagsStr :=
    if flags &&& DsVeosCoSim_CanMessageFlags_BitRateSwitch ≠ 0 then
      flagsStr ++ ",BitRateSwitch"
    else flagsStr
  let flagsStr :=
    if flags &&& DsVeosCoSim_CanMessageFlags_FlexibleDataRateFormat ≠ 0 then
      flagsStr ++ ",FlexibleDataRateFormat"
    else flagsStr
  let flagsStr := if ¬ flagsStr.isEmpty then stringErase flagsStr 0 1 else flagsStr
  flagsStr

/-- The six flags of a CAN message in the order of the rendering, each with the position
of its bit and its name. -/
def canMessageFlagNames : List (Nat × String) :=
  [(0, "Loopback"), (1, "Error"), (2, "Drop"), (3, "ExtendedId"), (4, "BitRateSwitch"),
   (5, "FlexibleDataRateFormat")]

/-- The rendering as the specification words it: the names of exactly those of the six
flags whose bit is set, in the fixed order, separated by single commas. -/
def canMessageFlagsRendering (flags : Nat) : String :=
  ",".intercalate
    ((canMessageFlagNames.filter (fun flag => flags.testBit flag.1)).map (fun flag => flag.2))

/-! ## Test-data generator (shared/Generator.cpp) -/

/-- `GenerateU64`: `(static_cast<uint64_t>(GenerateU32()) << sizeof(uint32_t))
+ static_cast<uint64_t>(GenerateU32())`, with `sizeof(uint32_t) = 4`; `shifted` is the draw
of `GenerateU32` that is shifted and `added` the other one. The shift and the sum are
`uint64_t` operations. -/
def GenerateU64 (shifted added : Nat) : Nat :=
  ((shifted * 2 ^ 4) % 2 ^ 64 + added) % 2 ^ 64

/-- The conversion `static_cast<int64_t>` of a `uint64_t` value (below `2 ^ 64`). -/
def toInt64 (value : Nat) : Int :=
  if value < 2 ^ 63 then (value : Int) else (value : Int) - 2 ^ 64

/-- `GenerateI64`: `static_cast<int64_t>(GenerateU64())`. -/
def GenerateI64 (shifted added : Nat) : Int := toInt64 (GenerateU64 shifted added)

/-- `GenerateSimulationTime`: `SimulationTime(GenerateU64())`, where `SimulationTime` is the
64-bit signed `DsVeosCoSim_SimulationTime`. -/
def GenerateSimulationTime (shifted added : Nat) : Int := toInt64 (GenerateU64 shifted added)

namespace RingBuffer

variable {T : Type}

/-- A call made on a ring buffer: `Push(x)`, `Pop()` or `ClearData()`, with no calling
discipline. -/
inductive Call (T : Type) where
  | push (x : T)
  | pop
  | clearData
  deriving Repr, DecidableEq

/-- The state after one call. -/
def call (rb : RingBuffer T) : Call T → RingBuffer T
  | Call.push x => rb.Push x
  | Call.pop => rb.Pop.2
  | Call.clearData => rb.ClearData

/-- The state after a sequence of calls, in order. -/
def calls (rb : RingBuffer T) (cs : List (Call T)) : RingBuffer T := cs.foldl call rb

end RingBuffer

/-- The rendering for given values of the six bits, in the order of the rendering. -/
def canMessageFlagsOfBits (loopback error drop extendedId bitRateSwitch
    flexibleDataRateFormat : Bool) : String :=
  ",".intercalate
    (([(loopback, "Loopback"), (error, "Error"), (drop, "Drop"), (extendedId, "ExtendedId"),
        (bitRateSwitch, "BitRateSwitch"),
        (flexibleDataRateFormat, "FlexibleDataRateFormat")].filter
      (fun flag => flag.1)).map (fun flag => flag.2))

/-- The states of a `Socket` object that the code of src/OsAbstraction/Socket.cpp builds:
the state of the default member values, which is also the state in which the move
constructor and the move assignment leave their source (the target takes over the state of
the source); the state after `Socket(AddressFamily)`, which throws unless `::socket` gave a
valid handle, and after `Socket(socket_t, AddressFamily)`, which `TryConnect` and
`TryAccept` call with a valid handle only; the state after `Bind(name)`; and the state
after `Close()`. -/
inductive Socket.Reachable : Socket → Prop where
  | initial : Socket.Reachable ⟨InvalidSocket, 0, []⟩
  | created (socket : Int) (addressFamily : AddressFamily) (h : socket ≠ InvalidSocket) :
    Socket.Reachable ⟨socket, addressFamily, []⟩
  | bound (self : Socket) (name : List Nat) (bindResult bindError : Int)
    (h : Socket.Reachable self) :
    Socket.Reachable (self.BindName name bindResult bindError).self
  | closed (self : Socket) (h : Socket.Reachable self) : Socket.Reachable self.Close.1

/-- The invariant of the states the code builds: an invalid handle comes with the address
family `{}` and an empty path. -/
def Socket.Consistent (self : Socket) : Prop :=
  self._socket = InvalidSocket → self._addressFamily = 0 ∧ self._path = []

/-! ### The abstraction relation used in the proofs -/

namespace RingBuffer

variable {T : Type}

/-- Position `k` folded back into `[0, n)`, for `k < 2 * n`. -/
def wrap (n k : Nat) : Nat := if k < n then k else k - n

/-- The buffer of capacity `n` holds exactly the queue `q`, oldest element first. -/
structure Holds (n : Nat) (rb : RingBuffer T) (q : List T) : Prop where
  cap : rb._capacity = n
  len : rb._items.length = n
  rd : rb._readIndex < n
  wr : rb._writeIndex = wrap n (rb._readIndex + q.length)
  bound : q.length ≤ n
  size : rb._size = q.length
  empty : rb._isEmpty = decide (q.length = 0)
  full : rb._isFull = decide (q.length = n)
  items : ∀ i, i < q.length → rb._items[wrap n (rb._readIndex + i)]? = q[i]?

theorem holds_resize [Inhabited T] (n : Nat) (hn : 1 ≤ n) :
    Holds n ((fresh : RingBuffer T).Resize n) [] := by
  refine ⟨rfl, ?_, ?_, ?_, ?_, rfl, ?_, ?_, ?_⟩
  · simp [Resize, fresh, vectorResize]
  · simp [Resize, fresh]; omega
  · simp [Resize, fresh, wrap]
  · simp
  · simp [Resize, fresh]
  · simp [Resize, fresh]; omega
  · intro i hi; simp at hi

theorem holds_push {n : Nat} {rb : RingBuffer T} {q : List T} (x : T)
    (h : Holds n rb q) (hn : n < SizeMod) (hfull : rb.IsFull = false) :
    Holds n (rb.Push x) (q ++ [x]) := by
  obtain ⟨cap, len, rd, wr, bound, size, empty, full, items⟩ := h
  have hlt : q.length < n := by
    simp only [IsFull, full, decide_eq_false_iff_not] at hfull
    omega
  have hw : rb._writeIndex < n := by rw [wr]; unfold wrap; split <;> omega
  have hmod : (rb._writeIndex + 1) % SizeMod = rb._writeIndex + 1 :=
    Nat.mod_eq_of_lt (by omega)
  have hsz : (rb._size + 1) % SizeMod = rb._size + 1 :=
    Nat.mod_eq_of_lt (by omega)
  refine ⟨cap, ?_, rd, ?_, ?_, ?_, ?_, ?_, ?_⟩
  · simp [Push, len]
  · simp only [Push, hmod, cap, List.length_append, List.length_singleton]
    rw [wr]; unfold wrap; split <;> split <;> split <;> omega
  · simp; omega
  · show (rb._size + 1) % SizeMod = (q ++ [x]).length
    rw [hsz, size]; simp
  · simp [Push]
  · simp only [Push, hmod, cap, List.length_append, List.length_singleton, full]
    rw [wr]; unfold wrap
    by_cases h1 : q.length + 1 = n
    · simp only [h1, decide_True]
      split <;> split <;> simp <;> omega
    · have h2 : ¬ q.length = n := by omega
      simp only [h1, h2, decide_False]
      split <;> split <;> simp <;> omega
  · intro i hi
    simp only [List.length_append, List.length_singleton] at hi
    simp only [Push]
    by_cases hil : i < q.length
    · have hne : rb._writeIndex ≠ wrap n (rb._readIndex + i) := by
        rw [wr]; unfold wrap; split <;> split <;> omega
      rw [List.getElem?_set_ne hne, items i hil, List.getElem?_append_left hil]
    · have hie : i = q.length := by omega
      subst hie
      rw [← wr, List.getElem?_set_self (by omega)]
      simp

theorem holds_pop {n : Nat} {rb : RingBuffer T} {q : List T}
    (h : Holds n rb q) (hn : n < SizeMod) (hempty : rb.IsEmpty = false) :
    ∃ x q', q = x :: q' ∧ rb.Pop.1 = some x ∧ Holds n rb.Pop.2 q' := by
  obtain ⟨cap, len, rd, wr, bound, size, empty, full, items⟩ := h
  cases q with
  | nil => simp [IsEmpty, empty] at hempty
  | cons x q' =>
    refine ⟨x, q', rfl, ?_, ?_⟩
    · have := items 0 (by simp)
      simpa [Pop, wrap, rd] using this
    · simp only [List.length_cons] at wr bound size items
      have hmod : (rb._readIndex + 1) % SizeMod = rb._readIndex + 1 :=
        Nat.mod_eq_of_lt (by omega)
      have hsz : (rb._size + SizeMod - 1) % SizeMod = q'.length := by
        rw [size]
        have : q'.length + 1 + SizeMod - 1 = q'.length + SizeMod := by omega
        rw [this, Nat.add_mod_right]
        exact Nat.mod_eq_of_lt (by omega)
      refine ⟨cap, len, ?_, ?_, ?_, hsz, ?_, ?_, ?_⟩
      · simp only [Pop, hmod, cap]; split <;> omega
      · simp only [Pop, hmod, cap]
        rw [wr]; unfold wrap; split <;> split <;> split <;> omega
      · omega
      · have he : rb._isEmpty = false := by simp [empty]
        simp only [Pop, hmod, cap, he]
        rw [wr]; unfold wrap
        by_cases h0 : q'.length = 0
        · simp only [h0, decide_True]
          split_ifs <;> first | rfl | omega
        · simp only [h0, decide_False]
          split_ifs <;> first | rfl | omega
      · simp [Pop]; omega
      · intro i hi
        have hidx : wrap n ((if rb._readIndex + 1 = n then 0 else rb._readIndex + 1) + i)
            = wrap n (rb._readIndex + (i + 1)) := by
          unfold wrap; split_ifs <;> omega
        have := items (i + 1) (by omega)
        simp only [List.getElem?_cons_succ] at this
        simp only [Pop, hmod, cap, hidx]
        exact this

theorem length_pushed (ops : List (Op T)) : (pushed ops).length = pushCount ops := by
  induction ops with
  | nil => rfl
  | cons op ops ih => cases op <;> simp [pushed, pushCount, ih]

theorem holds_run {n : Nat} (hn : n < SizeMod) :
    ∀ (ops : List (Op T)) (rb : RingBuffer T) (q : List T), Holds n rb q →
      guarded rb ops = true →
      popCount ops ≤ q.length + pushCount ops ∧
      (run rb ops).2 = ((q ++ pushed ops).take (popCount ops)).map some ∧
      Holds n (run rb ops).1 ((q ++ pushed ops).drop (popCount ops)) := by
  intro ops
  induction ops with
  | nil =>
    intro rb q h _
    simpa [run, pushed, popCount] using h
  | cons op ops ih =>
    intro rb q h hg
    cases op with
    | push x =>
      simp only [guarded, Bool.and_eq_true, Bool.not_eq_true'] at hg
      obtain ⟨h1, h2, h3⟩ := ih (rb.Push x) (q ++ [x]) (holds_push x h hn hg.1) hg.2
      simp only [List.length_append, List.length_singleton, List.append_assoc,
        List.singleton_append] at h1 h2 h3
      refine ⟨?_, ?_, ?_⟩
      · simp only [popCount, pushCount]; omega
      · simpa only [run, pushed, popCount] using h2
      · simpa only [run, pushed, popCount] using h3
    | pop =>
      simp only [guarded, Bool.and_eq_true, Bool.not_eq_true'] at hg
      obtain ⟨y, q', hq, hitem, hholds⟩ := holds_pop h hn hg.1
      obtain ⟨h1, h2, h3⟩ := ih rb.Pop.2 q' hholds hg.2
      subst hq
      refine ⟨?_, ?_, ?_⟩
      · simp only [popCount, pushCount, List.length_cons]; omega
      · simp only [run, pushed, popCount, hitem, h2, List.cons_append, List.take_succ_cons,
          List.map_cons]
      · simpa only [run, pushed, popCount, List.cons_append, List.drop_succ_cons] using h3

theorem holds_pushAll {n : Nat} (hn : n < SizeMod) :
    ∀ (ys : List T) (rb : RingBuffer T) (q : List T), Holds n rb q →
      q.length + ys.length ≤ n → Holds n (pushAll rb ys) (q ++ ys) := by
  intro ys
  induction ys with
  | nil => intro rb q h _; simpa [pushAll] using h
  | cons y ys ih =>
    intro rb q h hlen
    simp only [List.length_cons] at hlen
    have hfull : rb.IsFull = false := by
      simp only [IsFull, h.full, decide_eq_false_iff_not]; omega
    have := ih (rb.Push y) (q ++ [y]) (holds_push y h hn hfull) (by simp; omega)
    simpa [pushAll] using this

theorem holds_offerAll {n : Nat} (hn : n < SizeMod) :
    ∀ (ys : List T) (rb : RingBuffer T) (q : List T), Holds n rb q →
      Holds n (offerAll rb ys) (q ++ ys.take (n - q.length)) := by
  intro ys
  induction ys with
  | nil => intro rb q h; simpa [offerAll] using h
  | cons y ys ih =>
    intro rb q h
    by_cases hq : q.length = n
    · have hfull : rb.IsFull = true := by simp [IsFull, h.full, hq]
      have := ih rb q h
      simp only [hq, Nat.sub_self, List.take_zero] at this ⊢
      simpa [offerAll, hfull] using this
    · have hfull : rb.IsFull = false := by simp [IsFull, h.full, hq]
      have hb := h.bound
      have := ih (rb.Push y) (q ++ [y]) (holds_push y h hn hfull)
      have hsub : n - q.length = (n - (q.length + 1)) + 1 := by omega
      rw [hsub, List.take_succ_cons]
      simpa [offerAll, hfull] using this

theorem drain_of_holds {n : Nat} (hn : n < SizeMod) :
    ∀ (fuel : Nat) (rb : RingBuffer T) (q : List T), Holds n rb q →
      q.length ≤ fuel → drain rb fuel = q.map some := by
  intro fuel
  induction fuel with
  | zero =>
    intro rb q _ hlen
    have : q = [] := List.length_eq_zero.mp (by omega)
    simp [drain, this]
  | succ fuel ih =>
    intro rb q h hlen
    cases q with
    | nil => simp [drain, IsEmpty, h.empty]
    | cons y q' =>
      have hempty : rb.IsEmpty = false := by simp [IsEmpty, h.empty]
      obtain ⟨z, q2, hq, hitem, hholds⟩ := holds_pop h hn hempty
      cases hq
      simp only [List.length_cons] at hlen
      simp [drain, hempty, hitem, ih rb.Pop.2 q' hholds (by omega)]

end RingBuffer

/-! ### Lemmas on the port map -/

namespace PortMapperServer

theorem find_assign (ports : List (String × Nat)) (name : String) (port : Nat) :
    find (assign ports name port) name = some port := by
  simp [find, assign, List.lookup]

theorem find_erase (ports : List (String × Nat)) (name : String) :
    find (erase ports name) name = none := by
  induction ports with
  | nil => rfl
  | cons entry ports ih =>
    obtain ⟨key, value⟩ := entry
    by_cases hk : key = name
    · have hdrop : erase ((key, value) :: ports) name = erase ports name := by
        simp [erase, hk]
      rw [hdrop]; exact ih
    · have hkeep : erase ((key, value) :: ports) name = (key, value) :: erase ports name := by
        simp [erase, hk]
      have hb : (name == key) = false := by
        simp only [beq_eq_false_iff_ne, ne_eq]
        exact fun h => hk h.symm
      rw [hkeep]
      show (match name == key with
        | true => some value
        | false => List.lookup name (erase ports name)) = none
      rw [hb]; exact ih

theorem erase_erase (ports : List (String × Nat)) (name : String) :
    erase (erase ports name) name = erase ports name := by
  simp [erase, List.filter_filter]

theorem foldl_Log_ports (f : String × Nat → String) (entries : List (String × Nat))
    (server : PortMapperServer) :
    (entries.foldl (fun s entry => s.Log (f entry)) server)._ports = server._ports ∧
    (entries.foldl (fun s entry => s.Log (f entry)) server).verbose = server.verbose := by
  induction entries generalizing server with
  | nil => exact ⟨rfl, rfl⟩
  | cons entry entries ih =>
    simp only [List.foldl_cons]
    exact ⟨(ih _).1, (ih _).2⟩

theorem DumpEntries_ports (server : PortMapperServer) :
    server.DumpEntries._ports = server._ports ∧
    server.DumpEntries.verbose = server.verbose := by
  unfold DumpEntries
  split
  · exact ⟨rfl, rfl⟩
  · exact foldl_Log_ports _ _ _

/-- What handling a `GetPort` request for an unbound name does. -/
theorem HandleClient_getPort_miss (server : PortMapperServer) (channel : Channel)
    (name : String) (rest : List Frame) (hmiss : find server._ports name = none)
    (hconn : channel.connected = true) (hreq : channel.pending = Frame.getPort name :: rest) :
    (HandleClient server channel).outcome = Outcome.returned true ∧
    (HandleClient server channel).channel.written = channel.written ++
      [Frame.error ("Could not find port for dSPACE VEOS CoSim server '" ++ name ++ "'.")] ∧
    (HandleClient server channel).server._ports = server._ports ∧
    (HandleClient server channel).server.verbose = server.verbose := by
  cases hv : server.verbose <;>
    simp [HandleClient, Protocol.ReceiveHeader, hconn, hreq, Frame.getPort, HandleGetPort,
      Protocol.ReadGetPort, Protocol.SendError, Protocol.Send, hv, hmiss, Log]

/-- What handling a `GetPort` request for a bound name does. -/
theorem HandleClient_getPort_hit (server : PortMapperServer) (channel : Channel)
    (name : String) (port : Nat) (rest : List Frame)
    (hhit : find server._ports name = some port)
    (hconn : channel.connected = true) (hreq : channel.pending = Frame.getPort name :: rest) :
    (HandleClient server channel).outcome = Outcome.returned true ∧
    (HandleClient server channel).channel.written = channel.written ++ [Frame.getPortOk port] ∧
    (HandleClient server channel).server._ports = server._ports ∧
    (HandleClient server channel).server.verbose = server.verbose := by
  cases hv : server.verbose <;>
    simp [HandleClient, Protocol.ReceiveHeader, hconn, hreq, Frame.getPort, HandleGetPort,
      Protocol.ReadGetPort, Protocol.SendGetPortOk, Protocol.Send, hv, hhit, Log]

/-- What handling a `SetPort` request does. -/
theorem HandleClient_setPort (server : PortMapperServer) (channel : Channel)
    (name : String) (port : Nat) (rest : List Frame)
    (hconn : channel.connected = true)
    (hreq : channel.pending = Frame.setPort name port :: rest) :
    (HandleClient server channel).outcome = Outcome.returned true ∧
    (HandleClient server channel).channel.written = channel.written ++ [Frame.ok] ∧
    (HandleClient server channel).server._ports = assign server._ports name port ∧
    (HandleClient server channel).server.verbose = server.verbose := by
  cases hv : server.verbose <;>
    simp [HandleClient, Protocol.ReceiveHeader, hconn, hreq, Frame.setPort, HandleSetPort,
      Protocol.ReadSetPort, Protocol.SendOk, Protocol.Send, hv, Log, DumpEntries_ports]

/-- What handling an `UnsetPort` request does. -/
theorem HandleClient_unsetPort (server : PortMapperServer) (channel : Channel)
    (name : String) (rest : List Frame)
    (hconn : channel.connected = true)
    (hreq : channel.pending = Frame.unsetPort name :: rest) :
    (HandleClient server channel).outcome = Outcome.returned true ∧
    (HandleClient server channel).channel.written = channel.written ++ [Frame.ok] ∧
    (HandleClient server channel).server._ports = erase server._ports name ∧
    (HandleClient server channel).server.verbose = server.verbose := by
  cases hv : server.verbose <;>
    simp [HandleClient, Protocol.ReceiveHeader, hconn, hreq, Frame.unsetPort, HandleUnsetPort,
      Protocol.ReadUnsetPort, Protocol.SendOk, Protocol.Send, hv, Log, DumpEntries_ports]

end PortMapperServer

/-! ## The ring buffer properties -/

open RingBuffer

/-- C1: on a fresh ring buffer resized to `n >= 1`, for every sequence of `Push` and `Pop`
calls in which `Push` is called only when `IsFull()` is false and `Pop` only when
`IsEmpty()` is false, there are never more pops than pushes and the items returned by the
pops are, in order, the elements given to the first pushes: the `k`-th `Pop` returns the
element of the `k`-th `Push`. -/
theorem C1_ring_buffer_fifo {T : Type} [Inhabited T] (n : Nat) (hn1 : 1 ≤ n)
    (hn : n < SizeMod) (ops : List (Op T))
    (hg : guarded ((fresh : RingBuffer T).Resize n) ops = true) :
    popCount ops ≤ (pushed ops).length ∧
    (run ((fresh : RingBuffer T).Resize n) ops).2
      = ((pushed ops).take (popCount ops)).map some := by
  obtain ⟨h1, h2, _⟩ := holds_run hn ops _ [] (holds_resize n hn1) hg
  rw [length_pushed]
  exact ⟨by simpa using h1, by simpa using h2⟩

/-- Witness of C1: capacity 2, the calls push 5, push 6, pop, push 7, pop, pop. -/
theorem C1_ring_buffer_fifo_witness :
    guarded ((fresh : RingBuffer Nat).Resize 2)
      [Op.push 5, Op.push 6, Op.pop, Op.push 7, Op.pop, Op.pop] = true ∧
    (run ((fresh : RingBuffer Nat).Resize 2)
      [Op.push 5, Op.push 6, Op.pop, Op.push 7, Op.pop, Op.pop]).2
      = [some 5, some 6, some 7] :=
  ⟨by decide,
   (C1_ring_buffer_fifo 2 (by decide) (by decide)
      [Op.push 5, Op.push 6, Op.pop, Op.push 7, Op.pop, Op.pop] (by decide)).2⟩

/-- C2: on a fresh ring buffer resized to `n >= 1`, after every sequence of guarded `Push`
and `Pop` calls, `Size()` equals the number of `Push` calls minus the number of `Pop`
calls (and the number of pops does not exceed the number of pushes). -/
theorem C2_ring_buffer_size {T : Type} [Inhabited T] (n : Nat) (hn1 : 1 ≤ n)
    (hn : n < SizeMod) (ops : List (Op T))
    (hg : guarded ((fresh : RingBuffer T).Resize n) ops = true) :
    popCount ops ≤ pushCount ops ∧
    (run ((fresh : RingBuffer T).Resize n) ops).1.Size = pushCount ops - popCount ops := by
  obtain ⟨h1, _, h3⟩ := holds_run hn ops _ [] (holds_resize n hn1) hg
  refine ⟨by simpa using h1, ?_⟩
  rw [Size, h3.size]
  simp [length_pushed]

/-- Witness of C2: capacity 2, the calls push 5, push 6, pop, push 7 leave `Size() = 2`. -/
theorem C2_ring_buffer_size_witness :
    guarded ((fresh : RingBuffer Nat).Resize 2)
      [Op.push 5, Op.push 6, Op.pop, Op.push 7] = true ∧
    (run ((fresh : RingBuffer Nat).Resize 2)
      [Op.push 5, Op.push 6, Op.pop, Op.push 7]).1.Size = 3 - 1 :=
  ⟨by decide,
   (C2_ring_buffer_size 2 (by decide) (by decide)
      [Op.push 5, Op.push 6, Op.pop, Op.push 7] (by decide)).2⟩

/-- C3: in every state reached from a fresh ring buffer by `Resize(n)`, `n >= 1`, and a
sequence of guarded `Push` and `Pop` calls, `0 <= Size() <= n`. -/
theorem C3_ring_buffer_size_bound {T : Type} [Inhabited T] (n : Nat) (hn1 : 1 ≤ n)
    (hn : n < SizeMod) (ops : List (Op T))
    (hg : guarded ((fresh : RingBuffer T).Resize n) ops = true) :
    0 ≤ (run ((fresh : RingBuffer T).Resize n) ops).1.Size ∧
    (run ((fresh : RingBuffer T).Resize n) ops).1.Size ≤ n := by
  obtain ⟨_, _, h3⟩ := holds_run hn ops _ [] (holds_resize n hn1) hg
  refine ⟨Nat.zero_le _, ?_⟩
  rw [Size, h3.size]
  exact h3.bound

/-- Witness of C3: capacity 1, the calls push 4, pop, push 9. -/
theorem C3_ring_buffer_size_bound_witness :
    guarded ((fresh : RingBuffer Nat).Resize 1) [Op.push 4, Op.pop, Op.push 9] = true ∧
    (run ((fresh : RingBuffer Nat).Resize 1) [Op.push 4, Op.pop, Op.push 9]).1.Size ≤ 1 :=
  ⟨by decide,
   (C3_ring_buffer_size_bound 1 (by decide) (by decide)
      [Op.push 4, Op.pop, Op.push 9] (by decide)).2⟩

/-- C4: in every state reached from a fresh ring buffer by `Resize(n)`, `n >= 1`, and a
sequence of guarded `Push` and `Pop` calls, `IsEmpty()` is true if and only if
`Size() == 0`. -/
theorem C4_ring_buffer_empty_flag {T : Type} [Inhabited T] (n : Nat) (hn1 : 1 ≤ n)
    (hn : n < SizeMod) (ops : List (Op T))
    (hg : guarded ((fresh : RingBuffer T).Resize n) ops = true) :
    (run ((fresh : RingBuffer T).Resize n) ops).1.IsEmpty = true ↔
      (run ((fresh : RingBuffer T).Resize n) ops).1.Size = 0 := by
  obtain ⟨_, _, h3⟩ := holds_run hn ops _ [] (holds_resize n hn1) hg
  rw [Size, RingBuffer.IsEmpty, h3.size, h3.empty, decide_eq_true_iff]

/-- Witness of C4: capacity 3, the calls push 1, push 2, pop, pop empty the buffer. -/
theorem C4_ring_buffer_empty_flag_witness :
    guarded ((fresh : RingBuffer Nat).Resize 3) [Op.push 1, Op.push 2, Op.pop, Op.pop] = true ∧
    ((run ((fresh : RingBuffer Nat).Resize 3)
        [Op.push 1, Op.push 2, Op.pop, Op.pop]).1.IsEmpty = true ↔
      (run ((fresh : RingBuffer Nat).Resize 3)
        [Op.push 1, Op.push 2, Op.pop, Op.pop]).1.Size = 0) :=
  ⟨by decide,
   C4_ring_buffer_empty_flag 3 (by decide) (by decide)
     [Op.push 1, Op.push 2, Op.pop, Op.pop] (by decide)⟩

/-- C5: in every state reached from a fresh ring buffer by `Resize(n)`, `n >= 1`, and a
sequence of guarded `Push` and `Pop` calls, `IsFull()` is true if and only if
`Size() == n`. -/
theorem C5_ring_buffer_full_flag {T : Type} [Inhabited T] (n : Nat) (hn1 : 1 ≤ n)
    (hn : n < SizeMod) (ops : List (Op T))
    (hg : guarded ((fresh : RingBuffer T).Resize n) ops = true) :
    (run ((fresh : RingBuffer T).Resize n) ops).1.IsFull = true ↔
      (run ((fresh : RingBuffer T).Resize n) ops).1.Size = n := by
  obtain ⟨_, _, h3⟩ := holds_run hn ops _ [] (holds_resize n hn1) hg
  rw [Size, IsFull, h3.size, h3.full, decide_eq_true_iff]

/-- Witness of C5: capacity 2, the calls push 1, pop, push 2, push 3 fill the buffer. -/
theorem C5_ring_buffer_full_flag_witness :
    guarded ((fresh : RingBuffer Nat).Resize 2) [Op.push 1, Op.pop, Op.push 2, Op.push 3] = true ∧
    ((run ((fresh : RingBuffer Nat).Resize 2)
        [Op.push 1, Op.pop, Op.push 2, Op.push 3]).1.IsFull = true ↔
      (run ((fresh : RingBuffer Nat).Resize 2)
        [Op.push 1, Op.pop, Op.push 2, Op.push 3]).1.Size = 2) :=
  ⟨by decide,
   C5_ring_buffer_full_flag 2 (by decide) (by decide)
     [Op.push 1, Op.pop, Op.push 2, Op.push 3] (by decide)⟩

/-- C6: `ClearData()` on the buffer reached by `Resize(2)` and `Push(5)` sets `IsEmpty()`
to true and `IsFull()` to false but leaves `Size()` at 1: the count is not reset. -/
theorem C6_clear_data_keeps_size :
    (((fresh : RingBuffer Nat).Resize 2).Push 5).ClearData.IsEmpty = true ∧
    (((fresh : RingBuffer Nat).Resize 2).Push 5).ClearData.IsFull = false ∧
    (((fresh : RingBuffer Nat).Resize 2).Push 5).ClearData.Size = 1 := by
  decide

/-- C7: on a fresh ring buffer resized to `n >= 1`, `IsFull()` is false after each of the
first `n - 1` pushes and true after the `n`-th; a producer that pushes only while
`IsFull()` is false and is offered `n + k` elements, `k >= 1`, stores `n` of them, and
popping until the buffer is empty returns exactly the first `n` offered elements, in
order. -/
theorem C7_ring_buffer_capacity {T : Type} [Inhabited T] (n k : Nat) (hn1 : 1 ≤ n)
    (hn : n < SizeMod) (hk : 1 ≤ k) (xs : List T) (hlen : xs.length = n + k) :
    (∀ j, 1 ≤ j → j ≤ n →
      (pushAll ((fresh : RingBuffer T).Resize n) (xs.take j)).IsFull = decide (j = n)) ∧
    (offerAll ((fresh : RingBuffer T).Resize n) xs).Size = n ∧
    (offerAll ((fresh : RingBuffer T).Resize n) xs).IsFull = true ∧
    (∀ fuel, n ≤ fuel →
      drain (offerAll ((fresh : RingBuffer T).Resize n) xs) fuel = (xs.take n).map some) := by
  have h0 : Holds n ((fresh : RingBuffer T).Resize n) [] := holds_resize n hn1
  have hoffer := holds_offerAll hn xs _ [] h0
  simp only [List.length_nil, Nat.sub_zero, List.nil_append] at hoffer
  have htake : (xs.take n).length = n := by simp [List.length_take]; omega
  refine ⟨?_, ?_, ?_, ?_⟩
  · intro j _ hj
    have hjl : (xs.take j).length = j := by simp [List.length_take]; omega
    have hp := holds_pushAll hn (xs.take j) _ [] h0 (by simp only [List.length_nil]; omega)
    simp only [List.nil_append] at hp
    rw [IsFull, hp.full, hjl]
  · rw [Size, hoffer.size, htake]
  · rw [IsFull, hoffer.full, htake]; simp
  · intro fuel hfuel
    exact drain_of_holds hn fuel _ _ hoffer (by omega)

/-- Witness of C7: capacity 2 and the three offered elements 1, 2, 3. -/
theorem C7_ring_buffer_capacity_witness :
    drain (offerAll ((fresh : RingBuffer Nat).Resize 2) [1, 2, 3]) 3 = [some 1, some 2] :=
  (C7_ring_buffer_capacity 2 1 (by decide) (by decide) (by decide) [1, 2, 3] rfl).2.2.2 3
    (by decide)

/-! ## The port-mapper properties -/

open PortMapperServer

/-- C8, as stated, fails: with an empty map, the reply to `GetPort("srv")` is not the
single frame `Error("Could not find port for server 'srv'.")`. -/
theorem C8_get_port_miss_message_counterexample :
    find ([] : List (String × Nat)) "srv" = none ∧
    (HandleClient { _ports := [], verbose := false, log := [] }
        (Channel.carrying (Frame.getPort "srv"))).channel.written
      ≠ [Frame.error "Could not find port for server 'srv'."] := by
  decide

/-- C8, amended: for every map state and every name without a binding in it, handling a
`GetPort(name)` request succeeds and sends exactly one frame, the frame
`Error("Could not find port for dSPACE VEOS CoSim server '<name>'.")`. -/
theorem C8_get_port_miss (server : PortMapperServer) (channel : Channel)
    (name : String) (rest : List Frame) (hmiss : find server._ports name = none)
    (hconn : channel.connected = true) (hreq : channel.pending = Frame.getPort name :: rest) :
    (HandleClient server channel).outcome = Outcome.returned true ∧
    (HandleClient server channel).channel.written = channel.written ++
      [Frame.error ("Could not find port for dSPACE VEOS CoSim server '" ++ name ++ "'.")] := by
  obtain ⟨h1, h2, _⟩ := HandleClient_getPort_miss server channel name rest hmiss hconn hreq
  exact ⟨h1, h2⟩

/-- Witness of C8: the map binds only "other"; the request is `GetPort("srv")`. -/
theorem C8_get_port_miss_witness :
    find [("other", 1)] "srv" = none ∧
    (HandleClient { _ports := [("other", 1)], verbose := false, log := [] }
        (Channel.carrying (Frame.getPort "srv"))).channel.written
      = [] ++ [Frame.error ("Could not find port for dSPACE VEOS CoSim server '" ++ "srv" ++ "'.")] :=
  ⟨by decide,
   (C8_get_port_miss { _ports := [("other", 1)], verbose := false, log := [] }
      (Channel.carrying (Frame.getPort "srv")) "srv" [] (by decide) rfl rfl).2⟩

/-- C9: for every map state, name and port `p`, handling `SetPort(name, p)` replies with
the single frame `Ok`, and a following `GetPort(name)` request is answered with the single
frame `GetPortOk(p)`, whatever was bound to the name before. -/
theorem C9_set_port_overwrites (server : PortMapperServer) (name : String) (p : Nat)
    (c1 c2 : Channel) (rest1 rest2 : List Frame)
    (hconn1 : c1.connected = true) (hreq1 : c1.pending = Frame.setPort name p :: rest1)
    (hconn2 : c2.connected = true) (hreq2 : c2.pending = Frame.getPort name :: rest2) :
    (HandleClient server c1).outcome = Outcome.returned true ∧
    (HandleClient server c1).channel.written = c1.written ++ [Frame.ok] ∧
    (HandleClient (HandleClient server c1).server c2).outcome = Outcome.returned true ∧
    (HandleClient (HandleClient server c1).server c2).channel.written
      = c2.written ++ [Frame.getPortOk p] := by
  obtain ⟨h1, h2, h3, _⟩ := HandleClient_setPort server c1 name p rest1 hconn1 hreq1
  have hhit : find (HandleClient server c1).server._ports name = some p := by
    rw [h3]; exact find_assign _ _ _
  obtain ⟨g1, g2, _⟩ :=
    HandleClient_getPort_hit (HandleClient server c1).server c2 name p rest2 hhit hconn2 hreq2
  exact ⟨h1, h2, g1, g2⟩

/-- Witness of C9: "srv" is bound to 1234, then `SetPort("srv", 40000)` and
`GetPort("srv")` arrive on two new connections. -/
theorem C9_set_port_overwrites_witness :
    (HandleClient
        (HandleClient { _ports := [("srv", 1234)], verbose := false, log := [] }
          (Channel.carrying (Frame.setPort "srv" 40000))).server
        (Channel.carrying (Frame.getPort "srv"))).channel.written
      = [] ++ [Frame.getPortOk 40000] :=
  (C9_set_port_overwrites { _ports := [("srv", 1234)], verbose := false, log := [] }
    "srv" 40000 (Channel.carrying (Frame.setPort "srv" 40000))
    (Channel.carrying (Frame.getPort "srv")) [] [] rfl rfl rfl rfl).2.2.2

/-- C10: for every map state and name, handling `UnsetPort(name)` replies with the single
frame `Ok` whether or not the name was bound; afterwards the name is unbound, and a
following `GetPort(name)` request is answered with a single frame of kind `Error`, not with
`GetPortOk`; handling `UnsetPort(name)` a second time gives the same reply and leaves the
same map. -/
theorem C10_unset_port (server : PortMapperServer) (name : String)
    (c1 c2 c3 : Channel) (rest1 rest2 rest3 : List Frame)
    (hconn1 : c1.connected = true) (hreq1 : c1.pending = Frame.unsetPort name :: rest1)
    (hconn2 : c2.connected = true) (hreq2 : c2.pending = Frame.getPort name :: rest2)
    (hconn3 : c3.connected = true) (hreq3 : c3.pending = Frame.unsetPort name :: rest3) :
    (HandleClient server c1).outcome = Outcome.returned true ∧
    (HandleClient server c1).channel.written = c1.written ++ [Frame.ok] ∧
    find (HandleClient server c1).server._ports name = none ∧
    (∃ reply, (HandleClient (HandleClient server c1).server c2).channel.written
        = c2.written ++ [reply] ∧ reply.kind = FrameKind.Error) ∧
    (HandleClient (HandleClient server c1).server c3).outcome = Outcome.returned true ∧
    (HandleClient (HandleClient server c1).server c3).channel.written
      = c3.written ++ [Frame.ok] ∧
    (HandleClient (HandleClient server c1).server c3).server._ports
      = (HandleClient server c1).server._ports := by
  obtain ⟨h1, h2, h3, _⟩ := HandleClient_unsetPort server c1 name rest1 hconn1 hreq1
  have hmiss : find (HandleClient server c1).server._ports name = none := by
    rw [h3]; exact find_erase _ _
  obtain ⟨_, g2, _⟩ :=
    HandleClient_getPort_miss (HandleClient server c1).server c2 name rest2 hmiss hconn2 hreq2
  obtain ⟨k1, k2, k3, _⟩ :=
    HandleClient_unsetPort (HandleClient server c1).server c3 name rest3 hconn3 hreq3
  refine ⟨h1, h2, hmiss, ⟨_, g2, rfl⟩, k1, k2, ?_⟩
  rw [k3, h3, erase_erase]

/-- Witness of C10: "srv" is bound to 40000 and "db" to 7; `UnsetPort("srv")` is handled
twice and leaves the map with "db" only. -/
theorem C10_unset_port_witness :
    (HandleClient
        (HandleClient { _ports := [("srv", 40000), ("db", 7)], verbose := false, log := [] }
          (Channel.carrying (Frame.unsetPort "srv"))).server
        (Channel.carrying (Frame.unsetPort "srv"))).server._ports
      = (HandleClient { _ports := [("srv", 40000), ("db", 7)], verbose := false, log := [] }
          (Channel.carrying (Frame.unsetPort "srv"))).server._ports :=
  (C10_unset_port { _ports := [("srv", 40000), ("db", 7)], verbose := false, log := [] }
    "srv" (Channel.carrying (Frame.unsetPort "srv")) (Channel.carrying (Frame.getPort "srv"))
    (Channel.carrying (Frame.unsetPort "srv")) [] [] [] rfl rfl rfl rfl rfl rfl).2.2.2.2.2.2

/-- C11: for every request whose header kind is none of `GetPort`, `SetPort` and
`UnsetPort`, `HandleClient` throws a `CoSimException` ("Received unexpected frame
<kind>.") instead of returning, sends no frame and leaves the server state, the map
included, unchanged; the loop of `RunPortMapperServer` catches the exception, logs it and
goes on to serve the connections accepted afterwards with the same map. -/
theorem C11_unexpected_request_kind (server : PortMapperServer) (channel : Channel)
    (frame : Frame) (rest : List Frame) (later : List (Except String (Option Channel)))
    (hconn : channel.connected = true) (hreq : channel.pending = frame :: rest)
    (hget : frame.kind ≠ FrameKind.GetPort) (hset : frame.kind ≠ FrameKind.SetPort)
    (hunset : frame.kind ≠ FrameKind.UnsetPort) :
    (HandleClient server channel).outcome
      = Outcome.thrown ("Received unexpected frame " ++ frame.kind.ToString ++ ".") ∧
    (HandleClient server channel).channel.written = channel.written ∧
    (HandleClient server channel).server = server ∧
    (RunPortMapperServer server (Except.ok (some channel) :: later)).1
      = (RunPortMapperServer
          (server.Log ("The following exception occurred in port mapper thread: "
            ++ ("Received unexpected frame " ++ frame.kind.ToString ++ "."))) later).1 ∧
    (RunPortMapperServer server (Except.ok (some channel) :: later)).2.tail
      = (RunPortMapperServer
          (server.Log ("The following exception occurred in port mapper thread: "
            ++ ("Received unexpected frame " ++ frame.kind.ToString ++ "."))) later).2 := by
  have key : HandleClient server channel
      = ⟨Outcome.thrown ("Received unexpected frame " ++ frame.kind.ToString ++ "."), server,
          { channel with pending := rest, current := some frame }⟩ := by
    obtain ⟨kind, text, port⟩ := frame
    cases kind <;>
      first
      | exact absurd rfl hget
      | exact absurd rfl hset
      | exact absurd rfl hunset
      | simp [HandleClient, Protocol.ReceiveHeader, hconn, hreq]
  refine ⟨by rw [key], by rw [key], by rw [key], ?_, ?_⟩ <;>
    simp only [RunPortMapperServer, key, List.tail_cons]

/-- Witness of C11: a `Ping` frame arrives as request; a `SetPort` request follows on the
next accepted connection. -/
theorem C11_unexpected_request_kind_witness :
    (HandleClient { _ports := [("srv", 1)], verbose := false, log := [] }
        (Channel.carrying { kind := FrameKind.Ping, text := none, port := none })).outcome
      = Outcome.thrown ("Received unexpected frame " ++ FrameKind.Ping.ToString ++ ".") :=
  (C11_unexpected_request_kind { _ports := [("srv", 1)], verbose := false, log := [] }
    (Channel.carrying { kind := FrameKind.Ping, text := none, port := none })
    { kind := FrameKind.Ping, text := none, port := none } []
    [Except.ok (some (Channel.carrying (Frame.setPort "db" 7)))]
    rfl rfl (by decide) (by decide) (by decide)).1

theorem CoSimException_what_of_no_nul (message : String)
    (h : ∀ c ∈ message.data, c ≠ Char.ofNat 0) : CoSimException_what message = message := by
  unfold CoSimException_what
  have : message.data.takeWhile (fun c => c != Char.ofNat 0) = message.data := by
    rw [List.takeWhile_eq_self_iff]
    intro c hc
    simpa using h c hc
  rw [this]

theorem CoSimException_what_unexpected (kind : FrameKind) :
    CoSimException_what
        ("PortMapper_GetPort: Received unexpected frame " ++ kind.ToString ++ ".")
      = "PortMapper_GetPort: Received unexpected frame " ++ kind.ToString ++ "." := by
  cases kind <;> decide

/-- C12: for a connection to the port mapper on which the reply `reply` is pending,
`PortMapper_GetPort` returns success with `port = p` when the reply is `GetPortOk`
carrying `p`, and throws for every other reply kind; whatever the connection, a successful
return comes from a `GetPortOk` reply whose port is the one reported. When the reply is an
`Error` frame with message `m` it throws a `CoSimException`, but the message of the
exception is `m` cut at its first NUL, because the constructor hands `message.data()` to
`std::runtime_error`: it is `m` only when `m` holds no NUL. The server of the repository
answers `GetPort` for the unbound name `"a\0b"` with the message "Could not find port for
dSPACE VEOS CoSim server 'a\0b'.", and the client then throws "Could not find port for
dSPACE VEOS CoSim server 'a". -/
theorem C12_client_get_port (verbose : Bool) (ipAddress serverName : String) (port : Nat) :
    (∀ (channel : Channel) (reply : Frame) (rest : List Frame) (p : Nat),
      channel.connected = true → channel.pending = reply :: rest →
      reply.kind = FrameKind.GetPortOk → reply.port = some p →
      (PortMapper_GetPort verbose (some channel) ipAddress serverName port).outcome
        = Outcome.returned true ∧
      (PortMapper_GetPort verbose (some channel) ipAddress serverName port).port = p) ∧
    (∀ (channel : Channel) (reply : Frame) (rest : List Frame) (m : String),
      channel.connected = true → channel.pending = reply :: rest →
      reply.kind = FrameKind.Error → reply.text = some m →
      (PortMapper_GetPort verbose (some channel) ipAddress serverName port).outcome
        = Outcome.thrown (CoSimException_what m) ∧
      ((∀ c ∈ m.data, c ≠ Char.ofNat 0) →
        (PortMapper_GetPort verbose (some channel) ipAddress serverName port).outcome
          = Outcome.thrown m)) ∧
    (∀ (channel : Channel) (reply : Frame) (rest : List Frame),
      channel.connected = true → channel.pending = reply :: rest →
      reply.kind ≠ FrameKind.GetPortOk → reply.kind ≠ FrameKind.Error →
      (PortMapper_GetPort verbose (some channel) ipAddress serverName port).outcome
        = Outcome.thrown
          ("PortMapper_GetPort: Received unexpected frame " ++ reply.kind.ToString ++ ".")) ∧
    (∀ (connection : Option Channel),
      (PortMapper_GetPort verbose connection ipAddress serverName port).outcome
        = Outcome.returned true →
      ∃ channel reply rest p, connection = some channel ∧ channel.pending = reply :: rest ∧
        reply.kind = FrameKind.GetPortOk ∧ reply.port = some p ∧
        (PortMapper_GetPort verbose connection ipAddress serverName port).port = p) ∧
    (HandleClient ⟨[], false, []⟩ (Channel.carrying (Frame.getPort "a\x00b"))).channel.written
      = [Frame.error "Could not find port for dSPACE VEOS CoSim server 'a\x00b'."] ∧
    (PortMapper_GetPort verbose
        (some ⟨[Frame.error "Could not find port for dSPACE VEOS CoSim server 'a\x00b'."],
          none, [], true⟩) ipAddress serverName port).outcome
      = Outcome.thrown "Could not find port for dSPACE VEOS CoSim server 'a" ∧
    "Could not find port for dSPACE VEOS CoSim server 'a"
      ≠ "Could not find port for dSPACE VEOS CoSim server 'a\x00b'." := by
  refine ⟨?_, ?_, ?_, ?_, ?_, ?_, by decide⟩
  · intro channel reply rest p hconn hreq hkind hport
    simp [PortMapper_GetPort, Protocol.SendGetPort, Protocol.Send, Protocol.ReceiveHeader,
      Protocol.ReadGetPortOk, hconn, hreq, hkind, hport]
  · intro channel reply rest m hconn hreq hkind htext
    have h : (PortMapper_GetPort verbose (some channel) ipAddress serverName port).outcome
        = Outcome.thrown (CoSimException_what m) := by
      simp [PortMapper_GetPort, Protocol.SendGetPort, Protocol.Send, Protocol.ReceiveHeader,
        Protocol.ReadError, hconn, hreq, hkind, htext]
    exact ⟨h, fun hm => by rw [h, CoSimException_what_of_no_nul m hm]⟩
  · intro channel reply rest hconn hreq hok herr
    rw [← CoSimException_what_unexpected reply.kind]
    obtain ⟨kind, text, rport⟩ := reply
    cases kind <;>
      first
      | exact absurd rfl hok
      | exact absurd rfl herr
      | simp [PortMapper_GetPort, Protocol.SendGetPort, Protocol.Send, Protocol.ReceiveHeader,
          hconn, hreq]
  · intro connection hsucc
    cases connection with
    | none => simp [PortMapper_GetPort] at hsucc
    | some channel =>
      cases hconn : channel.connected with
      | false =>
        simp [PortMapper_GetPort, Protocol.SendGetPort, Protocol.Send, hconn] at hsucc
      | true =>
        cases hpend : channel.pending with
        | nil =>
          simp [PortMapper_GetPort, Protocol.SendGetPort, Protocol.Send,
            Protocol.ReceiveHeader, hconn, hpend] at hsucc
        | cons reply rest =>
          obtain ⟨kind, text, rport⟩ := reply
          cases kind <;> cases rport <;> cases text <;>
            simp [PortMapper_GetPort, Protocol.SendGetPort, Protocol.Send,
              Protocol.ReceiveHeader, Protocol.ReadGetPortOk, Protocol.ReadError,
              hconn, hpend] at hsucc ⊢
  · decide
  · have hwhat : CoSimException_what
          "Could not find port for dSPACE VEOS CoSim server 'a\x00b'."
        = "Could not find port for dSPACE VEOS CoSim server 'a" := by decide
    simp [PortMapper_GetPort, Protocol.SendGetPort, Protocol.Send, Protocol.ReceiveHeader,
      Protocol.ReadError, Frame.error, hwhat]

/-! ## Data types, sockets -/

/-- C13: `GetDataTypeSize` returns 1 for `Bool`, `Int8`, `UInt8`, 2 for `Int16`, `UInt16`,
4 for `Int32`, `UInt32`, `Float32` and 8 for `Int64`, `UInt64`, `Float64`, so the width of
each of the eleven data types is one of 1, 2, 4, 8; for the sentinel and for every value
that names none of the eleven data types it returns 0. -/
theorem C13_data_type_size :
    GetDataTypeSize DsVeosCoSim_DataType_Bool = 1 ∧
    GetDataTypeSize DsVeosCoSim_DataType_Int8 = 1 ∧
    GetDataTypeSize DsVeosCoSim_DataType_UInt8 = 1 ∧
    GetDataTypeSize DsVeosCoSim_DataType_Int16 = 2 ∧
    GetDataTypeSize DsVeosCoSim_DataType_UInt16 = 2 ∧
    GetDataTypeSize DsVeosCoSim_DataType_Int32 = 4 ∧
    GetDataTypeSize DsVeosCoSim_DataType_UInt32 = 4 ∧
    GetDataTypeSize DsVeosCoSim_DataType_Float32 = 4 ∧
    GetDataTypeSize DsVeosCoSim_DataType_Int64 = 8 ∧
    GetDataTypeSize DsVeosCoSim_DataType_UInt64 = 8 ∧
    GetDataTypeSize DsVeosCoSim_DataType_Float64 = 8 ∧
    (∀ dataType, dataType ∈ dataTypes → GetDataTypeSize dataType ∈ [1, 2, 4, 8]) ∧
    GetDataTypeSize DsVeosCoSim_DataType_INT_MAX_SENTINEL_DO_NOT_USE_ = 0 ∧
    (∀ dataType, dataType ∉ dataTypes → GetDataTypeSize dataType = 0) := by
  refine ⟨by decide, by decide, by decide, by decide, by decide, by decide, by decide,
    by decide, by decide, by decide, by decide, ?_, by decide, ?_⟩
  · decide
  · intro dataType hnot
    simp only [dataTypes, List.mem_cons, List.mem_singleton, List.not_mem_nil, or_false,
      not_or] at hnot
    obtain ⟨h1, h2, h3, h4, h5, h6, h7, h8, h9, h10, h11⟩ := hnot
    simp [GetDataTypeSize, h1, h2, h3, h4, h5, h6, h7, h8, h9, h10, h11]

/-- C14: for every outcome of the underlying call, `Socket::Receive` and `Socket::Send`
return true if and only if the transferred byte count is positive; when the peer closed
(0 bytes), and when the call fails with `ConnectionAborted`, `ConnectionReset` or
`BrokenPipe`, they return false and log only the trace "Remote endpoint disconnected.";
when the call fails with any other error code they return false and log one error. -/
theorem C14_socket_disconnect (systemMessage : Int → String) (count errorCode : Int) :
    ((Socket.Receive systemMessage count errorCode).result = true ↔ 0 < count) ∧
    ((Socket.Send systemMessage count errorCode).result = true ↔ 0 < count) ∧
    (count = 0 ∨ (count < 0 ∧ (errorCode = ErrorCodeConnectionReset
        ∨ errorCode = ErrorCodeConnectionAborted ∨ errorCode = ErrorCodeBrokenPipe)) →
      (Socket.Receive systemMessage count errorCode).result = false ∧
      (Socket.Receive systemMessage count errorCode).log
        = [⟨LogFunction.LogTrace, "Remote endpoint disconnected."⟩] ∧
      (Socket.Send systemMessage count errorCode).result = false ∧
      (Socket.Send systemMessage count errorCode).log
        = [⟨LogFunction.LogTrace, "Remote endpoint disconnected."⟩]) ∧
    (count < 0 → errorCode ≠ ErrorCodeConnectionReset →
      errorCode ≠ ErrorCodeConnectionAborted → errorCode ≠ ErrorCodeBrokenPipe →
      (Socket.Receive systemMessage count errorCode).result = false ∧
      (Socket.Receive systemMessage count errorCode).log
        = [⟨LogFunction.LogError, "Could not receive from remote endpoint. "
            ++ GetSystemErrorMessage systemMessage errorCode⟩] ∧
      (Socket.Send systemMessage count errorCode).result = false ∧
      (Socket.Send systemMessage count errorCode).log
        = [⟨LogFunction.LogError, "Could not send to remote endpoint. "
            ++ GetSystemErrorMessage systemMessage errorCode⟩]) := by
  refine ⟨?_, ?_, ?_, ?_⟩
  · unfold Socket.Receive
    split_ifs <;> simp <;> omega
  · unfold Socket.Send
    split_ifs <;> simp <;> omega
  · rintro (h0 | ⟨hneg, hcode⟩)
    · subst h0
      simp [Socket.Receive, Socket.Send]
    · have h1 : ¬ 0 < count := by omega
      have h2 : ¬ count = 0 := by omega
      have h3 : errorCode = ErrorCodeConnectionAborted ∨ errorCode = ErrorCodeConnectionReset
          ∨ errorCode = ErrorCodeBrokenPipe := by tauto
      simp [Socket.Receive, Socket.Send, h1, h2, h3]
  · intro hneg hr ha hb
    have h1 : ¬ 0 < count := by omega
    have h2 : ¬ count = 0 := by omega
    simp [Socket.Receive, Socket.Send, h1, h2, hr, ha, hb]

theorem PollLoop_of_poll_zero (deadline remaining : Int) (pass : PollPass)
    (rest : List PollPass) (hremaining : 0 ≤ remaining) (hpoll : pass.pollResult = 0) :
    PollLoop deadline remaining (pass :: rest) = some (Except.ok false) := by
  have h1 : ¬ remaining < 0 := by omega
  simp [PollLoop, h1, hpoll]

theorem TryAccept_of_poll_false (self : Socket) (start : Int) (timeout : Nat)
    (passes : List PollPass) (accepted acceptError : Int) (hvalid : self.IsValid = true)
    (hpoll : Poll start timeout passes = some (Except.ok false)) :
    self.TryAccept start timeout passes accepted acceptError = some ⟨Except.ok none, 0⟩ := by
  simp [Socket.TryAccept, Socket.EnsureIsValid, hvalid, hpoll]

theorem TryConnectLoop_gives_up (localPort : Nat) (candidates : List ConnectAttempt)
    (h : ∀ a ∈ candidates,
      a.socket = InvalidSocket ∨
      (localPort ≠ 0 ∧ (a.ai_family = AddressFamily.Uds ∨ a.reuseAddressResult < 0
        ∨ a.bindResult < 0)) ∨
      (0 ≤ a.nonBlockingResult ∧ a.connectResult < 0 ∧ a.connectError = ErrorCodeWouldBlock ∧
        ¬ (0 < a.selectResult ∧ a.selectIsSet = true))) :
    TryConnectLoop localPort candidates = Except.ok none := by
  induction candidates with
  | nil => rfl
  | cons a rest ih =>
    have hrest := ih (fun b hb => h b (List.mem_cons_of_mem a hb))
    have ha := h a (List.mem_cons_self a rest)
    by_cases hsock : a.socket = InvalidSocket
    · simp [TryConnectLoop, hsock, hrest]
    · have hvalid : (⟨a.socket, a.ai_family, []⟩ : Socket).IsValid = true := by
        simp [Socket.IsValid, hsock]
      rcases ha with ha | ⟨hlocal, hbind⟩ | ⟨hnb, hconn, herr, hsel⟩
      · exact absurd ha hsock
      · simp only [TryConnectLoop, hsock, if_false, hlocal, ne_eq, not_false_eq_true, if_true,
          Socket.EnableReuseAddress, Socket.Bind, Socket.EnsureIsValid, hvalid, Bool.not_true]
        by_cases hfam : a.ai_family = AddressFamily.Uds
        · simp [hfam, hrest]
        · by_cases hreuse : a.reuseAddressResult < 0
          · simp [hfam, hreuse, hrest]
          · have hb : a.bindResult < 0 := by tauto
            simp [hfam, hreuse, hb, hrest]
      · have hcw : ConnectWithTimeout a = Except.ok false := by
          have h1 : ¬ a.nonBlockingResult < 0 := by omega
          have h2 : ¬ a.connectResult ≥ 0 := by omega
          simp only [ConnectWithTimeout, h1, h2, herr, if_false, ne_eq, not_true_eq_false]
          rw [if_neg]
          intro hc
          exact hsel ⟨hc.1, hc.2⟩
        simp only [TryConnectLoop, hsock, if_false, hcw, hrest]
        split <;> rfl

/-- C15, as stated, fails: with remote port 27027, no local port and a single candidate
address whose `::connect` fails at once with `ECONNREFUSED` (111), the candidate does not
become connected, and `TryConnect` throws "Could not connect." instead of returning an
empty optional. -/
theorem C15_try_connect_refused_counterexample :
    ConnectWithTimeout ⟨AF_INET, 3, 0, 0, 0, 0, 0, 0, -1, 111, 0, false, 0, 0⟩ ≠ Except.ok true ∧
    Socket.TryConnect 27027 0 (Except.ok [⟨AF_INET, 3, 0, 0, 0, 0, 0, 0, -1, 111, 0, false, 0, 0⟩])
      ≠ Except.ok none := by
  decide

/-- C15, amended: for every valid listening socket and timeout, if `Poll` reports no
readiness (in particular when the first `::poll` returns 0), `TryAccept` returns an empty
optional without calling `::accept` and without throwing; and for every remote port other
than 0 and every list of candidate addresses, if for each candidate the socket cannot be
created, or a local port is given and taking it fails, or the non-blocking `::connect` is
pending (`EINPROGRESS`) and does not complete within the timeout, `TryConnect` returns an
empty optional. -/
theorem C15_timeouts_give_empty (self : Socket) (start : Int) (timeout : Nat)
    (passes : List PollPass) (accepted acceptError : Int) (remotePort localPort : Nat)
    (candidates : List ConnectAttempt) (hvalid : self.IsValid = true)
    (hport : remotePort ≠ 0) :
    (Poll start timeout passes = some (Except.ok false) →
      self.TryAccept start timeout passes accepted acceptError
        = some ⟨Except.ok none, 0⟩) ∧
    (∀ pass rest, passes = pass :: rest → pass.pollResult = 0 →
      self.TryAccept start timeout passes accepted acceptError
        = some ⟨Except.ok none, 0⟩) ∧
    ((∀ a ∈ candidates,
        a.socket = InvalidSocket ∨
        (localPort ≠ 0 ∧ (a.ai_family = AddressFamily.Uds ∨ a.reuseAddressResult < 0
          ∨ a.bindResult < 0)) ∨
        (0 ≤ a.nonBlockingResult ∧ a.connectResult < 0 ∧
          a.connectError = ErrorCodeWouldBlock ∧
          ¬ (0 < a.selectResult ∧ a.selectIsSet = true))) →
      Socket.TryConnect remotePort localPort (Except.ok candidates) = Except.ok none) := by
  refine ⟨?_, ?_, ?_⟩
  · exact TryAccept_of_poll_false self start timeout passes accepted acceptError hvalid
  · intro pass rest hpasses hpoll
    apply TryAccept_of_poll_false self start timeout passes accepted acceptError hvalid
    rw [hpasses]
    exact PollLoop_of_poll_zero _ _ pass rest (by omega) hpoll
  · intro h
    simp only [Socket.TryConnect, hport, if_false]
    exact TryConnectLoop_gives_up localPort candidates h

/-- Witness of C15: a listening socket with handle 5 whose first `::poll` returns 0, and a
candidate address whose connect is pending and whose `::select` returns 0. -/
theorem C15_timeouts_give_empty_witness :
    (⟨5, AF_INET, []⟩ : Socket).TryAccept 1000 10 [⟨0, 0, 0, 0, 1010⟩] 7 0
      = some ⟨Except.ok none, 0⟩ ∧
    Socket.TryConnect 27027 0
        (Except.ok [⟨AF_INET, 3, 0, 0, 0, 0, 0, 0, -1, 115, 0, false, 0, 0⟩])
      = Except.ok none :=
  ⟨(C15_timeouts_give_empty ⟨5, AF_INET, []⟩ 1000 10 [⟨0, 0, 0, 0, 1010⟩] 7 0 27027 0
      [⟨AF_INET, 3, 0, 0, 0, 0, 0, 0, -1, 115, 0, false, 0, 0⟩] (by decide) (by decide)).2.1
      ⟨0, 0, 0, 0, 1010⟩ [] rfl rfl,
   (C15_timeouts_give_empty ⟨5, AF_INET, []⟩ 1000 10 [⟨0, 0, 0, 0, 1010⟩] 7 0 27027 0
      [⟨AF_INET, 3, 0, 0, 0, 0, 0, 0, -1, 115, 0, false, 0, 0⟩] (by decide) (by decide)).2.2
      (by decide)⟩

theorem c_str_GetUdsPath (name : List Nat) :
    c_str (GetUdsPath name) = UdsPathPrefix ++ c_str name := by
  unfold c_str GetUdsPath
  exact List.takeWhile_append_of_pos (by decide)

theorem take_c_str_GetUdsPath (name : List Nat) :
    (c_str (GetUdsPath name)).take 107
      = 100 :: ([83, 80, 65, 67, 69, 46, 86, 69, 79, 83, 46, 67, 111, 83, 105, 109, 46]
          ++ (c_str name).take 89) := by
  rw [c_str_GetUdsPath, List.take_append_eq_append_take]
  simp [UdsPathPrefix]

theorem set_strncpy_sun_path (source : List Nat) (body : List Nat)
    (hsource : source.take 107 = 100 :: body) :
    (strncpy (List.replicate SunPathSize 0) source (SunPathSize - 1)).set 0 0
      = 0 :: ((source.take 107 ++ List.replicate (108 - (source.take 107).length) 0).tail) := by
  have hlen : (source.take 107).length ≤ 107 := List.length_take_le 107 source
  unfold strncpy
  simp only [SunPathSize, Nat.add_one_sub_one] at *
  rw [hsource] at hlen ⊢
  simp only [List.length_cons] at hlen
  have h1 : 108 - (body.length + 1) = (107 - (body.length + 1)) + 1 := by omega
  simp only [List.cons_append, List.set_cons_zero, List.tail_cons, List.length_cons,
    List.drop_replicate, List.append_assoc, h1, List.replicate_succ']
  rfl

theorem length_sun_path (copied : List Nat) (hne : copied ≠ []) (hlen : copied.length ≤ 107) :
    (0 :: ((copied ++ List.replicate (108 - copied.length) 0).tail)).length = SunPathSize := by
  cases copied with
  | nil => exact absurd rfl hne
  | cons b bs =>
    simp only [List.length_cons] at hlen
    simp only [SunPathSize, List.cons_append, List.tail_cons, List.length_cons,
      List.length_append, List.length_replicate]
    omega

theorem BindName_address (self : Socket) (name : List Nat) (bindResult bindError : Int)
    (hvalid : self.IsValid = true) (hfamily : self._addressFamily = AddressFamily.Uds)
    (hname : name ≠ []) :
    (self.BindName name bindResult bindError).address
      = some ⟨AF_UNIX, 0 :: (((c_str (GetUdsPath name)).take 107
        ++ List.replicate (108 - ((c_str (GetUdsPath name)).take 107).length) 0).tail)⟩ := by
  have hempty : name.isEmpty = false := by
    cases name with
    | nil => exact absurd rfl hname
    | cons b bs => rfl
  have hpath := set_strncpy_sun_path (c_str (GetUdsPath name)) _ (take_c_str_GetUdsPath name)
  unfold Socket.BindName
  simp only [Socket.EnsureIsValid, hvalid, hfamily, hempty, hpath, Bool.not_true, ne_eq,
    not_true_eq_false, if_false, Bool.false_eq_true]
  split <;> rfl

theorem TryConnectName_address (self : Socket) (name : List Nat) (connectResult : Int)
    (hvalid : self.IsValid = true) (hfamily : self._addressFamily = AddressFamily.Uds)
    (hname : name ≠ []) :
    (self.TryConnectName name connectResult).address
      = some ⟨AF_UNIX, 0 :: (((c_str (GetUdsPath name)).take 107
        ++ List.replicate (108 - ((c_str (GetUdsPath name)).take 107).length) 0).tail)⟩ := by
  have hempty : name.isEmpty = false := by
    cases name with
    | nil => exact absurd rfl hname
    | cons b bs => rfl
  have hpath := set_strncpy_sun_path (c_str (GetUdsPath name)) _ (take_c_str_GetUdsPath name)
  unfold Socket.TryConnectName
  simp only [Socket.EnsureIsValid, hvalid, hfamily, hempty, hpath, Bool.not_true, ne_eq,
    not_true_eq_false, if_false, Bool.false_eq_true]

/-- C16: for every non-empty name, on a valid Unix-domain socket, `Socket::TryConnect(name)`
and `Socket::Bind(name)` hand the same socket address to `::connect` and `::bind`: family
`AF_UNIX`, a `sun_path` of 108 bytes whose first byte is zero and whose other bytes are
those of the C string of the path `dSPACE.VEOS.CoSim.<name>`, cut after 107 bytes and
padded with zeros; for a name without NUL byte of at most 89 bytes these are all bytes of
the path but the first. -/
theorem C16_uds_address (self : Socket) (name : List Nat)
    (connectResult bindResult bindError : Int) (hvalid : self.IsValid = true)
    (hfamily : self._addressFamily = AddressFamily.Uds) (hname : name ≠ []) :
    (self.TryConnectName name connectResult).address
      = (self.BindName name bindResult bindError).address ∧
    ∃ address, (self.BindName name bindResult bindError).address = some address ∧
      address.sun_family = AF_UNIX ∧
      address.sun_path.length = SunPathSize ∧
      address.sun_path.head? = some 0 ∧
      address.sun_path = 0 :: (((c_str (GetUdsPath name)).take 107
        ++ List.replicate (108 - ((c_str (GetUdsPath name)).take 107).length) 0).tail) ∧
      ((∀ b ∈ name, b ≠ 0) → name.length ≤ 89 →
        address.sun_path
          = 0 :: ((GetUdsPath name).tail ++ List.replicate (90 - name.length) 0)) := by
  have hbind := BindName_address self name bindResult bindError hvalid hfamily hname
  have hconnect := TryConnectName_address self name connectResult hvalid hfamily hname
  have htake := take_c_str_GetUdsPath name
  refine ⟨by rw [hbind, hconnect], _, hbind, rfl, ?_, rfl, rfl, ?_⟩
  · have hlen : ((c_str (GetUdsPath name)).take 107).length ≤ 107 := List.length_take_le _ _
    show (0 :: (((c_str (GetUdsPath name)).take 107
        ++ List.replicate (108 - ((c_str (GetUdsPath name)).take 107).length) 0).tail)).length
      = SunPathSize
    have hne : (c_str (GetUdsPath name)).take 107 ≠ [] := by rw [htake]; simp
    exact length_sun_path _ hne hlen
  · intro hnul hshort
    have hc : c_str name = name := by
      unfold c_str
      rw [List.takeWhile_eq_self_iff]
      intro b hb
      simpa using hnul b hb
    show 0 :: (((c_str (GetUdsPath name)).take 107
        ++ List.replicate (108 - ((c_str (GetUdsPath name)).take 107).length) 0).tail)
      = 0 :: ((GetUdsPath name).tail ++ List.replicate (90 - name.length) 0)
    rw [htake, hc, List.take_of_length_le hshort]
    have h1 : 108 - (100 :: ([83, 80, 65, 67, 69, 46, 86, 69, 79, 83, 46, 67, 111, 83, 105,
        109, 46] ++ name)).length = 90 - name.length := by
      simp only [List.length_cons, List.length_append, List.length_nil]
      omega
    rw [h1]
    rfl

/-- Witness of C16: the socket with handle 3 and the name "ab". -/
theorem C16_uds_address_witness :
    ((⟨3, AF_UNIX, []⟩ : Socket).TryConnectName [97, 98] 0).address
      = ((⟨3, AF_UNIX, []⟩ : Socket).BindName [97, 98] 0 0).address :=
  (C16_uds_address ⟨3, AF_UNIX, []⟩ [97, 98] 0 0 0 (by decide) rfl (by decide)).1

/-! ### Round trips of the wire encoding -/

namespace Wire

theorem decodeU8_encodeU8 (v : Nat) (rest : List Nat) (hv : v < 256) :
    decodeU8 (encodeU8 v ++ rest) = some (v, rest) := by
  simp only [encodeU8, decodeU8, List.cons_append, List.nil_append, Option.some.injEq,
    Prod.mk.injEq, and_true]
  omega

theorem decodeU16_encodeU16 (v : Nat) (rest : List Nat) (hv : v < 65536) :
    decodeU16 (encodeU16 v ++ rest) = some (v, rest) := by
  simp only [encodeU16, decodeU16, List.cons_append, List.nil_append, Option.some.injEq,
    Prod.mk.injEq, and_true]
  omega

theorem decodeU32_encodeU32 (v : Nat) (rest : List Nat) (hv : v < 4294967296) :
    decodeU32 (encodeU32 v ++ rest) = some (v, rest) := by
  simp only [encodeU32, decodeU32, List.cons_append, List.nil_append, Option.some.injEq,
    Prod.mk.injEq, and_true]
  omega

theorem decodeU64_encodeU64 (v : Nat) (rest : List Nat) (hv : v < 18446744073709551616) :
    decodeU64 (encodeU64 v ++ rest) = some (v, rest) := by
  simp only [encodeU64, decodeU64, List.cons_append, List.nil_append, Option.some.injEq,
    Prod.mk.injEq, and_true]
  omega

theorem decodeI64_encodeI64 (v : Int) (rest : List Nat)
    (hlow : -9223372036854775808 ≤ v) (hhigh : v < 9223372036854775808) :
    decodeI64 (encodeI64 v ++ rest) = some (v, rest) := by
  unfold decodeI64 encodeI64
  rw [decodeU64_encodeU64 _ _ (by omega)]
  simp only
  split_ifs with h
  · simp only [Option.some.injEq, Prod.mk.injEq, and_true]; omega
  · simp only [Option.some.injEq, Prod.mk.injEq, and_true]; omega

theorem decodeBytes_append (s rest : List Nat) :
    decodeBytes s.length (s ++ rest) = some (s, rest) := by
  simp [decodeBytes]

theorem decodeString_encodeString (s rest : List Nat) (hs : s.length < 4294967296) :
    decodeString (encodeString s ++ rest) = some (s, rest) := by
  unfold decodeString encodeString
  rw [List.append_assoc, decodeU32_encodeU32 _ _ hs]
  exact decodeBytes_append s rest

theorem decodeMany_encodeAll {α : Type} (encode : α → List Nat)
    (decode : List Nat → Option (α × List Nat)) (valid : α → Prop)
    (h : ∀ x rest, valid x → decode (encode x ++ rest) = some (x, rest)) :
    ∀ (xs : List α) (rest : List Nat), (∀ x ∈ xs, valid x) →
      decodeMany decode xs.length (encodeAll encode xs ++ rest) = some (xs, rest) := by
  intro xs
  induction xs with
  | nil => intro rest _; rfl
  | cons x xs ih =>
    intro rest hvalid
    simp only [List.length_cons, encodeAll, decodeMany, List.append_assoc]
    rw [h x _ (hvalid x (List.mem_cons_self x xs))]
    simp only
    rw [ih rest (fun y hy => hvalid y (List.mem_cons_of_mem x hy))]

theorem decodeVector_encodeVector {α : Type} (encode : α → List Nat)
    (decode : List Nat → Option (α × List Nat)) (valid : α → Prop)
    (h : ∀ x rest, valid x → decode (encode x ++ rest) = some (x, rest))
    (xs : List α) (rest : List Nat) (hlen : xs.length < 4294967296)
    (hvalid : ∀ x ∈ xs, valid x) :
    decodeVector decode (encodeVector encode xs ++ rest) = some (xs, rest) := by
  unfold decodeVector encodeVector
  rw [List.append_assoc, decodeU32_encodeU32 _ _ hlen]
  exact decodeMany_encodeAll encode decode valid h xs rest hvalid

end Wire

namespace Wire

theorem decodeIoSignal_encodeIoSignal (s : IoSignal) (rest : List Nat) (h : s.Valid) :
    decodeIoSignal (encodeIoSignal s ++ rest) = some (s, rest) := by
  obtain ⟨h1, h2, h3, h4, h5⟩ := h
  simp only [IsU32, IsWireString] at h1 h2 h3 h4 h5
  simp [decodeIoSignal, encodeIoSignal, List.append_assoc, decodeU32_encodeU32,
    decodeString_encodeString, h1, h2, h3, h4, h5]

theorem decodeCanController_encodeCanController (c : CanController) (rest : List Nat)
    (h : c.Valid) : decodeCanController (encodeCanController c ++ rest) = some (c, rest) := by
  obtain ⟨h1, h2, h3, h4, h5, h6, h7⟩ := h
  simp only [IsU32, IsU64, IsWireString] at h1 h2 h3 h4 h5 h6 h7
  simp [decodeCanController, encodeCanController, List.append_assoc, decodeU32_encodeU32,
    decodeU64_encodeU64, decodeString_encodeString, h1, h2, h3, h4, h5, h6, h7]

theorem decodeEthController_encodeEthController (c : EthController) (rest : List Nat)
    (h : c.Valid) : decodeEthController (encodeEthController c ++ rest) = some (c, rest) := by
  obtain ⟨h1, h2, h3, h4, h5, h6, h7⟩ := h
  simp only [IsU32, IsU64, IsWireString] at h1 h2 h3 h5 h6 h7
  have hmac := decodeBytes_append c.macAddress
  rw [h4] at hmac
  simp [decodeEthController, encodeEthController, List.append_assoc, decodeU32_encodeU32,
    decodeU64_encodeU64, decodeString_encodeString, hmac, h1, h2, h3, h5, h6, h7]

theorem decodeLinController_encodeLinController (c : LinController) (rest : List Nat)
    (h : c.Valid) : decodeLinController (encodeLinController c ++ rest) = some (c, rest) := by
  obtain ⟨h1, h2, h3, h4, h5, h6, h7⟩ := h
  simp only [IsU32, IsU64, IsWireString] at h1 h2 h3 h4 h5 h6 h7
  simp [decodeLinController, encodeLinController, List.append_assoc, decodeU32_encodeU32,
    decodeU64_encodeU64, decodeString_encodeString, h1, h2, h3, h4, h5, h6, h7]

theorem decodeCanMessage_encodeCanMessage (m : CanMessage) (rest : List Nat) (h : m.Valid) :
    decodeCanMessage (encodeCanMessage m ++ rest) = some (m, rest) := by
  obtain ⟨h1, h2, ⟨h3, h3'⟩, h4, h5, h6⟩ := h
  simp only [IsU32, CanMessageMaxLength] at h1 h2 h4 h5
  have hlen : m.length < 4294967296 := by omega
  have hnot : ¬ m.length > CanMessageMaxLength := by simp only [CanMessageMaxLength]; omega
  have hdata := decodeBytes_append m.data rest
  rw [h6] at hdata
  simp [decodeCanMessage, encodeCanMessage, List.append_assoc, decodeU32_encodeU32,
    decodeI64_encodeI64, hdata, h1, h2, h3, h3', h4, hlen, hnot]

theorem decodeEthMessage_encodeEthMessage (m : EthMessage) (rest : List Nat) (h : m.Valid) :
    decodeEthMessage (encodeEthMessage m ++ rest) = some (m, rest) := by
  obtain ⟨h1, ⟨h3, h3'⟩, h4, h5, h6⟩ := h
  simp only [IsU32, EthMessageMaxLength] at h1 h4 h5
  have hlen : m.length < 4294967296 := by omega
  have hnot : ¬ m.length > EthMessageMaxLength := by simp only [EthMessageMaxLength]; omega
  have hdata := decodeBytes_append m.data rest
  rw [h6] at hdata
  simp [decodeEthMessage, encodeEthMessage, List.append_assoc, decodeU32_encodeU32,
    decodeI64_encodeI64, hdata, h1, h3, h3', h4, hlen, hnot]

theorem decodeLinMessage_encodeLinMessage (m : LinMessage) (rest : List Nat) (h : m.Valid) :
    decodeLinMessage (encodeLinMessage m ++ rest) = some (m, rest) := by
  obtain ⟨h1, h2, ⟨h3, h3'⟩, h4, h5, h6⟩ := h
  simp only [IsU32, LinMessageMaxLength] at h1 h2 h4 h5
  have hlen : m.length < 4294967296 := by omega
  have hnot : ¬ m.length > LinMessageMaxLength := by simp only [LinMessageMaxLength]; omega
  have hdata := decodeBytes_append m.data rest
  rw [h6] at hdata
  simp [decodeLinMessage, encodeLinMessage, List.append_assoc, decodeU32_encodeU32,
    decodeI64_encodeI64, hdata, h1, h2, h3, h3', h4, hlen, hnot]

theorem decodeBusPayload_encodeBusPayload (bus : BusPayload) (rest : List Nat)
    (h : bus.Valid) : decodeBusPayload (encodeBusPayload bus ++ rest) = some (bus, rest) := by
  obtain ⟨h1, h2, h3, h4, h5, h6⟩ := h
  have hcan := fun r => decodeVector_encodeVector encodeCanMessage decodeCanMessage
    CanMessage.Valid decodeCanMessage_encodeCanMessage bus.can r h1 h2
  have heth := fun r => decodeVector_encodeVector encodeEthMessage decodeEthMessage
    EthMessage.Valid decodeEthMessage_encodeEthMessage bus.eth r h3 h4
  have hlin := fun r => decodeVector_encodeVector encodeLinMessage decodeLinMessage
    LinMessage.Valid decodeLinMessage_encodeLinMessage bus.lin r h5 h6
  simp [decodeBusPayload, encodeBusPayload, List.append_assoc, hcan, heth, hlin]

theorem decodeIoEntry_encodeIoEntry (signals : List IoSignal) (e : IoEntry)
    (rest : List Nat) (h : e.Valid signals) :
    decodeIoEntry signals (encodeIoEntry e ++ rest) = some (e, rest) := by
  obtain ⟨h1, h2, h3, h4, h5⟩ := h
  simp only [IsU32] at h1 h3
  have hdata := decodeBytes_append e.data rest
  rw [h5] at hdata
  by_cases hv : e.signal.sizeKind = DsVeosCoSim_SizeKind_Variable
  · simp [decodeIoEntry, encodeIoEntry, List.append_assoc, decodeU32_encodeU32, h1, h2, h3,
      hv, hdata]
  · have hfix := h4 hv
    simp [decodeIoEntry, encodeIoEntry, List.append_assoc, decodeU32_encodeU32, h1, h2,
      hv, hdata, ← hfix]

theorem decodeIoPayload_encodeIoPayload (signals : List IoSignal) (entries : List IoEntry)
    (rest : List Nat) (hlen : IsU32 entries.length) (h : ∀ e ∈ entries, e.Valid signals) :
    decodeIoPayload signals (encodeIoPayload entries ++ rest) = some (entries, rest) :=
  decodeVector_encodeVector encodeIoEntry (decodeIoEntry signals) (IoEntry.Valid signals)
    (decodeIoEntry_encodeIoEntry signals) entries rest hlen h

theorem ReceiveHeader_encodeU8 (kind : FrameKind) (payload : List Nat) :
    ReceiveHeader (encodeU8 kind.toByte ++ payload) = some (kind, payload) := by
  cases kind <;> rfl

theorem Read_Send (signals : List IoSignal) (frame : WireFrame) (rest : List Nat)
    (h : frame.Valid signals) :
    ∃ payload, Send frame ++ rest = encodeU8 frame.kind.toByte ++ payload ∧
      Read signals frame.kind payload = some (frame, rest) := by
  cases frame with
  | Ok => exact ⟨rest, rfl, rfl⟩
  | Error message =>
    refine ⟨encodeString message ++ rest, by simp [Send, WireFrame.kind], ?_⟩
    simp only [WireFrame.Valid, IsWireString] at h
    simp [Read, WireFrame.kind, decodeString_encodeString, h]
  | Ping => exact ⟨rest, rfl, rfl⟩
  | PingOk command =>
    refine ⟨encodeU32 command ++ rest, by simp [Send, WireFrame.kind], ?_⟩
    simp only [WireFrame.Valid, IsU32] at h
    simp [Read, WireFrame.kind, decodeU32_encodeU32, h]
  | Connect version mode serverName clientName =>
    refine ⟨_, by simp only [Send, WireFrame.kind, List.append_assoc]; rfl, ?_⟩
    obtain ⟨h1, h2, h3, h4⟩ := h
    simp only [IsU32, IsWireString] at h1 h2 h3 h4
    simp [Read, WireFrame.kind, decodeU32_encodeU32, decodeString_encodeString, h1, h2, h3, h4]
  | ConnectOk protocolVersion mode stepSize simulationState incomingSignals outgoingSignals
      canControllers ethControllers linControllers =>
    refine ⟨_, by simp only [Send, WireFrame.kind, List.append_assoc]; rfl, ?_⟩
    obtain ⟨h1, h2, ⟨h3, h3'⟩, h4, h5, h6, h7, h8, h9, h10, h11, h12, h13, h14⟩ := h
    simp only [IsU32] at h1 h2 h4
    have hin := fun r => decodeVector_encodeVector encodeIoSignal decodeIoSignal
      IoSignal.Valid decodeIoSignal_encodeIoSignal incomingSignals r h5 h6
    have hout := fun r => decodeVector_encodeVector encodeIoSignal decodeIoSignal
      IoSignal.Valid decodeIoSignal_encodeIoSignal outgoingSignals r h7 h8
    have hcan := fun r => decodeVector_encodeVector encodeCanController decodeCanController
      CanController.Valid decodeCanController_encodeCanController canControllers r h9 h10
    have heth := fun r => decodeVector_encodeVector encodeEthController decodeEthController
      EthController.Valid decodeEthController_encodeEthController ethControllers r h11 h12
    have hlin := fun r => decodeVector_encodeVector encodeLinController decodeLinController
      LinController.Valid decodeLinController_encodeLinController linControllers r h13 h14
    simp [Read, WireFrame.kind, decodeU32_encodeU32, decodeI64_encodeI64, h1, h2, h3, h3', h4,
      hin, hout, hcan, heth, hlin]
  | Start simulationTime =>
    refine ⟨_, by simp only [Send, WireFrame.kind, List.append_assoc]; rfl, ?_⟩
    obtain ⟨h1, h2⟩ := h
    simp [Read, WireFrame.kind, decodeI64_encodeI64, h1, h2]
  | Stop simulationTime =>
    refine ⟨_, by simp only [Send, WireFrame.kind, List.append_assoc]; rfl, ?_⟩
    obtain ⟨h1, h2⟩ := h
    simp [Read, WireFrame.kind, decodeI64_encodeI64, h1, h2]
  | Terminate simulationTime terminateReason =>
    refine ⟨_, by simp only [Send, WireFrame.kind, List.append_assoc]; rfl, ?_⟩
    obtain ⟨⟨h1, h2⟩, h3⟩ := h
    simp only [IsU32] at h3
    simp [Read, WireFrame.kind, decodeI64_encodeI64, decodeU32_encodeU32, h1, h2, h3]
  | Pause simulationTime =>
    refine ⟨_, by simp only [Send, WireFrame.kind, List.append_assoc]; rfl, ?_⟩
    obtain ⟨h1, h2⟩ := h
    simp [Read, WireFrame.kind, decodeI64_encodeI64, h1, h2]
  | Continue simulationTime =>
    refine ⟨_, by simp only [Send, WireFrame.kind, List.append_assoc]; rfl, ?_⟩
    obtain ⟨h1, h2⟩ := h
    simp [Read, WireFrame.kind, decodeI64_encodeI64, h1, h2]
  | Step simulationTime io bus =>
    refine ⟨_, by simp only [Send, WireFrame.kind, List.append_assoc]; rfl, ?_⟩
    obtain ⟨⟨h1, h2⟩, h3, h4, h5⟩ := h
    have hio := fun r => decodeIoPayload_encodeIoPayload signals io r h3 h4
    have hbus := fun r => decodeBusPayload_encodeBusPayload bus r h5
    simp [Read, WireFrame.kind, decodeI64_encodeI64, h1, h2, hio, hbus]
  | StepOk simulationTime nextCommand io bus =>
    refine ⟨_, by simp only [Send, WireFrame.kind, List.append_assoc]; rfl, ?_⟩
    obtain ⟨⟨h1, h2⟩, h3, h4, h5, h6⟩ := h
    simp only [IsU32] at h3
    have hio := fun r => decodeIoPayload_encodeIoPayload signals io r h4 h5
    have hbus := fun r => decodeBusPayload_encodeBusPayload bus r h6
    simp [Read, WireFrame.kind, decodeI64_encodeI64, decodeU32_encodeU32, h1, h2, h3, hio,
      hbus]
  | GetPort name =>
    refine ⟨_, by simp only [Send, WireFrame.kind, List.append_assoc]; rfl, ?_⟩
    simp only [WireFrame.Valid, IsWireString] at h
    simp [Read, WireFrame.kind, decodeString_encodeString, h]
  | GetPortOk port =>
    refine ⟨_, by simp only [Send, WireFrame.kind, List.append_assoc]; rfl, ?_⟩
    simp only [WireFrame.Valid] at h
    simp [Read, WireFrame.kind, decodeU16_encodeU16, h]
  | SetPort name port =>
    refine ⟨_, by simp only [Send, WireFrame.kind, List.append_assoc]; rfl, ?_⟩
    obtain ⟨h1, h2⟩ := h
    simp only [IsWireString] at h1
    simp [Read, WireFrame.kind, decodeString_encodeString, decodeU16_encodeU16, h1, h2]
  | UnsetPort name =>
    refine ⟨_, by simp only [Send, WireFrame.kind, List.append_assoc]; rfl, ?_⟩
    simp only [WireFrame.Valid, IsWireString] at h
    simp [Read, WireFrame.kind, decodeString_encodeString, h]

end Wire

/-! ## The wire protocol -/

/-- C17: for every frame of every kind whose fields fit the types of the wire format
(strings are arbitrary bytes, so non-ASCII UTF-8 is included; commands, modes and reasons
are arbitrary 32-bit numbers; `ConnectOk` carries vectors of signals and of CAN, Ethernet
and LIN controllers), sending the frame with `Send` and then running `ReceiveHeader` and
the `Read` of the kind on the bytes yields the kind of the frame and the frame itself,
field by field and in the same element order, and leaves the bytes that follow the frame. -/
theorem C17_protocol_round_trip (signals : List IoSignal) (frame : WireFrame)
    (rest : List Nat) (hvalid : frame.Valid signals) :
    ∃ payload, Wire.ReceiveHeader (Wire.Send frame ++ rest) = some (frame.kind, payload) ∧
      Wire.Read signals frame.kind payload = some (frame, rest) ∧
      Wire.Receive signals (Wire.Send frame ++ rest) = some (frame, rest) := by
  obtain ⟨payload, hsend, hread⟩ := Wire.Read_Send signals frame rest hvalid
  have hheader : Wire.ReceiveHeader (Wire.Send frame ++ rest) = some (frame.kind, payload) := by
    rw [hsend]; exact Wire.ReceiveHeader_encodeU8 frame.kind payload
  refine ⟨payload, hheader, hread, ?_⟩
  simp [Wire.Receive, hheader, hread]

/-- Witness of C17: the frame `SetPort` with a name that ends in a three-byte UTF-8
character and the port 40000, followed by one more byte. -/
theorem C17_protocol_round_trip_witness :
    Wire.Receive [] (Wire.Send (WireFrame.SetPort [83, 114, 118, 229, 144, 141] 40000) ++ [1])
      = some (WireFrame.SetPort [83, 114, 118, 229, 144, 141] 40000, [1]) :=
  (C17_protocol_round_trip [] (WireFrame.SetPort [83, 114, 118, 229, 144, 141] 40000) [1]
    (by simp [WireFrame.Valid, IsWireString])).choose_spec.2.2

/-! ### Lemmas on signal slots -/

namespace SignalSlot

theorem initial_wellFormed (d : IoSignal) : (initial d).WellFormed := by
  refine ⟨?_, ?_, ?_⟩
  · simp [initial, elementWidth]
  · simp only [initial]; split <;> omega
  · intro h
    simp only [initial] at h ⊢
    rw [if_neg h]

theorem store_descriptor (slot : SignalSlot) (length : Nat) (source : List Nat) :
    (slot.store length source).descriptor = slot.descriptor := by
  unfold store; split <;> rfl

theorem store_elementWidth (slot : SignalSlot) (length : Nat) (source : List Nat) :
    (slot.store length source).elementWidth = slot.elementWidth := by
  unfold elementWidth; rw [store_descriptor]

theorem store_dirty_of_dirty (slot : SignalSlot) (length : Nat) (source : List Nat)
    (h : slot.dirty = true) : (slot.store length source).dirty = true := by
  unfold store; split
  · rfl
  · exact h

theorem store_eq_of_clean (slot : SignalSlot) (length : Nat) (source : List Nat)
    (h : (slot.store length source).dirty = false) : slot.store length source = slot := by
  unfold store at h ⊢
  split
  · rename_i hc; simp [hc] at h
  · rfl

theorem store_length_value (slot : SignalSlot) (length : Nat) (source : List Nat)
    (hwf : slot.WellFormed) (haccept : slot.accepts length = true)
    (hsource : source.length = length * slot.elementWidth) :
    (slot.store length source).currentLength = length ∧
    (slot.store length source).value = source ∧
    (slot.store length source).WellFormed := by
  have hle : length ≤ slot.descriptor.length := by
    unfold accepts at haccept
    split at haccept
    · simpa using haccept
    · have := of_decide_eq_true haccept; omega
  have hbytes : length * slot.elementWidth ≤ slot.storage.length := by
    rw [hwf.storage_length]; exact Nat.mul_le_mul_right _ hle
  have htake : source.take (length * slot.elementWidth) = source :=
    List.take_of_length_le (by omega)
  unfold store
  split
  · refine ⟨rfl, ?_, ?_, ?_, ?_⟩
    · show ((source.take (length * slot.elementWidth)
          ++ slot.storage.drop (length * slot.elementWidth)).take
            (length * slot.elementWidth)) = source
      rw [htake, List.take_append_of_le_length (le_of_eq hsource.symm),
        List.take_of_length_le (le_of_eq hsource)]
    · show (source.take (length * slot.elementWidth)
          ++ slot.storage.drop (length * slot.elementWidth)).length
        = slot.descriptor.length * slot.elementWidth
      rw [htake, List.length_append, List.length_drop, hsource]
      have := hwf.storage_length
      omega
    · exact hle
    · intro hfixed
      unfold accepts at haccept
      rw [if_neg hfixed] at haccept
      exact of_decide_eq_true haccept
  · rename_i hc
    simp only [not_or, not_not, not_and] at hc
    obtain ⟨hsame, hlen⟩ := hc
    have hcur : slot.currentLength = length := by
      by_cases hv : slot.descriptor.sizeKind = DsVeosCoSim_SizeKind_Variable
      · exact hlen hv
      · rw [hwf.fixed hv]
        unfold accepts at haccept
        rw [if_neg hv] at haccept
        exact (of_decide_eq_true haccept).symm
    refine ⟨hcur, ?_, hwf⟩
    simp only [value, hcur, hsame, htake]

theorem store_store (slot : SignalSlot) (length : Nat) (source : List Nat)
    (hcur : slot.currentLength = length)
    (hvalue : slot.value = source.take (length * slot.elementWidth)) :
    slot.store length source = slot := by
  unfold store
  rw [if_neg]
  simp only [not_or, not_not, not_and]
  refine ⟨?_, fun _ => hcur⟩
  rw [← hvalue, value, hcur]

theorem receive_descriptor (slot : SignalSlot) (length : Nat) (data : List Nat) :
    (slot.receive length data).descriptor = slot.descriptor := rfl

theorem receive_length_value (slot : SignalSlot) (length : Nat) (data : List Nat)
    (hwf : slot.WellFormed) (hle : length ≤ slot.descriptor.length)
    (hfixed : slot.descriptor.sizeKind ≠ DsVeosCoSim_SizeKind_Variable →
      length = slot.descriptor.length)
    (hdata : data.length = length * slot.elementWidth) :
    (slot.receive length data).currentLength = length ∧
    (slot.receive length data).value = data ∧
    (slot.receive length data).WellFormed := by
  have hbytes : length * slot.elementWidth ≤ slot.storage.length := by
    rw [hwf.storage_length]; exact Nat.mul_le_mul_right _ hle
  refine ⟨rfl, ?_, ?_, hle, hfixed⟩
  · show ((data ++ slot.storage.drop data.length).take (length * slot.elementWidth)) = data
    rw [List.take_append_of_le_length (le_of_eq hdata.symm),
      List.take_of_length_le (le_of_eq hdata)]
  · show (data ++ slot.storage.drop data.length).length
      = slot.descriptor.length * slot.elementWidth
    rw [List.length_append, List.length_drop, hdata]
    have := hwf.storage_length
    omega

theorem write_descriptor (slot : SignalSlot) (call : WriteCall) :
    (slot.write call).descriptor = slot.descriptor := by
  unfold write; split
  · exact store_descriptor _ _ _
  · rfl

theorem write_dirty_of_dirty (slot : SignalSlot) (call : WriteCall) (h : slot.dirty = true) :
    (slot.write call).dirty = true := by
  unfold write; split
  · exact store_dirty_of_dirty _ _ _ h
  · exact h

theorem write_eq_of_clean (slot : SignalSlot) (call : WriteCall)
    (h : (slot.write call).dirty = false) : slot.write call = slot := by
  unfold write at h ⊢
  split
  · rename_i hc; rw [if_pos hc] at h; exact store_eq_of_clean _ _ _ h
  · rfl

theorem write_wellFormed (slot : SignalSlot) (call : WriteCall) (hwf : slot.WellFormed)
    (hfit : slot.descriptor.id = call.id →
      call.source.length = call.length * slot.elementWidth) :
    (slot.write call).WellFormed := by
  unfold write; split
  · rename_i hc
    exact (store_length_value slot call.length call.source hwf hc.2 (hfit hc.1)).2.2
  · exact hwf

theorem foldl_write_descriptor (calls : List WriteCall) (slot : SignalSlot) :
    (calls.foldl write slot).descriptor = slot.descriptor := by
  induction calls generalizing slot with
  | nil => rfl
  | cons c cs ih => simp only [List.foldl_cons]; rw [ih, write_descriptor]

theorem foldl_write_dirty_of_dirty (calls : List WriteCall) (slot : SignalSlot)
    (h : slot.dirty = true) : (calls.foldl write slot).dirty = true := by
  induction calls generalizing slot with
  | nil => exact h
  | cons c cs ih => simp only [List.foldl_cons]; exact ih _ (write_dirty_of_dirty _ _ h)

theorem foldl_write_eq_of_clean (calls : List WriteCall) (slot : SignalSlot)
    (h : (calls.foldl write slot).dirty = false) : calls.foldl write slot = slot := by
  induction calls generalizing slot with
  | nil => rfl
  | cons c cs ih =>
    simp only [List.foldl_cons] at h ⊢
    have hstep : (slot.write c).dirty = false := by
      by_contra hd
      have hd' : (slot.write c).dirty = true := by simpa using hd
      rw [foldl_write_dirty_of_dirty cs _ hd'] at h
      exact Bool.noConfusion h
    rw [ih _ h, write_eq_of_clean _ _ hstep]

theorem foldl_write_wellFormed (calls : List WriteCall) (slot : SignalSlot)
    (hwf : slot.WellFormed)
    (hfit : ∀ c ∈ calls, slot.descriptor.id = c.id →
      c.source.length = c.length * slot.elementWidth) :
    (calls.foldl write slot).WellFormed := by
  induction calls generalizing slot with
  | nil => exact hwf
  | cons c cs ih =>
    simp only [List.foldl_cons]
    apply ih
    · exact write_wellFormed slot c hwf (hfit c (List.mem_cons_self c cs))
    · intro c' hc' hid
      rw [write_descriptor] at hid
      have := hfit c' (List.mem_cons_of_mem c hc') hid
      simpa [elementWidth, write_descriptor] using this

theorem foldl_write_of_no_call (calls : List WriteCall) (slot : SignalSlot)
    (h : ∀ c ∈ calls, c.id ≠ slot.descriptor.id) : calls.foldl write slot = slot := by
  induction calls generalizing slot with
  | nil => rfl
  | cons c cs ih =>
    simp only [List.foldl_cons]
    have hc : slot.write c = slot := by
      unfold write
      rw [if_neg]
      intro hh
      exact h c (List.mem_cons_self c cs) hh.1.symm
    rw [hc]
    exact ih slot (fun c' hc' => h c' (List.mem_cons_of_mem c hc'))

end SignalSlot

/-! ### Lemmas on the I/O-signal buffer -/

namespace IoBuffer

theorem firstDuplicate_none (l : List Nat) :
    ∀ seen, firstDuplicate seen l = none → l.Nodup ∧ ∀ x ∈ l, x ∉ seen := by
  induction l with
  | nil => intro seen _; exact ⟨List.nodup_nil, fun x hx => absurd hx (List.not_mem_nil x)⟩
  | cons a l ih =>
    intro seen h
    unfold firstDuplicate at h
    split at h
    · exact Option.noConfusion h
    · rename_i hnot
      obtain ⟨hnodup, hseen⟩ := ih (a :: seen) h
      refine ⟨List.nodup_cons.mpr ⟨fun ha => ?_, hnodup⟩, ?_⟩
      · exact hseen a ha (List.mem_cons_self a seen)
      · intro x hx
        rcases List.mem_cons.mp hx with rfl | hx
        · exact hnot
        · exact fun hs => hseen x hx (List.mem_cons_of_mem a hs)

theorem construct_ok (incomingSignals outgoingSignals : List IoSignal) (buffer : IoBuffer)
    (h : construct incomingSignals outgoingSignals = Except.ok buffer) :
    buffer = ⟨incomingSignals.map SignalSlot.initial, outgoingSignals.map SignalSlot.initial⟩ ∧
    ((incomingSignals ++ outgoingSignals).map (fun s => s.id)).Nodup := by
  unfold construct at h
  split at h
  · exact Except.noConfusion h
  · rename_i hnone
    refine ⟨?_, (firstDuplicate_none _ [] hnone).1⟩
    injection h with h
    exact h.symm

theorem map_eq_self {α : Type} (f : α → α) (l : List α) (h : ∀ x ∈ l, f x = x) :
    l.map f = l := by
  induction l with
  | nil => rfl
  | cons a l ih =>
    simp only [List.map_cons]
    rw [h a (List.mem_cons_self a l), ih (fun x hx => h x (List.mem_cons_of_mem a hx))]

theorem write_step (buffer : IoBuffer) (call : WriteCall)
    (hnodup : (buffer.outgoing.map (fun slot => slot.descriptor.id)).Nodup) :
    (match buffer.Write call.id call.length call.source with
      | Except.ok next => next
      | Except.error _ => buffer)
      = { buffer with outgoing := buffer.outgoing.map (fun s => s.write call) } := by
  have hinj := List.inj_on_of_nodup_map hnodup
  unfold Write
  cases hfind : buffer.outgoing.find? (fun slot => slot.descriptor.id == call.id) with
  | none =>
    simp only
    rw [map_eq_self]
    intro s hs
    have := List.find?_eq_none.mp hfind s hs
    unfold SignalSlot.write
    rw [if_neg]
    intro hh
    exact this (by simp [hh.1])
  | some slot0 =>
    have hmem : slot0 ∈ buffer.outgoing := List.mem_of_find?_eq_some hfind
    have hid : slot0.descriptor.id = call.id := by
      have := List.find?_some hfind
      simpa using this
    have hsame : ∀ s ∈ buffer.outgoing, s.descriptor.id = call.id → s = slot0 :=
      fun s hs hsid => hinj hs hmem (hsid.trans hid.symm)
    have haccepted : slot0.accepts call.length = true →
        buffer.outgoing.map (fun s =>
          if s.descriptor.id == call.id then s.store call.length call.source else s)
        = buffer.outgoing.map (fun s => s.write call) := by
      intro hacc
      apply List.map_congr_left
      intro s hs
      unfold SignalSlot.write
      by_cases hsid : s.descriptor.id = call.id
      · have := hsame s hs hsid
        subst this
        simp [hsid, hacc]
      · simp [hsid]
    have hrejected : slot0.accepts call.length = false →
        buffer.outgoing.map (fun s => s.write call) = buffer.outgoing := by
      intro hrej
      apply map_eq_self
      intro s hs
      unfold SignalSlot.write
      rw [if_neg]
      rintro ⟨hsid, hacc⟩
      have := hsame s hs hsid
      subst this
      rw [hrej] at hacc
      exact Bool.noConfusion hacc
    simp only
    by_cases hv : slot0.descriptor.sizeKind = DsVeosCoSim_SizeKind_Variable
    · simp only [hv, if_true]
      by_cases hlen : call.length > slot0.descriptor.length
      · simp only [hlen, if_true]
        rw [hrejected (by simp [SignalSlot.accepts, hv]; omega)]
      · simp only [hlen, if_false]
        rw [haccepted (by simp [SignalSlot.accepts, hv]; omega)]
    · simp only [hv, if_false]
      by_cases hlen : call.length ≠ slot0.descriptor.length
      · simp only [hlen, if_true, ne_eq, not_false_eq_true]
        rw [hrejected (by simp [SignalSlot.accepts, hv]; exact hlen)]
      · simp only [hlen, if_false]
        rw [haccepted (by simp [SignalSlot.accepts, hv]; simpa using hlen)]

theorem writeAll_eq (calls : List WriteCall) (buffer : IoBuffer)
    (hnodup : (buffer.outgoing.map (fun slot => slot.descriptor.id)).Nodup) :
    buffer.writeAll calls
      = { buffer with
          outgoing := buffer.outgoing.map (fun s => calls.foldl SignalSlot.write s) } := by
  induction calls generalizing buffer with
  | nil => simp [writeAll]
  | cons c cs ih =>
    have hstep := write_step buffer c hnodup
    have hids : (buffer.outgoing.map (fun s => s.write c)).map
        (fun slot : SignalSlot => slot.descriptor.id)
        = buffer.outgoing.map (fun slot => slot.descriptor.id) := by
      rw [List.map_map]
      apply List.map_congr_left
      intro s _
      show (s.write c).descriptor.id = s.descriptor.id
      rw [SignalSlot.write_descriptor]
    have hnext : buffer.writeAll (c :: cs)
        = (match buffer.Write c.id c.length c.source with
            | Except.ok next => next
            | Except.error _ => buffer).writeAll cs := by
      show (match buffer.Write c.id c.length c.source with
            | Except.ok next => writeAll next cs
            | Except.error _ => writeAll buffer cs) = _
      cases buffer.Write c.id c.length c.source <;> rfl
    rw [hnext, hstep, ih _ (by rw [hids]; exact hnodup)]
    simp only [List.map_map]
    rfl

end IoBuffer

namespace SignalSlot

theorem take_descriptor (slot : SignalSlot) (e : IoEntry) :
    (slot.take e).descriptor = slot.descriptor := by
  unfold take; split <;> rfl

theorem foldl_take_descriptor (entries : List IoEntry) (slot : SignalSlot) :
    (entries.foldl take slot).descriptor = slot.descriptor := by
  induction entries generalizing slot with
  | nil => rfl
  | cons e es ih => simp only [List.foldl_cons]; rw [ih, take_descriptor]

theorem foldl_take_of_no_entry (entries : List IoEntry) (slot : SignalSlot)
    (h : ∀ e ∈ entries, e.signal.id ≠ slot.descriptor.id) :
    entries.foldl take slot = slot := by
  induction entries generalizing slot with
  | nil => rfl
  | cons e es ih =>
    simp only [List.foldl_cons]
    have he : slot.take e = slot := by
      unfold take
      rw [if_neg]
      exact fun hh => h e (List.mem_cons_self e es) hh.symm
    rw [he]
    exact ih slot (fun e' he' => h e' (List.mem_cons_of_mem e he'))

theorem foldl_take_entries (ws : List SignalSlot) (r w : SignalSlot)
    (hnodup : (ws.map (fun slot => slot.descriptor.id)).Nodup) (hw : w ∈ ws)
    (hid : w.descriptor.id = r.descriptor.id) :
    ((ws.filter (fun slot => slot.dirty)).map entry).foldl take r
      = if w.dirty = true then r.receive w.currentLength w.value else r := by
  induction ws generalizing r with
  | nil => exact absurd hw (List.not_mem_nil w)
  | cons a rest ih =>
    simp only [List.map_cons, List.nodup_cons, List.mem_map, not_exists, not_and] at hnodup
    obtain ⟨hfresh, hrest⟩ := hnodup
    have hnone : ∀ (r' : SignalSlot), r'.descriptor.id = a.descriptor.id →
        ((rest.filter (fun slot => slot.dirty)).map entry).foldl take r' = r' := by
      intro r' hr'
      apply foldl_take_of_no_entry
      intro e he
      obtain ⟨s, hs, rfl⟩ := List.mem_map.mp he
      have hs' : s ∈ rest := (List.mem_filter.mp hs).1
      intro hh
      exact hfresh s hs' (by rw [hr'] at hh; exact hh)
    rcases List.mem_cons.mp hw with rfl | hwrest
    · by_cases hd : w.dirty = true
      · simp only [List.filter_cons, hd, if_true, List.map_cons, List.foldl_cons]
        have htake : r.take (entry w) = r.receive w.currentLength w.value := by
          unfold take entry
          simp [hid]
        rw [htake]
        exact hnone _ (by rw [receive_descriptor]; exact hid.symm)
      · simp only [List.filter_cons, hd, if_false]
        exact hnone r hid.symm
    · have hne : a.descriptor.id ≠ r.descriptor.id := by
        intro hh
        exact hfresh w hwrest (by rw [hid, hh])
      by_cases hd : a.dirty = true
      · simp only [List.filter_cons, hd, if_true, List.map_cons, List.foldl_cons]
        have htake : r.take (entry a) = r := by
          unfold take entry
          rw [if_neg]
          exact fun hh => hne hh.symm
        rw [htake]
        exact ih r hrest hwrest hid
      · simp only [List.filter_cons, hd, if_false]
        exact ih r hrest hwrest hid

theorem value_length (slot : SignalSlot) (hwf : slot.WellFormed) :
    slot.value.length = slot.currentLength * slot.elementWidth := by
  unfold value
  rw [List.length_take, hwf.storage_length]
  exact Nat.min_eq_left (Nat.mul_le_mul_right _ hwf.length_le)

theorem find_descriptor (ws : List SignalSlot) (w : SignalSlot)
    (hnodup : (ws.map (fun slot => slot.descriptor.id)).Nodup) (hw : w ∈ ws) :
    (ws.map (fun slot => slot.descriptor)).find? (fun s => s.id == w.descriptor.id)
      = some w.descriptor := by
  induction ws with
  | nil => exact absurd hw (List.not_mem_nil w)
  | cons a rest ih =>
    simp only [List.map_cons, List.nodup_cons, List.mem_map, not_exists, not_and] at hnodup
    obtain ⟨hfresh, hrest⟩ := hnodup
    rcases List.mem_cons.mp hw with rfl | hwrest
    · simp
    · have hne : ¬ a.descriptor.id = w.descriptor.id := fun hh => hfresh w hwrest hh.symm
      have hbf : (a.descriptor.id == w.descriptor.id) = false := by simpa using hne
      simp only [List.map_cons, List.find?_cons, hbf]
      exact ih hrest hwrest

theorem entry_valid (ws : List SignalSlot) (w : SignalSlot)
    (hnodup : (ws.map (fun slot => slot.descriptor.id)).Nodup) (hw : w ∈ ws)
    (hwf : w.WellFormed) (hid : IsU32 w.descriptor.id) (hlen : IsU32 w.descriptor.length) :
    (entry w).Valid (ws.map (fun slot => slot.descriptor)) := by
  refine ⟨hid, find_descriptor ws w hnodup hw, ?_, hwf.fixed, value_length w hwf⟩
  have := hwf.length_le
  simp only [IsU32, entry] at hlen ⊢
  omega

end SignalSlot

namespace IoBuffer

theorem applyEntry_eq (buffer : IoBuffer) (e : IoEntry) :
    buffer.applyEntry e
      = { buffer with incoming := buffer.incoming.map (fun slot => slot.take e) } := by
  unfold applyEntry SignalSlot.take
  congr 1
  apply List.map_congr_left
  intro s _
  by_cases h : s.descriptor.id = e.signal.id <;> simp [h]

theorem foldl_applyEntry (entries : List IoEntry) (buffer : IoBuffer) :
    entries.foldl applyEntry buffer
      = { buffer with
          incoming := buffer.incoming.map (fun slot => entries.foldl SignalSlot.take slot) } := by
  induction entries generalizing buffer with
  | nil => simp
  | cons e es ih =>
    simp only [List.foldl_cons]
    rw [ih, applyEntry_eq]
    simp only [List.map_map]
    rfl

theorem forall₂_imp_mem {α β : Type} {R S : α → β → Prop} {l₁ : List α} {l₂ : List β}
    (h : List.Forall₂ R l₁ l₂) (himp : ∀ a b, a ∈ l₁ → b ∈ l₂ → R a b → S a b) :
    List.Forall₂ S l₁ l₂ := by
  induction h with
  | nil => exact List.Forall₂.nil
  | cons hab _ ih =>
    exact List.Forall₂.cons (himp _ _ (List.mem_cons_self _ _) (List.mem_cons_self _ _) hab)
      (ih (fun a b ha hb hr =>
        himp a b (List.mem_cons_of_mem _ ha) (List.mem_cons_of_mem _ hb) hr))

theorem forall₂_find {R : SignalSlot → SignalSlot → Prop} {l₁ l₂ : List SignalSlot}
    (h : List.Forall₂ R l₁ l₂) (hdesc : ∀ a b, R a b → a.descriptor = b.descriptor)
    (id : Nat) (w : SignalSlot)
    (hfind : l₁.find? (fun slot => slot.descriptor.id == id) = some w) :
    ∃ r, l₂.find? (fun slot => slot.descriptor.id == id) = some r ∧ R w r := by
  induction h with
  | nil => simp at hfind
  | @cons a b l₁ l₂ hab _ ih =>
    have hd := hdesc a b hab
    by_cases hid : a.descriptor.id = id
    · have hb : b.descriptor.id = id := by rw [← hd]; exact hid
      simp only [List.find?_cons, hid, beq_self_eq_true, Option.some.injEq] at hfind
      subst hfind
      exact ⟨b, by simp [hb], hab⟩
    · have hb : ¬ b.descriptor.id = id := by rw [← hd]; exact hid
      have hbf : (a.descriptor.id == id) = false := by simpa using hid
      simp only [List.find?_cons, hbf] at hfind
      obtain ⟨r, hr, hR⟩ := ih hfind
      exact ⟨r, by simp [hb, hr], hR⟩

end IoBuffer

namespace IoBuffer

theorem forall₂_map_eq {α β γ : Type} {R : α → β → Prop} {l₁ : List α} {l₂ : List β}
    (f : α → γ) (g : β → γ) (h : List.Forall₂ R l₁ l₂) (hfg : ∀ a b, R a b → f a = g b) :
    l₁.map f = l₂.map g := by
  induction h with
  | nil => rfl
  | cons hab _ ih => simp only [List.map_cons, hfg _ _ hab, ih]

theorem forall₂_exists_right {α β : Type} {R : α → β → Prop} {l₁ : List α} {l₂ : List β}
    (h : List.Forall₂ R l₁ l₂) (a : α) (ha : a ∈ l₁) : ∃ b, b ∈ l₂ ∧ R a b := by
  induction h with
  | nil => exact absurd ha (List.not_mem_nil a)
  | cons hab _ ih =>
    rcases List.mem_cons.mp ha with rfl | ha'
    · exact ⟨_, List.mem_cons_self _ _, hab⟩
    · obtain ⟨b, hb, hr⟩ := ih ha'
      exact ⟨b, List.mem_cons_of_mem _ hb, hr⟩

/-- The effect of one step on a writer and a reader that are in step. -/
theorem step_of_inSync (writer reader : IoBuffer) (calls : List WriteCall) (t : Int)
    (h : writer.InSync reader)
    (hfit : ∀ c ∈ calls, c.Fits (writer.outgoing.map (fun slot => slot.descriptor))) :
    ∃ reader', step writer reader calls t
        = some ({ writer with
                  outgoing := writer.outgoing.map (fun s =>
                    { calls.foldl SignalSlot.write s with dirty := false }) },
                reader',
                ((writer.outgoing.map (fun s => calls.foldl SignalSlot.write s)).filter
                  (fun slot => slot.dirty)).map
                    (fun w => ⟨t, w.descriptor, w.currentLength, w.value⟩)) ∧
      InSync { writer with
                outgoing := writer.outgoing.map (fun s =>
                  { calls.foldl SignalSlot.write s with dirty := false }) } reader' := by
  obtain ⟨hmirrors, hnodup, hids, hcount⟩ := h
  -- the writer after the calls
  have hwrite := writeAll_eq calls writer hnodup
  have hdesc : ∀ s : SignalSlot, (calls.foldl SignalSlot.write s).descriptor = s.descriptor :=
    fun s => SignalSlot.foldl_write_descriptor calls s
  have hids1 : (writer.outgoing.map (fun s => calls.foldl SignalSlot.write s)).map
      (fun slot : SignalSlot => slot.descriptor.id)
      = writer.outgoing.map (fun slot => slot.descriptor.id) := by
    rw [List.map_map]
    apply List.map_congr_left
    intro s _
    show (calls.foldl SignalSlot.write s).descriptor.id = s.descriptor.id
    rw [hdesc]
  have hnodup1 : ((writer.outgoing.map (fun s => calls.foldl SignalSlot.write s)).map
      (fun slot : SignalSlot => slot.descriptor.id)).Nodup := by rw [hids1]; exact hnodup
  have htable : reader.incoming.map (fun slot => slot.descriptor)
      = (writer.outgoing.map (fun s => calls.foldl SignalSlot.write s)).map
          (fun slot => slot.descriptor) := by
    rw [List.map_map]
    symm
    exact forall₂_map_eq _ _ hmirrors (fun a b hab => by
      show (calls.foldl SignalSlot.write a).descriptor = b.descriptor
      rw [hdesc]; exact hab.descriptor)
  have hwf1 : ∀ w ∈ writer.outgoing, (calls.foldl SignalSlot.write w).WellFormed := by
    intro w hw
    obtain ⟨r, _, hm⟩ := forall₂_exists_right hmirrors w hw
    apply SignalSlot.foldl_write_wellFormed calls w hm.writer
    intro c hc hid
    exact hfit c hc w.descriptor (List.mem_map.mpr ⟨w, hw, rfl⟩) hid
  -- the entries sent are valid for the table of the reader
  have hvalid : ∀ e ∈ (writer.writeAll calls).changedEntries,
      e.Valid (reader.incoming.map (fun slot => slot.descriptor)) := by
    intro e he
    rw [hwrite] at he
    obtain ⟨w1, hw1, rfl⟩ := List.mem_map.mp he
    have hw1mem : w1 ∈ writer.outgoing.map (fun s => calls.foldl SignalSlot.write s) :=
      (List.mem_filter.mp hw1).1
    obtain ⟨w, hw, rfl⟩ := List.mem_map.mp hw1mem
    rw [htable]
    refine SignalSlot.entry_valid _ _ hnodup1 hw1mem (hwf1 w hw) ?_ ?_
    · rw [hdesc]; exact (hids w hw).1
    · rw [hdesc]; exact (hids w hw).2
  have hlen : IsU32 (writer.writeAll calls).changedEntries.length := by
    rw [hwrite]
    simp only [changedEntries, List.length_map, IsU32] at hcount ⊢
    have := List.length_filter_le (fun slot : SignalSlot => slot.dirty)
      (writer.outgoing.map (fun s => calls.foldl SignalSlot.write s))
    simp only [List.length_map] at this
    omega
  have hdecode := Wire.decodeIoPayload_encodeIoPayload
    (reader.incoming.map (fun slot => slot.descriptor))
    (writer.writeAll calls).changedEntries [] hlen hvalid
  rw [List.append_nil] at hdecode
  refine ⟨(writer.writeAll calls).changedEntries.foldl applyEntry reader, ?_, ?_⟩
  · simp only [step, transfer, Serialize, Deserialize, hdecode, if_true]
    rw [hwrite]
    simp only [changedEntries, List.map_map]
    rfl
  · refine ⟨?_, ?_, ?_, ?_⟩
    · rw [foldl_applyEntry]
      simp only [List.forall₂_map_left_iff, List.forall₂_map_right_iff]
      apply forall₂_imp_mem hmirrors
      intro w r hw _ hm
      have hw1mem : calls.foldl SignalSlot.write w
          ∈ writer.outgoing.map (fun s => calls.foldl SignalSlot.write s) :=
        List.mem_map.mpr ⟨w, hw, rfl⟩
      have hentries : (writer.writeAll calls).changedEntries.foldl SignalSlot.take r
          = if (calls.foldl SignalSlot.write w).dirty = true then
              r.receive (calls.foldl SignalSlot.write w).currentLength
                (calls.foldl SignalSlot.write w).value
            else r := by
        rw [hwrite]
        exact SignalSlot.foldl_take_entries _ r _ hnodup1 hw1mem
          (by rw [hdesc, hm.descriptor])
      rw [hentries]
      by_cases hd : (calls.foldl SignalSlot.write w).dirty = true
      · rw [if_pos hd]
        have hwf := hwf1 w hw
        have hdr : (calls.foldl SignalSlot.write w).descriptor = r.descriptor := by
          rw [hdesc]; exact hm.descriptor
        have hwidth : (calls.foldl SignalSlot.write w).elementWidth = r.elementWidth := by
          unfold SignalSlot.elementWidth; rw [hdr]
        obtain ⟨h1, h2, h3⟩ := SignalSlot.receive_length_value r
          (calls.foldl SignalSlot.write w).currentLength (calls.foldl SignalSlot.write w).value
          hm.reader (by rw [← hdr]; exact hwf.length_le)
          (by rw [← hdr]; exact hwf.fixed)
          (by rw [← hwidth]; exact SignalSlot.value_length _ hwf)
        exact ⟨hdr, h1.symm, h2.symm, rfl, ⟨hwf.storage_length, hwf.length_le, hwf.fixed⟩, h3⟩
      · rw [if_neg hd]
        have hclean : (calls.foldl SignalSlot.write w).dirty = false := by simpa using hd
        have heq := SignalSlot.foldl_write_eq_of_clean calls w hclean
        rw [heq]
        exact ⟨hm.descriptor, hm.length, hm.value, rfl,
          ⟨hm.writer.storage_length, hm.writer.length_le, hm.writer.fixed⟩, hm.reader⟩
    · show ((writer.outgoing.map (fun s =>
          ({ calls.foldl SignalSlot.write s with dirty := false } : SignalSlot))).map
            (fun slot => slot.descriptor.id)).Nodup
      rw [List.map_map]
      have : writer.outgoing.map ((fun slot : SignalSlot => slot.descriptor.id) ∘ fun s =>
          ({ calls.foldl SignalSlot.write s with dirty := false } : SignalSlot))
          = writer.outgoing.map (fun slot => slot.descriptor.id) := by
        apply List.map_congr_left
        intro s _
        show (calls.foldl SignalSlot.write s).descriptor.id = s.descriptor.id
        rw [hdesc]
      rw [this]; exact hnodup
    · intro slot hslot
      obtain ⟨w, hw, rfl⟩ := List.mem_map.mp hslot
      show IsU32 (calls.foldl SignalSlot.write w).descriptor.id
        ∧ IsU32 (calls.foldl SignalSlot.write w).descriptor.length
      rw [hdesc]; exact hids w hw
    · show IsU32 (writer.outgoing.map _).length
      rw [List.length_map]; exact hcount

end IoBuffer

namespace IoBuffer

theorem construct_inSync (incomingW signals outgoingR : List IoSignal)
    (writer reader : IoBuffer)
    (hwriter : construct incomingW signals = Except.ok writer)
    (hreader : construct signals outgoingR = Except.ok reader)
    (hsignals : ∀ s ∈ signals, IsU32 s.id ∧ IsU32 s.length) (hcount : IsU32 signals.length) :
    writer.InSync reader ∧ writer.outgoing.map (fun slot => slot.descriptor) = signals := by
  obtain ⟨rfl, _⟩ := construct_ok _ _ _ hwriter
  obtain ⟨rfl, hnodup⟩ := construct_ok _ _ _ hreader
  rw [List.map_append] at hnodup
  have hmap : (signals.map SignalSlot.initial).map (fun slot => slot.descriptor) = signals := by
    rw [List.map_map]
    exact map_eq_self _ _ (fun s _ => rfl)
  refine ⟨⟨?_, ?_, ?_, ?_⟩, hmap⟩
  · simp only [List.forall₂_map_left_iff, List.forall₂_map_right_iff]
    rw [List.forall₂_same]
    intro s _
    exact ⟨rfl, rfl, rfl, rfl, SignalSlot.initial_wellFormed s, SignalSlot.initial_wellFormed s⟩
  · show ((signals.map SignalSlot.initial).map (fun slot => slot.descriptor.id)).Nodup
    rw [List.map_map]
    exact hnodup.of_append_left
  · intro slot hslot
    obtain ⟨s, hs, rfl⟩ := List.mem_map.mp hslot
    exact hsignals s hs
  · show IsU32 (signals.map SignalSlot.initial).length
    rw [List.length_map]; exact hcount

theorem step_descriptors (writer : IoBuffer) (calls : List WriteCall) :
    ({ writer with
        outgoing := writer.outgoing.map (fun s =>
          ({ calls.foldl SignalSlot.write s with dirty := false } : SignalSlot)) } :
      IoBuffer).outgoing.map (fun slot => slot.descriptor)
      = writer.outgoing.map (fun slot => slot.descriptor) := by
  show (writer.outgoing.map _).map _ = _
  rw [List.map_map]
  apply List.map_congr_left
  intro s _
  exact SignalSlot.foldl_write_descriptor calls s

theorem steps_of_inSync (history : List (List WriteCall × Int)) :
    ∀ (writer reader : IoBuffer), writer.InSync reader →
      (∀ round ∈ history, ∀ c ∈ round.1,
        c.Fits (writer.outgoing.map (fun slot => slot.descriptor))) →
      ∃ writer' reader', steps writer reader history = some (writer', reader') ∧
        writer'.InSync reader' ∧
        writer'.outgoing.map (fun slot => slot.descriptor)
          = writer.outgoing.map (fun slot => slot.descriptor) := by
  induction history with
  | nil => intro writer reader h _; exact ⟨writer, reader, rfl, h, rfl⟩
  | cons round rest ih =>
    intro writer reader h hfit
    obtain ⟨calls, t⟩ := round
    obtain ⟨reader1, hstep, hsync⟩ :=
      step_of_inSync writer reader calls t h (hfit (calls, t) (List.mem_cons_self _ _))
    have hdesc := step_descriptors writer calls
    obtain ⟨writer', reader', hsteps, hsync', hdesc'⟩ := ih _ reader1 hsync (by
      intro round hround c hc
      rw [hdesc]
      exact hfit round (List.mem_cons_of_mem _ hround) c hc)
    refine ⟨writer', reader', ?_, hsync', hdesc'.trans hdesc⟩
    simp only [steps, hstep]
    exact hsteps

theorem find_map_of_id (ws : List SignalSlot) (g : SignalSlot → SignalSlot)
    (hg : ∀ s, (g s).descriptor = s.descriptor) (id : Nat) :
    (ws.map g).find? (fun slot => slot.descriptor.id == id)
      = (ws.find? (fun slot => slot.descriptor.id == id)).map g := by
  induction ws with
  | nil => rfl
  | cons a rest ih =>
    simp only [List.map_cons, List.find?_cons, hg]
    cases a.descriptor.id == id
    · exact ih
    · rfl

theorem find_of_mem (ws : List SignalSlot) (w : SignalSlot)
    (hnodup : (ws.map (fun slot => slot.descriptor.id)).Nodup) (hw : w ∈ ws) :
    ws.find? (fun slot => slot.descriptor.id == w.descriptor.id) = some w := by
  induction ws with
  | nil => exact absurd hw (List.not_mem_nil w)
  | cons a rest ih =>
    simp only [List.map_cons, List.nodup_cons, List.mem_map, not_exists, not_and] at hnodup
    obtain ⟨hfresh, hrest⟩ := hnodup
    rcases List.mem_cons.mp hw with rfl | hwrest
    · simp
    · have hbf : (a.descriptor.id == w.descriptor.id) = false := by
        simpa using fun hh : a.descriptor.id = w.descriptor.id => hfresh w hwrest hh.symm
      simp only [List.find?_cons, hbf]
      exact ih hrest hwrest

theorem write_of_accepts (slot : SignalSlot) (call : WriteCall)
    (hid : slot.descriptor.id = call.id) (hacc : slot.accepts call.length = true) :
    slot.write call = slot.store call.length call.source := by
  unfold SignalSlot.write
  rw [if_pos ⟨hid, hacc⟩]

theorem foldl_write_last (pre post : List WriteCall) (call : WriteCall) (w : SignalSlot)
    (hwf : w.WellFormed) (hid : w.descriptor.id = call.id)
    (haccept : w.accepts call.length = true)
    (hfit : ∀ c ∈ pre ++ call :: post, w.descriptor.id = c.id →
      c.source.length = c.length * w.elementWidth)
    (hpost : ∀ c ∈ post, c.id ≠ call.id) :
    ((pre ++ call :: post).foldl SignalSlot.write w).currentLength = call.length ∧
    ((pre ++ call :: post).foldl SignalSlot.write w).value = call.source := by
  have hwfpre : (pre.foldl SignalSlot.write w).WellFormed :=
    SignalSlot.foldl_write_wellFormed pre w hwf
      (fun c hc => hfit c (List.mem_append_left _ hc))
  have hdpre := SignalSlot.foldl_write_descriptor pre w
  have hacc : (pre.foldl SignalSlot.write w).accepts call.length = true := by
    unfold SignalSlot.accepts at haccept ⊢
    rw [hdpre]; exact haccept
  have hwrite : (pre.foldl SignalSlot.write w).write call
      = (pre.foldl SignalSlot.write w).store call.length call.source :=
    write_of_accepts _ call (by rw [hdpre]; exact hid) hacc
  have hsrc : call.source.length = call.length * (pre.foldl SignalSlot.write w).elementWidth := by
    unfold SignalSlot.elementWidth
    rw [hdpre]
    exact hfit call (List.mem_append_right _ (List.mem_cons_self _ _)) hid
  obtain ⟨h1, h2, _⟩ := SignalSlot.store_length_value _ call.length call.source hwfpre hacc hsrc
  have hpostid : post.foldl SignalSlot.write ((pre.foldl SignalSlot.write w).write call)
      = (pre.foldl SignalSlot.write w).write call := by
    apply SignalSlot.foldl_write_of_no_call
    intro c hc
    rw [SignalSlot.write_descriptor, hdpre, hid]
    exact hpost c hc
  rw [List.foldl_append, List.foldl_cons, hpostid, hwrite]
  exact ⟨h1, h2⟩

theorem foldl_write_same (calls : List WriteCall) (w : SignalSlot) (length : Nat)
    (source : List Nat) (hcur : w.currentLength = length) (hvalue : w.value = source)
    (hsource : source.length = length * w.elementWidth)
    (hcalls : ∀ c ∈ calls, c.id = w.descriptor.id → c.length = length ∧ c.source = source) :
    calls.foldl SignalSlot.write w = w := by
  induction calls with
  | nil => rfl
  | cons c cs ih =>
    simp only [List.foldl_cons]
    have hc : w.write c = w := by
      unfold SignalSlot.write
      split
      · rename_i hh
        obtain ⟨hl, hs⟩ := hcalls c (List.mem_cons_self c cs) hh.1.symm
        rw [hl, hs]
        apply SignalSlot.store_store w length source hcur
        rw [hvalue, List.take_of_length_le (le_of_eq hsource)]
      · rfl
    rw [hc]
    exact ih (fun c' hc' => hcalls c' (List.mem_cons_of_mem c hc'))

theorem filter_events (t : Int) (ws : List SignalSlot) (w : SignalSlot)
    (hnodup : (ws.map (fun slot => slot.descriptor.id)).Nodup) (hw : w ∈ ws) :
    (((ws.filter (fun slot => slot.dirty)).map
        (fun s => (⟨t, s.descriptor, s.currentLength, s.value⟩ : SignalChangedEvent))).filter
          (fun e => decide (e.signal.id = w.descriptor.id)))
      = if w.dirty = true then [⟨t, w.descriptor, w.currentLength, w.value⟩] else [] := by
  induction ws with
  | nil => exact absurd hw (List.not_mem_nil w)
  | cons a rest ih =>
    simp only [List.map_cons, List.nodup_cons, List.mem_map, not_exists, not_and] at hnodup
    obtain ⟨hfresh, hrest⟩ := hnodup
    have hnone : a.descriptor.id = w.descriptor.id →
        (((rest.filter (fun slot => slot.dirty)).map
          (fun s => (⟨t, s.descriptor, s.currentLength, s.value⟩ : SignalChangedEvent))).filter
            (fun e => decide (e.signal.id = w.descriptor.id))) = [] := by
      intro ha
      rw [List.filter_eq_nil_iff]
      intro e he
      obtain ⟨s, hs, rfl⟩ := List.mem_map.mp he
      have hs' : s ∈ rest := (List.mem_filter.mp hs).1
      simpa using fun hh : s.descriptor.id = w.descriptor.id => hfresh s hs' (hh.trans ha.symm)
    rcases List.mem_cons.mp hw with rfl | hwrest
    · by_cases hd : w.dirty = true
      · simp only [List.filter_cons, hd, if_true, List.map_cons, decide_True]
        rw [hnone rfl]
      · simp only [List.filter_cons, hd, if_false]
        exact hnone rfl
    · have hne : ¬ a.descriptor.id = w.descriptor.id := fun hh => hfresh w hwrest hh.symm
      by_cases hd : a.dirty = true
      · simp only [List.filter_cons, hd, if_true, List.map_cons, hne, decide_False]
        exact ih hrest hwrest
      · simp only [List.filter_cons, hd, if_false]
        exact ih hrest hwrest

end IoBuffer

namespace IoBuffer

theorem read_of_inSync (writer reader : IoBuffer) (h : writer.InSync reader)
    (w : SignalSlot) (hw : w ∈ writer.outgoing) :
    reader.Read w.descriptor.id = Except.ok (w.currentLength, w.value) := by
  have hfind := find_of_mem writer.outgoing w h.nodup hw
  obtain ⟨r, hr, hm⟩ := forall₂_find h.mirrors (fun a b hab => hab.descriptor) _ w hfind
  simp only [Read, hr, hm.length, hm.value]

/-- What one step does for the signal of an outgoing slot `w` of the writer. -/
theorem step_signal (writer reader : IoBuffer) (calls : List WriteCall) (t : Int)
    (h : writer.InSync reader)
    (hfit : ∀ c ∈ calls, c.Fits (writer.outgoing.map (fun slot => slot.descriptor)))
    (w : SignalSlot) (hw : w ∈ writer.outgoing) :
    ∃ writer' reader' events, step writer reader calls t = some (writer', reader', events) ∧
      writer'.InSync reader' ∧
      writer'.outgoing.map (fun slot => slot.descriptor)
        = writer.outgoing.map (fun slot => slot.descriptor) ∧
      ({ calls.foldl SignalSlot.write w with dirty := false } : SignalSlot) ∈ writer'.outgoing ∧
      reader'.Read w.descriptor.id
        = Except.ok ((calls.foldl SignalSlot.write w).currentLength,
            (calls.foldl SignalSlot.write w).value) ∧
      events.filter (fun e => decide (e.signal.id = w.descriptor.id))
        = if (calls.foldl SignalSlot.write w).dirty = true then
            [⟨t, w.descriptor, (calls.foldl SignalSlot.write w).currentLength,
              (calls.foldl SignalSlot.write w).value⟩]
          else [] := by
  obtain ⟨reader', hstep, hsync⟩ := step_of_inSync writer reader calls t h hfit
  have hmem : ({ calls.foldl SignalSlot.write w with dirty := false } : SignalSlot)
      ∈ writer.outgoing.map (fun s =>
        ({ calls.foldl SignalSlot.write s with dirty := false } : SignalSlot)) :=
    List.mem_map.mpr ⟨w, hw, rfl⟩
  refine ⟨_, reader', _, hstep, hsync, step_descriptors writer calls, hmem, ?_, ?_⟩
  · have := read_of_inSync _ reader' hsync _ hmem
    simpa only [SignalSlot.foldl_write_descriptor, SignalSlot.value,
      SignalSlot.elementWidth] using this
  · have hids1 : (writer.outgoing.map (fun s => calls.foldl SignalSlot.write s)).map
        (fun slot : SignalSlot => slot.descriptor.id)
        = writer.outgoing.map (fun slot => slot.descriptor.id) := by
      rw [List.map_map]
      apply List.map_congr_left
      intro s _
      show (calls.foldl SignalSlot.write s).descriptor.id = s.descriptor.id
      rw [SignalSlot.foldl_write_descriptor]
    have := filter_events t (writer.outgoing.map (fun s => calls.foldl SignalSlot.write s))
      (calls.foldl SignalSlot.write w) (by rw [hids1]; exact h.nodup)
      (List.mem_map.mpr ⟨w, hw, rfl⟩)
    simpa only [SignalSlot.foldl_write_descriptor] using this

end IoBuffer

namespace IoBuffer

theorem wellFormed_of_inSync (writer reader : IoBuffer) (h : writer.InSync reader)
    (w : SignalSlot) (hw : w ∈ writer.outgoing) : w.WellFormed := by
  obtain ⟨r, _, hm⟩ := forall₂_exists_right h.mirrors w hw
  exact hm.writer

/-- After the earlier steps, a writer and a reader constructed for the same signals are in
step, and the signal `s` has a slot on the writer. -/
theorem history_inSync (incomingW signals outgoingR : List IoSignal)
    (writer0 reader0 : IoBuffer)
    (hwriter : construct incomingW signals = Except.ok writer0)
    (hreader : construct signals outgoingR = Except.ok reader0)
    (hsignals : ∀ s ∈ signals, IsU32 s.id ∧ IsU32 s.length) (hcount : IsU32 signals.length)
    (history : List (List WriteCall × Int))
    (hhistory : ∀ round ∈ history, ∀ c ∈ round.1, c.Fits signals)
    (s : IoSignal) (hs : s ∈ signals) :
    ∃ writer reader, steps writer0 reader0 history = some (writer, reader) ∧
      writer.InSync reader ∧
      writer.outgoing.map (fun slot => slot.descriptor) = signals ∧
      ∃ w, w ∈ writer.outgoing ∧ w.descriptor = s := by
  obtain ⟨hsync0, hdesc0⟩ :=
    construct_inSync incomingW signals outgoingR writer0 reader0 hwriter hreader hsignals hcount
  obtain ⟨writer, reader, hsteps, hsync, hdesc⟩ :=
    steps_of_inSync history writer0 reader0 hsync0 (by rw [hdesc0]; exact hhistory)
  have hd := hdesc.trans hdesc0
  have hmem : s ∈ writer.outgoing.map (fun slot => slot.descriptor) := by rw [hd]; exact hs
  obtain ⟨w, hw, hwd⟩ := List.mem_map.mp hmem
  exact ⟨writer, reader, hsteps, hsync, hd, w, hw, hwd⟩

theorem accepts_of_valid (w : SignalSlot) (s : IoSignal) (length : Nat) (hwd : w.descriptor = s)
    (haccept : if s.sizeKind = DsVeosCoSim_SizeKind_Variable then length ≤ s.length
      else length = s.length) : w.accepts length = true := by
  unfold SignalSlot.accepts
  rw [hwd]
  split_ifs with hv
  · rw [if_pos hv] at haccept; simpa using haccept
  · rw [if_neg hv] at haccept; simpa using haccept

end IoBuffer

/-! ## The I/O-signal buffer -/

/-- C18: a writer and a reader are constructed for the same signals (the outgoing signals
of the writer are the incoming signals of the reader) and have gone through any number of
steps. In a further step the signal `s`, of any data type and size kind, is written with a
valid `Write(id, n, v)` (`n` accepted for `s`, `v` of `n × elementWidth` bytes), possibly
after other writes of the same signal, and not written again afterwards in the step.
After `Serialize` on the writer and `Deserialize` on the reader, `Read(id)` on the reader
returns the length `n` and the bytes `v` of that last write. -/
theorem C18_io_value_round_trip (incomingW signals outgoingR : List IoSignal)
    (writer0 reader0 : IoBuffer)
    (hwriter : IoBuffer.construct incomingW signals = Except.ok writer0)
    (hreader : IoBuffer.construct signals outgoingR = Except.ok reader0)
    (hsignals : ∀ s ∈ signals, IsU32 s.id ∧ IsU32 s.length) (hcount : IsU32 signals.length)
    (history : List (List WriteCall × Int))
    (hhistory : ∀ round ∈ history, ∀ c ∈ round.1, c.Fits signals)
    (pre post : List WriteCall) (call : WriteCall) (t : Int)
    (hcalls : ∀ c ∈ pre ++ call :: post, c.Fits signals)
    (s : IoSignal) (hs : s ∈ signals) (hid : s.id = call.id)
    (haccept : if s.sizeKind = DsVeosCoSim_SizeKind_Variable then call.length ≤ s.length
      else call.length = s.length)
    (hpost : ∀ c ∈ post, c.id ≠ call.id) :
    ∃ writer reader writer' reader' events,
      IoBuffer.steps writer0 reader0 history = some (writer, reader) ∧
      IoBuffer.step writer reader (pre ++ call :: post) t = some (writer', reader', events) ∧
      reader'.Read call.id = Except.ok (call.length, call.source) := by
  obtain ⟨writer, reader, hsteps, hsync, hd, w, hw, hwd⟩ :=
    IoBuffer.history_inSync incomingW signals outgoingR writer0 reader0 hwriter hreader
      hsignals hcount history hhistory s hs
  obtain ⟨writer', reader', events, hstep, _, _, _, hread, _⟩ :=
    IoBuffer.step_signal writer reader (pre ++ call :: post) t hsync
      (by rw [hd]; exact hcalls) w hw
  have hwid : w.descriptor.id = call.id := by rw [hwd]; exact hid
  obtain ⟨h1, h2⟩ := IoBuffer.foldl_write_last pre post call w
    (IoBuffer.wellFormed_of_inSync writer reader hsync w hw) hwid
    (IoBuffer.accepts_of_valid w s call.length hwd haccept)
    (fun c hc hcid => by
      have := hcalls c hc s hs (by rw [← hwd]; exact hcid)
      simpa only [SignalSlot.elementWidth, hwd] using this)
    hpost
  refine ⟨writer, reader, writer', reader', events, hsteps, hstep, ?_⟩
  rw [← hwid, hread, h1, h2]

/-- C19: a writer and a reader constructed for the same signals have gone through any
number of steps. In a step at time `t` the signal `s` is written, the last time with
length `n` and bytes `v`, and transferred; if `(n, v)` differs from what the reader held
for `s` before the step, `incomingSignalChangedCallback` is invoked exactly once for `s`
in that transfer, with `t`, the descriptor of `s`, `n` and `v`. If in the next step `s` is
written only with the identical length and bytes (or not at all), the callback is invoked
zero times for `s` in the second transfer. -/
theorem C19_io_change_detection (incomingW signals outgoingR : List IoSignal)
    (writer0 reader0 : IoBuffer)
    (hwriter : IoBuffer.construct incomingW signals = Except.ok writer0)
    (hreader : IoBuffer.construct signals outgoingR = Except.ok reader0)
    (hsignals : ∀ s ∈ signals, IsU32 s.id ∧ IsU32 s.length) (hcount : IsU32 signals.length)
    (history : List (List WriteCall × Int))
    (hhistory : ∀ round ∈ history, ∀ c ∈ round.1, c.Fits signals)
    (pre post : List WriteCall) (call : WriteCall) (t : Int)
    (hcalls : ∀ c ∈ pre ++ call :: post, c.Fits signals)
    (s : IoSignal) (hs : s ∈ signals) (hid : s.id = call.id)
    (haccept : if s.sizeKind = DsVeosCoSim_SizeKind_Variable then call.length ≤ s.length
      else call.length = s.length)
    (hpost : ∀ c ∈ post, c.id ≠ call.id)
    (again : List WriteCall) (t2 : Int) (hagain : ∀ c ∈ again, c.Fits signals)
    (hsame : ∀ c ∈ again, c.id = call.id → c.length = call.length ∧ c.source = call.source) :
    ∃ writer reader previous writer1 reader1 events1 writer2 reader2 events2,
      IoBuffer.steps writer0 reader0 history = some (writer, reader) ∧
      reader.Read call.id = Except.ok previous ∧
      IoBuffer.step writer reader (pre ++ call :: post) t = some (writer1, reader1, events1) ∧
      (previous ≠ (call.length, call.source) →
        events1.filter (fun e => decide (e.signal.id = call.id))
          = [⟨t, s, call.length, call.source⟩]) ∧
      IoBuffer.step writer1 reader1 again t2 = some (writer2, reader2, events2) ∧
      events2.filter (fun e => decide (e.signal.id = call.id)) = [] := by
  obtain ⟨writer, reader, hsteps, hsync, hd, w, hw, hwd⟩ :=
    IoBuffer.history_inSync incomingW signals outgoingR writer0 reader0 hwriter hreader
      hsignals hcount history hhistory s hs
  have hwid : w.descriptor.id = call.id := by rw [hwd]; exact hid
  have hprev := IoBuffer.read_of_inSync writer reader hsync w hw
  obtain ⟨writer1, reader1, events1, hstep1, hsync1, hd1, hw1, _, hevents1⟩ :=
    IoBuffer.step_signal writer reader (pre ++ call :: post) t hsync
      (by rw [hd]; exact hcalls) w hw
  obtain ⟨h1, h2⟩ := IoBuffer.foldl_write_last pre post call w
    (IoBuffer.wellFormed_of_inSync writer reader hsync w hw) hwid
    (IoBuffer.accepts_of_valid w s call.length hwd haccept)
    (fun c hc hcid => by
      have := hcalls c hc s hs (by rw [← hwd]; exact hcid)
      simpa only [SignalSlot.elementWidth, hwd] using this)
    hpost
  have hfit : call.source.length = call.length * GetDataTypeSize s.dataType :=
    hcalls call (List.mem_append_right _ (List.mem_cons_self _ _)) s hs hid
  obtain ⟨writer2, reader2, events2, hstep2, _, _, _, _, hevents2⟩ :=
    IoBuffer.step_signal writer1 reader1 again t2 hsync1
      (by rw [hd1, hd]; exact hagain) _ hw1
  have hdesc1 : ((pre ++ call :: post).foldl SignalSlot.write w).descriptor = w.descriptor :=
    SignalSlot.foldl_write_descriptor _ w
  have hstill := IoBuffer.foldl_write_same again
    ({ (pre ++ call :: post).foldl SignalSlot.write w with dirty := false } : SignalSlot)
    call.length call.source h1 h2
    (by
      show call.source.length
        = call.length * GetDataTypeSize
            ((pre ++ call :: post).foldl SignalSlot.write w).descriptor.dataType
      rw [hdesc1, hwd]; exact hfit)
    (by
      intro c hc hcid
      apply hsame c hc
      rw [hcid]
      show ((pre ++ call :: post).foldl SignalSlot.write w).descriptor.id = call.id
      rw [hdesc1]; exact hwid)
  refine ⟨writer, reader, _, writer1, reader1, events1, writer2, reader2, events2, hsteps,
    by rw [← hwid]; exact hprev, hstep1, ?_, hstep2, ?_⟩
  · intro hne
    rw [← hwid, hevents1]
    have hdirty : ((pre ++ call :: post).foldl SignalSlot.write w).dirty = true := by
      by_contra hd'
      have hclean : ((pre ++ call :: post).foldl SignalSlot.write w).dirty = false := by
        simpa using hd'
      have heq := SignalSlot.foldl_write_eq_of_clean _ w hclean
      rw [heq] at h1 h2
      exact hne (by rw [h1, h2])
    rw [if_pos hdirty, h1, h2, hwd]
  · have := hevents2
    rw [hstill] at this
    simpa only [hdesc1, hwid, if_false, Bool.false_eq_true] using this

/-- C20: for every Fixed signal registered as outgoing, with descriptor length `L`, and
every `Write(id, length, src)`, the write fails if and only if `length != L`; the failure
carries the message "Length of fixed sized IO signal '<name>' must be <L> but was
<length>.", and a write with `length == L` succeeds. -/
theorem C20_fixed_write_validation (buffer : IoBuffer) (id length : Nat) (source : List Nat)
    (slot : SignalSlot)
    (hfind : buffer.outgoing.find? (fun s => s.descriptor.id == id) = some slot)
    (hfixed : slot.descriptor.sizeKind = DsVeosCoSim_SizeKind_Fixed) :
    ((∃ message, buffer.Write id length source = Except.error message)
      ↔ length ≠ slot.descriptor.length) ∧
    (length ≠ slot.descriptor.length →
      buffer.Write id length source
        = Except.error (asciiBytes "Length of fixed sized IO signal '" ++ slot.descriptor.name
            ++ asciiBytes "' must be " ++ decimalBytes slot.descriptor.length
            ++ asciiBytes " but was " ++ decimalBytes length ++ asciiBytes ".")) ∧
    (length = slot.descriptor.length → ∃ next, buffer.Write id length source = Except.ok next) := by
  have hv : ¬ slot.descriptor.sizeKind = DsVeosCoSim_SizeKind_Variable := by
    rw [hfixed]; decide
  by_cases hlen : length = slot.descriptor.length
  · refine ⟨?_, fun h => absurd hlen h, fun _ => ?_⟩
    · simp [IoBuffer.Write, hfind, hv, hlen]
    · simp [IoBuffer.Write, hfind, hv, hlen]
  · refine ⟨?_, fun _ => ?_, fun h => absurd h hlen⟩
    · simp [IoBuffer.Write, hfind, hv, hlen]
    · simp [IoBuffer.Write, hfind, hv, hlen]

/-- Witness of C18: one Fixed signal of two `UInt16` elements with id 7, written twice in
the first step; the reader reads the second value. -/
theorem C18_io_value_round_trip_witness :
    ∃ writer reader writer' reader' events,
      IoBuffer.steps
          ⟨[], [SignalSlot.initial ⟨7, 2, DsVeosCoSim_DataType_UInt16,
            DsVeosCoSim_SizeKind_Fixed, [83]⟩]⟩
          ⟨[SignalSlot.initial ⟨7, 2, DsVeosCoSim_DataType_UInt16,
            DsVeosCoSim_SizeKind_Fixed, [83]⟩], []⟩ []
        = some (writer, reader) ∧
      IoBuffer.step writer reader ([⟨7, 2, [1, 2, 3, 4]⟩] ++ ⟨7, 2, [17, 34, 51, 68]⟩ :: []) 1000
        = some (writer', reader', events) ∧
      reader'.Read (⟨7, 2, [17, 34, 51, 68]⟩ : WriteCall).id
        = Except.ok ((⟨7, 2, [17, 34, 51, 68]⟩ : WriteCall).length,
            (⟨7, 2, [17, 34, 51, 68]⟩ : WriteCall).source) :=
  C18_io_value_round_trip []
    [⟨7, 2, DsVeosCoSim_DataType_UInt16, DsVeosCoSim_SizeKind_Fixed, [83]⟩] []
    ⟨[], [SignalSlot.initial ⟨7, 2, DsVeosCoSim_DataType_UInt16,
      DsVeosCoSim_SizeKind_Fixed, [83]⟩]⟩
    ⟨[SignalSlot.initial ⟨7, 2, DsVeosCoSim_DataType_UInt16,
      DsVeosCoSim_SizeKind_Fixed, [83]⟩], []⟩
    rfl rfl (by simp [IsU32]) (by simp [IsU32]) [] (by simp)
    [⟨7, 2, [1, 2, 3, 4]⟩] [] ⟨7, 2, [17, 34, 51, 68]⟩ 1000
    (by simp [WriteCall.Fits, GetDataTypeSize, DsVeosCoSim_DataType_UInt16,
      DsVeosCoSim_DataType_Bool, DsVeosCoSim_DataType_Int8, DsVeosCoSim_DataType_UInt8,
      DsVeosCoSim_DataType_Int16])
    ⟨7, 2, DsVeosCoSim_DataType_UInt16, DsVeosCoSim_SizeKind_Fixed, [83]⟩
    (by simp) rfl (by decide) (by simp)

/-- Witness of C19: the signal of C18's witness is written with new bytes in one step and
with the same bytes again in the next. -/
theorem C19_io_change_detection_witness :
    ∃ writer reader previous writer1 reader1 events1 writer2 reader2 events2,
      IoBuffer.steps
          ⟨[], [SignalSlot.initial ⟨7, 2, DsVeosCoSim_DataType_UInt16,
            DsVeosCoSim_SizeKind_Fixed, [83]⟩]⟩
          ⟨[SignalSlot.initial ⟨7, 2, DsVeosCoSim_DataType_UInt16,
            DsVeosCoSim_SizeKind_Fixed, [83]⟩], []⟩ []
        = some (writer, reader) ∧
      reader.Read (⟨7, 2, [17, 34, 51, 68]⟩ : WriteCall).id = Except.ok previous ∧
      IoBuffer.step writer reader ([] ++ ⟨7, 2, [17, 34, 51, 68]⟩ :: []) 1000
        = some (writer1, reader1, events1) ∧
      (previous ≠ ((⟨7, 2, [17, 34, 51, 68]⟩ : WriteCall).length,
          (⟨7, 2, [17, 34, 51, 68]⟩ : WriteCall).source) →
        events1.filter
            (fun e => decide (e.signal.id = (⟨7, 2, [17, 34, 51, 68]⟩ : WriteCall).id))
          = [⟨1000, ⟨7, 2, DsVeosCoSim_DataType_UInt16, DsVeosCoSim_SizeKind_Fixed, [83]⟩,
              (⟨7, 2, [17, 34, 51, 68]⟩ : WriteCall).length,
              (⟨7, 2, [17, 34, 51, 68]⟩ : WriteCall).source⟩]) ∧
      IoBuffer.step writer1 reader1 [⟨7, 2, [17, 34, 51, 68]⟩] 2000
        = some (writer2, reader2, events2) ∧
      events2.filter
          (fun e => decide (e.signal.id = (⟨7, 2, [17, 34, 51, 68]⟩ : WriteCall).id)) = [] :=
  C19_io_change_detection []
    [⟨7, 2, DsVeosCoSim_DataType_UInt16, DsVeosCoSim_SizeKind_Fixed, [83]⟩] []
    ⟨[], [SignalSlot.initial ⟨7, 2, DsVeosCoSim_DataType_UInt16,
      DsVeosCoSim_SizeKind_Fixed, [83]⟩]⟩
    ⟨[SignalSlot.initial ⟨7, 2, DsVeosCoSim_DataType_UInt16,
      DsVeosCoSim_SizeKind_Fixed, [83]⟩], []⟩
    rfl rfl (by simp [IsU32]) (by simp [IsU32]) [] (by simp)
    [] [] ⟨7, 2, [17, 34, 51, 68]⟩ 1000
    (by simp [WriteCall.Fits, GetDataTypeSize, DsVeosCoSim_DataType_UInt16,
      DsVeosCoSim_DataType_Bool, DsVeosCoSim_DataType_Int8, DsVeosCoSim_DataType_UInt8,
      DsVeosCoSim_DataType_Int16])
    ⟨7, 2, DsVeosCoSim_DataType_UInt16, DsVeosCoSim_SizeKind_Fixed, [83]⟩
    (by simp) rfl (by decide) (by simp)
    [⟨7, 2, [17, 34, 51, 68]⟩] 2000
    (by simp [WriteCall.Fits, GetDataTypeSize, DsVeosCoSim_DataType_UInt16,
      DsVeosCoSim_DataType_Bool, DsVeosCoSim_DataType_Int8, DsVeosCoSim_DataType_UInt8,
      DsVeosCoSim_DataType_Int16])
    (by simp)

/-- Witness of C20: the Fixed signal with id 7 and length 2 is written with length 3. -/
theorem C20_fixed_write_validation_witness :
    (⟨[], [SignalSlot.initial ⟨7, 2, DsVeosCoSim_DataType_UInt16,
        DsVeosCoSim_SizeKind_Fixed, [83]⟩]⟩ : IoBuffer).Write 7 3 []
      = Except.error (asciiBytes "Length of fixed sized IO signal '"
          ++ (SignalSlot.initial ⟨7, 2, DsVeosCoSim_DataType_UInt16,
            DsVeosCoSim_SizeKind_Fixed, [83]⟩).descriptor.name
          ++ asciiBytes "' must be "
          ++ decimalBytes (SignalSlot.initial ⟨7, 2, DsVeosCoSim_DataType_UInt16,
            DsVeosCoSim_SizeKind_Fixed, [83]⟩).descriptor.length
          ++ asciiBytes " but was " ++ decimalBytes 3 ++ asciiBytes ".") :=
  (C20_fixed_write_validation
    ⟨[], [SignalSlot.initial ⟨7, 2, DsVeosCoSim_DataType_UInt16,
      DsVeosCoSim_SizeKind_Fixed, [83]⟩]⟩ 7 3 []
    (SignalSlot.initial ⟨7, 2, DsVeosCoSim_DataType_UInt16, DsVeosCoSim_SizeKind_Fixed, [83]⟩)
    rfl rfl).2.1 (by decide)

namespace IoBuffer

theorem firstDuplicate_of_nodup (l : List Nat) :
    ∀ seen, l.Nodup → (∀ x ∈ l, x ∉ seen) → firstDuplicate seen l = none := by
  induction l with
  | nil => intro seen _ _; rfl
  | cons a l ih =>
    intro seen hnodup hseen
    obtain ⟨ha, hl⟩ := List.nodup_cons.mp hnodup
    unfold firstDuplicate
    rw [if_neg (hseen a (List.mem_cons_self a l))]
    apply ih (a :: seen) hl
    intro x hx hmem
    rcases List.mem_cons.mp hmem with rfl | hmem
    · exact ha hx
    · exact hseen x (List.mem_cons_of_mem a hx) hmem

theorem firstDuplicate_some (l : List Nat) :
    ∀ seen id, firstDuplicate seen l = some id → id ∈ l ∧ (id ∈ seen ∨ 2 ≤ l.count id) := by
  induction l with
  | nil => intro seen id h; exact Option.noConfusion h
  | cons a l ih =>
    intro seen id h
    unfold firstDuplicate at h
    split at h
    · rename_i hmem
      injection h with h
      subst h
      exact ⟨List.mem_cons_self _ _, Or.inl hmem⟩
    · obtain ⟨hid, hor⟩ := ih (a :: seen) id h
      refine ⟨List.mem_cons_of_mem a hid, ?_⟩
      rcases hor with hmem | hcount
      · rcases List.mem_cons.mp hmem with rfl | hmem
        · right
          rw [List.count_cons_self]
          have := List.count_pos_iff.mpr hid
          omega
        · exact Or.inl hmem
      · right
        have := List.count_le_count_cons (a := id) (b := a) (l := l)
        omega

theorem find_none_of_not_registered (signals : List IoSignal) (id : Nat)
    (h : ∀ s ∈ signals, s.id ≠ id) :
    (signals.map SignalSlot.initial).find? (fun slot => slot.descriptor.id == id) = none := by
  rw [List.find?_eq_none]
  intro slot hslot
  obtain ⟨s, hs, rfl⟩ := List.mem_map.mp hslot
  simpa [SignalSlot.initial] using h s hs

theorem find_initial (signals : List IoSignal) (s : IoSignal)
    (hnodup : (signals.map (fun s => s.id)).Nodup) (hs : s ∈ signals) :
    (signals.map SignalSlot.initial).find? (fun slot => slot.descriptor.id == s.id)
      = some (SignalSlot.initial s) := by
  have h := find_of_mem (signals.map SignalSlot.initial) (SignalSlot.initial s)
    (by simpa [List.map_map, Function.comp_def, SignalSlot.initial] using hnodup)
    (List.mem_map_of_mem _ hs)
  simpa [SignalSlot.initial] using h

theorem write_variable (buffer : IoBuffer) (id length : Nat) (source : List Nat)
    (slot : SignalSlot)
    (hfind : buffer.outgoing.find? (fun s => s.descriptor.id == id) = some slot)
    (hvariable : slot.descriptor.sizeKind = DsVeosCoSim_SizeKind_Variable) :
    ((∃ message, buffer.Write id length source = Except.error message)
      ↔ length > slot.descriptor.length) ∧
    (length > slot.descriptor.length →
      buffer.Write id length source
        = Except.error (asciiBytes "Length of variable sized IO signal '"
            ++ slot.descriptor.name ++ asciiBytes "' exceeds max size.")) ∧
    (length ≤ slot.descriptor.length →
      ∃ next, buffer.Write id length source = Except.ok next) := by
  by_cases hlen : length > slot.descriptor.length
  · refine ⟨?_, fun _ => ?_, fun h => absurd hlen (not_lt.mpr h)⟩
    · simp [IoBuffer.Write, hfind, hvariable, hlen]
    · simp [IoBuffer.Write, hfind, hvariable, hlen]
  · refine ⟨?_, fun h => absurd h hlen, fun _ => ?_⟩
    · simp [IoBuffer.Write, hfind, hvariable, hlen]
    · simp [IoBuffer.Write, hfind, hvariable, hlen]

end IoBuffer

/-- C21: a writer and its peer are constructed for the same signals and have gone through
any number of steps. For every Variable signal `s` with descriptor length `L` and every
`Write(id, length, src)` on the writer, the write fails if and only if `length > L`; the
failure carries the message "Length of variable sized IO signal '<name>' exceeds max
size."; every length in `0..L` is accepted, and after the transfer the peer reads that
length (and the written bytes). -/
theorem C21_variable_write_validation (incomingW signals outgoingR : List IoSignal)
    (writer0 reader0 : IoBuffer)
    (hwriter : IoBuffer.construct incomingW signals = Except.ok writer0)
    (hreader : IoBuffer.construct signals outgoingR = Except.ok reader0)
    (hsignals : ∀ s ∈ signals, IsU32 s.id ∧ IsU32 s.length) (hcount : IsU32 signals.length)
    (history : List (List WriteCall × Int))
    (hhistory : ∀ round ∈ history, ∀ c ∈ round.1, c.Fits signals)
    (s : IoSignal) (hs : s ∈ signals)
    (hvariable : s.sizeKind = DsVeosCoSim_SizeKind_Variable)
    (length : Nat) (source : List Nat) (t : Int) :
    ∃ writer reader,
      IoBuffer.steps writer0 reader0 history = some (writer, reader) ∧
      ((∃ message, writer.Write s.id length source = Except.error message)
        ↔ length > s.length) ∧
      (length > s.length →
        writer.Write s.id length source
          = Except.error (asciiBytes "Length of variable sized IO signal '" ++ s.name
              ++ asciiBytes "' exceeds max size.")) ∧
      (length ≤ s.length → source.length = length * GetDataTypeSize s.dataType →
        ∃ writer1 writer2 reader2 events,
          writer.Write s.id length source = Except.ok writer1 ∧
          IoBuffer.transfer writer1 reader t = some (writer2, reader2, events) ∧
          reader2.Read s.id = Except.ok (length, source)) := by
  obtain ⟨writer, reader, hsteps, hsync, hd, w, hw, hwd⟩ :=
    IoBuffer.history_inSync incomingW signals outgoingR writer0 reader0 hwriter hreader
      hsignals hcount history hhistory s hs
  have hfind := IoBuffer.find_of_mem writer.outgoing w hsync.nodup hw
  rw [hwd] at hfind
  obtain ⟨hiff, hmsg, hok⟩ := IoBuffer.write_variable writer s.id length source w hfind
    (by rw [hwd]; exact hvariable)
  rw [hwd] at hiff hmsg hok
  refine ⟨writer, reader, hsteps, hiff, hmsg, fun hle hsource => ?_⟩
  obtain ⟨writer1, hwrite⟩ := hok hle
  have hfits : ∀ c ∈ [(⟨s.id, length, source⟩ : WriteCall)],
      c.Fits (writer.outgoing.map (fun slot => slot.descriptor)) := by
    intro c hc
    rw [List.mem_singleton] at hc
    subst hc
    rw [hd]
    intro s' hs' hid'
    have hnodup : (signals.map (fun s => s.id)).Nodup := by
      have := hsync.nodup
      rw [← hd, List.map_map]
      exact this
    have : s' = s := List.inj_on_of_nodup_map hnodup hs' hs hid'
    rw [this]
    exact hsource
  obtain ⟨writer2, reader2, events, hstep, _, _, _, hread, _⟩ :=
    IoBuffer.step_signal writer reader [⟨s.id, length, source⟩] t hsync hfits w hw
  obtain ⟨h1, h2⟩ := IoBuffer.foldl_write_last [] [] ⟨s.id, length, source⟩ w
    (IoBuffer.wellFormed_of_inSync writer reader hsync w hw) (by rw [hwd])
    (IoBuffer.accepts_of_valid w s length hwd (by rw [if_pos hvariable]; exact hle))
    (fun c hc _ => by
      rw [List.nil_append, List.mem_singleton] at hc
      subst hc
      simpa only [SignalSlot.elementWidth, hwd] using hsource)
    (fun c hc => absurd hc (List.not_mem_nil c))
  refine ⟨writer1, writer2, reader2, events, hwrite, ?_, ?_⟩
  · have : writer.writeAll [⟨s.id, length, source⟩] = writer1 := by
      simp only [IoBuffer.writeAll, hwrite]
    rw [← this]
    exact hstep
  · rw [hwd] at hread
    rw [hread]
    rw [List.nil_append] at h1 h2
    rw [h1, h2]

/-- C22: constructing an `IoBuffer` fails with the message "Duplicated IO signal id <id>."
for an id that occurs twice whenever the ids of the incoming and outgoing signals together
are not pairwise distinct, and succeeds whenever they are, the empty pair included; on a
constructed buffer, `Read` and `Write` with an id that is not registered fail with "IO
signal id <id> is unknown.". -/
theorem C22_io_buffer_construction (incomingSignals outgoingSignals : List IoSignal) :
    (¬ ((incomingSignals ++ outgoingSignals).map (fun s => s.id)).Nodup →
      ∃ id, 2 ≤ ((incomingSignals ++ outgoingSignals).map (fun s => s.id)).count id ∧
        IoBuffer.construct incomingSignals outgoingSignals
          = Except.error (asciiBytes "Duplicated IO signal id " ++ decimalBytes id
              ++ asciiBytes ".")) ∧
    (((incomingSignals ++ outgoingSignals).map (fun s => s.id)).Nodup →
      IoBuffer.construct incomingSignals outgoingSignals
        = Except.ok ⟨incomingSignals.map SignalSlot.initial,
            outgoingSignals.map SignalSlot.initial⟩) ∧
    IoBuffer.construct [] [] = Except.ok ⟨[], []⟩ ∧
    (∀ buffer, IoBuffer.construct incomingSignals outgoingSignals = Except.ok buffer →
      ∀ id, (∀ s ∈ incomingSignals ++ outgoingSignals, s.id ≠ id) →
        buffer.Read id
          = Except.error (asciiBytes "IO signal id " ++ decimalBytes id
              ++ asciiBytes " is unknown.") ∧
        ∀ length source, buffer.Write id length source
          = Except.error (asciiBytes "IO signal id " ++ decimalBytes id
              ++ asciiBytes " is unknown.")) := by
  refine ⟨fun hdup => ?_, fun hnodup => ?_, rfl, fun buffer hbuffer id hid => ?_⟩
  · cases hfd : IoBuffer.firstDuplicate []
        ((incomingSignals ++ outgoingSignals).map (fun s => s.id)) with
    | none => exact absurd (IoBuffer.firstDuplicate_none _ [] hfd).1 hdup
    | some id =>
      refine ⟨id, ?_, ?_⟩
      · rcases (IoBuffer.firstDuplicate_some _ [] id hfd).2 with h | h
        · exact absurd h (List.not_mem_nil id)
        · exact h
      · simp only [IoBuffer.construct, hfd]
  · have hfd := IoBuffer.firstDuplicate_of_nodup _ [] hnodup
      (fun x _ => List.not_mem_nil x)
    simp only [IoBuffer.construct, hfd]
  · obtain ⟨hb, _⟩ := IoBuffer.construct_ok incomingSignals outgoingSignals buffer hbuffer
    subst hb
    have hin := IoBuffer.find_none_of_not_registered incomingSignals id
      (fun s hs => hid s (List.mem_append_left _ hs))
    have hout := IoBuffer.find_none_of_not_registered outgoingSignals id
      (fun s hs => hid s (List.mem_append_right _ hs))
    refine ⟨?_, fun length source => ?_⟩
    · simp only [IoBuffer.Read, hin]
    · simp only [IoBuffer.Write, hout]

/-- C23: on a newly constructed `IoBuffer`, for every incoming signal of every data type,
`Read(id)` succeeds and returns, for a Fixed signal, the length of the descriptor and
`length × elementWidth` zero bytes (the bytes of `CreateZeroedIoData`), and, for a Variable
signal, the length 0. -/
theorem C23_initial_signal_state (incomingSignals outgoingSignals : List IoSignal)
    (buffer : IoBuffer)
    (hbuffer : IoBuffer.construct incomingSignals outgoingSignals = Except.ok buffer)
    (s : IoSignal) (hs : s ∈ incomingSignals) :
    (s.sizeKind = DsVeosCoSim_SizeKind_Fixed →
      buffer.Read s.id = Except.ok (s.length, CreateZeroedIoData s.dataType s.length) ∧
      (CreateZeroedIoData s.dataType s.length).length
        = s.length * GetDataTypeSize s.dataType ∧
      ∀ b ∈ CreateZeroedIoData s.dataType s.length, b = 0) ∧
    (s.sizeKind = DsVeosCoSim_SizeKind_Variable → buffer.Read s.id = Except.ok (0, [])) := by
  obtain ⟨hb, hnodup⟩ := IoBuffer.construct_ok incomingSignals outgoingSignals buffer hbuffer
  subst hb
  have hin : (incomingSignals.map (fun s => s.id)).Nodup := by
    rw [List.map_append] at hnodup
    exact (List.nodup_append.mp hnodup).1
  have hfind := IoBuffer.find_initial incomingSignals s hin hs
  refine ⟨fun hfixed => ⟨?_, ?_, ?_⟩, fun hvariable => ?_⟩
  · have hv : ¬ s.sizeKind = DsVeosCoSim_SizeKind_Variable := by rw [hfixed]; decide
    simp only [IoBuffer.Read, hfind, SignalSlot.initial, SignalSlot.value,
      SignalSlot.elementWidth, if_neg hv, CreateZeroedIoData]
    rw [List.take_replicate, Nat.min_self, Nat.mul_comm]
  · simp [CreateZeroedIoData, Nat.mul_comm]
  · intro b hb
    exact List.eq_of_mem_replicate hb
  · simp only [IoBuffer.Read, hfind, SignalSlot.initial, SignalSlot.value,
      SignalSlot.elementWidth, if_pos hvariable, Nat.zero_mul, List.take_zero]

/-- Witness of C21: a Variable signal of at most five `UInt8` elements with id 7; the
bytes `[0xAA, 0xBB]` are written with length 2. -/
theorem C21_variable_write_validation_witness :
    ∃ writer reader,
      IoBuffer.steps
          ⟨[], [SignalSlot.initial ⟨7, 5, DsVeosCoSim_DataType_UInt8,
            DsVeosCoSim_SizeKind_Variable, [83]⟩]⟩
          ⟨[SignalSlot.initial ⟨7, 5, DsVeosCoSim_DataType_UInt8,
            DsVeosCoSim_SizeKind_Variable, [83]⟩], []⟩ []
        = some (writer, reader) ∧
      ((∃ message, writer.Write (⟨7, 5, DsVeosCoSim_DataType_UInt8,
            DsVeosCoSim_SizeKind_Variable, [83]⟩ : IoSignal).id 2 [170, 187]
          = Except.error message)
        ↔ 2 > (⟨7, 5, DsVeosCoSim_DataType_UInt8,
            DsVeosCoSim_SizeKind_Variable, [83]⟩ : IoSignal).length) ∧
      (2 > (⟨7, 5, DsVeosCoSim_DataType_UInt8,
            DsVeosCoSim_SizeKind_Variable, [83]⟩ : IoSignal).length →
        writer.Write (⟨7, 5, DsVeosCoSim_DataType_UInt8,
            DsVeosCoSim_SizeKind_Variable, [83]⟩ : IoSignal).id 2 [170, 187]
          = Except.error (asciiBytes "Length of variable sized IO signal '"
              ++ (⟨7, 5, DsVeosCoSim_DataType_UInt8,
                DsVeosCoSim_SizeKind_Variable, [83]⟩ : IoSignal).name
              ++ asciiBytes "' exceeds max size.")) ∧
      (2 ≤ (⟨7, 5, DsVeosCoSim_DataType_UInt8,
            DsVeosCoSim_SizeKind_Variable, [83]⟩ : IoSignal).length →
        [170, 187].length = 2 * GetDataTypeSize (⟨7, 5, DsVeosCoSim_DataType_UInt8,
            DsVeosCoSim_SizeKind_Variable, [83]⟩ : IoSignal).dataType →
        ∃ writer1 writer2 reader2 events,
          writer.Write (⟨7, 5, DsVeosCoSim_DataType_UInt8,
            DsVeosCoSim_SizeKind_Variable, [83]⟩ : IoSignal).id 2 [170, 187]
            = Except.ok writer1 ∧
          IoBuffer.transfer writer1 reader 1000 = some (writer2, reader2, events) ∧
          reader2.Read (⟨7, 5, DsVeosCoSim_DataType_UInt8,
            DsVeosCoSim_SizeKind_Variable, [83]⟩ : IoSignal).id
            = Except.ok (2, [170, 187])) :=
  C21_variable_write_validation []
    [⟨7, 5, DsVeosCoSim_DataType_UInt8, DsVeosCoSim_SizeKind_Variable, [83]⟩] []
    ⟨[], [SignalSlot.initial ⟨7, 5, DsVeosCoSim_DataType_UInt8,
      DsVeosCoSim_SizeKind_Variable, [83]⟩]⟩
    ⟨[SignalSlot.initial ⟨7, 5, DsVeosCoSim_DataType_UInt8,
      DsVeosCoSim_SizeKind_Variable, [83]⟩], []⟩
    rfl rfl (by simp [IsU32]) (by simp [IsU32]) [] (by simp)
    ⟨7, 5, DsVeosCoSim_DataType_UInt8, DsVeosCoSim_SizeKind_Variable, [83]⟩
    (by simp) rfl 2 [170, 187] 1000

/-- Witness of C23: the Fixed signal of two `UInt16` elements with id 7 reads as length 2
and four zero bytes on a new buffer. -/
theorem C23_initial_signal_state_witness :
    (⟨[SignalSlot.initial ⟨7, 2, DsVeosCoSim_DataType_UInt16,
        DsVeosCoSim_SizeKind_Fixed, [83]⟩], []⟩ : IoBuffer).Read 7
      = Except.ok (2, CreateZeroedIoData DsVeosCoSim_DataType_UInt16 2) :=
  ((C23_initial_signal_state
    [⟨7, 2, DsVeosCoSim_DataType_UInt16, DsVeosCoSim_SizeKind_Fixed, [83]⟩] []
    ⟨[SignalSlot.initial ⟨7, 2, DsVeosCoSim_DataType_UInt16,
      DsVeosCoSim_SizeKind_Fixed, [83]⟩], []⟩
    rfl ⟨7, 2, DsVeosCoSim_DataType_UInt16, DsVeosCoSim_SizeKind_Fixed, [83]⟩
    (by simp)).1 rfl).1

/-! ## Log dispatch, closing a socket -/

/-- C24: with no log callback registered, each of `LogError`, `LogWarning`, `LogInfo` and
`LogTrace` has no effect; with a callback registered, each invokes that callback exactly
once with its own severity. `LogWarning`, `LogInfo` and `LogTrace` pass exactly the
characters of the message. `LogError` passes `message.data()`: the callback gets the bytes
from the start of the message up to the first NUL in memory, which are the characters of
the message only if the message holds no NUL and a NUL follows it; a message with an
embedded NUL arrives cut (`"a\0b"` as `"a"`), and a view that is not followed by a NUL
arrives with the bytes that follow it (`"ab"` out of `"abc"` as `"abc"`). -/
theorem C24_log_error_passes_c_string :
    (∀ (state : LogState) (message : StringView), state.g_logCallback = none →
      LogError state message = state ∧ LogWarning state message = state ∧
      LogInfo state message = state ∧ LogTrace state message = state) ∧
    (∀ (state : LogState) (callback : Nat) (message : StringView),
      state.g_logCallback = some callback →
      LogWarning state message
        = { state with
            invocations := state.invocations
              ++ [⟨callback, Severity.Warning, message.chars⟩] } ∧
      LogInfo state message
        = { state with
            invocations := state.invocations ++ [⟨callback, Severity.Info, message.chars⟩] } ∧
      LogTrace state message
        = { state with
            invocations := state.invocations ++ [⟨callback, Severity.Trace, message.chars⟩] } ∧
      LogError state message
        = { state with
            invocations := state.invocations
              ++ [⟨callback, Severity.Error,
                  StringView.ofCString (message.chars ++ message.following)⟩] } ∧
      ((∀ b ∈ message.chars, b ≠ 0) → message.following.head? = some 0 →
        LogError state message
          = { state with
              invocations := state.invocations
                ++ [⟨callback, Severity.Error, message.chars⟩] })) ∧
    LogError (SetLogCallback ⟨none, []⟩ (some 1)) ⟨[97, 0, 98], [0]⟩
      = ⟨some 1, [⟨1, Severity.Error, [97]⟩]⟩ ∧
    LogError (SetLogCallback ⟨none, []⟩ (some 1)) ⟨[97, 98], [99, 0]⟩
      = ⟨some 1, [⟨1, Severity.Error, [97, 98, 99]⟩]⟩ := by
  refine ⟨fun state message h => ?_, fun state callback message h => ?_, by decide, by decide⟩
  · simp only [LogError, LogWarning, LogInfo, LogTrace, h, and_self]
  · refine ⟨?_, ?_, ?_, ?_, fun hchars hfollowing => ?_⟩
    · simp only [LogWarning, h]
    · simp only [LogInfo, h]
    · simp only [LogTrace, h]
    · simp only [LogError, h]
    · have htext : StringView.ofCString (message.chars ++ message.following)
          = message.chars := by
        unfold StringView.ofCString
        cases hf : message.following with
        | nil => rw [hf] at hfollowing; exact Option.noConfusion hfollowing
        | cons b rest =>
          rw [hf] at hfollowing
          simp only [List.head?_cons, Option.some.injEq] at hfollowing
          subst hfollowing
          rw [List.takeWhile_append_of_pos (fun x hx => by simpa using hchars x hx)]
          simp
      simp only [LogError, h, htext]

namespace Socket

theorem close_of_valid (self : Socket) (hv : self._socket ≠ InvalidSocket) :
    self.Close.1 = ⟨InvalidSocket, 0, []⟩ := by
  unfold Socket.Close
  simp only [hv, if_false]
  by_cases hp : self._path = []
  · simp [hp]
  · simp [hp]

theorem close_of_invalid (self : Socket) (hv : self._socket = InvalidSocket) :
    self.Close = (self, []) := by
  unfold Socket.Close
  simp only [hv, if_true]

/-- For every state, a second `Close` changes nothing and makes no call. -/
theorem close_close (self : Socket) : self.Close.1.Close = (self.Close.1, []) := by
  by_cases hv : self._socket = InvalidSocket
  · rw [close_of_invalid self hv]
    exact close_of_invalid self hv
  · rw [close_of_valid self hv]
    rfl

/-- For every state, the socket is invalid after `Close`. -/
theorem close_isValid (self : Socket) : self.Close.1.IsValid = false := by
  by_cases hv : self._socket = InvalidSocket
  · rw [close_of_invalid self hv]
    simp [Socket.IsValid, hv]
  · rw [close_of_valid self hv]
    rfl

/-- Every state the code builds satisfies the invariant. -/
theorem consistent_of_reachable (self : Socket) (h : self.Reachable) : self.Consistent := by
  induction h with
  | initial => intro _; exact ⟨rfl, rfl⟩
  | created socket addressFamily hv => intro h; exact absurd h hv
  | bound self name bindResult bindError _ ih =>
    intro hinvalid
    by_cases hv : self._socket = InvalidSocket
    · have hself : (self.BindName name bindResult bindError).self = self := by
        unfold Socket.BindName
        simp [Socket.EnsureIsValid, Socket.IsValid, hv]
      rw [hself]
      exact ih hv
    · exfalso
      apply hv
      have hsocket : (self.BindName name bindResult bindError).self._socket = self._socket := by
        unfold Socket.BindName
        simp only [Socket.EnsureIsValid]
        split
        · rfl
        · split_ifs <;> rfl
      rw [← hsocket]
      exact hinvalid
  | closed self _ ih =>
    intro _
    by_cases hv : self._socket = InvalidSocket
    · rw [close_of_invalid self hv]
      exact ih hv
    · rw [close_of_valid self hv]
      exact ⟨rfl, rfl⟩

end Socket

/-- C25: for every socket state (handle, address family, path) in which an invalid handle
comes with the address family `{}` and an empty path, as in every state the code builds,
calling `Close` twice leaves the same state as calling it once; after the first `Close`
the socket is invalid (`IsValid()` is false) with address family and path reset; and the
second `Close` makes no call to the operating system (no shutdown, unlink or close). -/
theorem C25_close_idempotent (self : Socket) (hstate : self.Consistent) :
    self.Close.1.Close.1 = self.Close.1 ∧
    self.Close.1.IsValid = false ∧
    self.Close.1._addressFamily = 0 ∧
    self.Close.1._path = [] ∧
    self.Close.1.Close.2 = [] := by
  refine ⟨by rw [Socket.close_close], Socket.close_isValid self, ?_, ?_,
    by rw [Socket.close_close]⟩
  · by_cases hv : self._socket = InvalidSocket
    · rw [Socket.close_of_invalid self hv]; exact (hstate hv).1
    · rw [Socket.close_of_valid self hv]
  · by_cases hv : self._socket = InvalidSocket
    · rw [Socket.close_of_invalid self hv]; exact (hstate hv).2
    · rw [Socket.close_of_valid self hv]

/-! ## CAN flag rendering -/

theorem and_two_pow_ne_zero (flags k : Nat) :
    flags &&& 2 ^ k ≠ 0 ↔ flags.testBit k = true := by
  constructor
  · intro h
    by_contra hbit
    apply h
    apply Nat.zero_of_testBit_eq_false
    intro i
    rw [Nat.testBit_and, Nat.testBit_two_pow]
    by_cases hki : k = i
    · subst hki; simp [hbit]
    · simp [hki]
  · intro hbit h
    have := congrArg (fun n => n.testBit k) h
    simp [Nat.testBit_and, Nat.testBit_two_pow, hbit] at this

theorem ite_and_two_pow {α : Type} (flags k : Nat) (a b : α) :
    (if flags &&& 2 ^ k ≠ 0 then a else b) = (if flags.testBit k = true then a else b) := by
  by_cases h : flags.testBit k = true
  · rw [if_pos h, if_pos ((and_two_pow_ne_zero flags k).mpr h)]
  · rw [if_neg h, if_neg (fun h' => h ((and_two_pow_ne_zero flags k).mp h'))]

/-- The code renders what the specification words. -/
theorem CanMessageFlagsToString_eq_rendering (flags : Nat) :
    CanMessageFlagsToString flags = canMessageFlagsRendering flags := by
  have h0 : ∀ a b : String, (if flags &&& 1 ≠ 0 then a else b)
      = (if flags.testBit 0 = true then a else b) := ite_and_two_pow flags 0
  have h1 : ∀ a b : String, (if flags &&& 2 ≠ 0 then a else b)
      = (if flags.testBit 1 = true then a else b) := ite_and_two_pow flags 1
  have h2 : ∀ a b : String, (if flags &&& 4 ≠ 0 then a else b)
      = (if flags.testBit 2 = true then a else b) := ite_and_two_pow flags 2
  have h3 : ∀ a b : String, (if flags &&& 8 ≠ 0 then a else b)
      = (if flags.testBit 3 = true then a else b) := ite_and_two_pow flags 3
  have h4 : ∀ a b : String, (if flags &&& 16 ≠ 0 then a else b)
      = (if flags.testBit 4 = true then a else b) := ite_and_two_pow flags 4
  have h5 : ∀ a b : String, (if flags &&& 32 ≠ 0 then a else b)
      = (if flags.testBit 5 = true then a else b) := ite_and_two_pow flags 5
  unfold CanMessageFlagsToString canMessageFlagsRendering canMessageFlagNames
  simp only [DsVeosCoSim_CanMessageFlags_Loopback, DsVeosCoSim_CanMessageFlags_Error,
    DsVeosCoSim_CanMessageFlags_Drop, DsVeosCoSim_CanMessageFlags_ExtendedId,
    DsVeosCoSim_CanMessageFlags_BitRateSwitch,
    DsVeosCoSim_CanMessageFlags_FlexibleDataRateFormat, h0, h1, h2, h3, h4, h5, List.filter]
  generalize flags.testBit 0 = b0
  generalize flags.testBit 1 = b1
  generalize flags.testBit 2 = b2
  generalize flags.testBit 3 = b3
  generalize flags.testBit 4 = b4
  generalize flags.testBit 5 = b5
  clear h0 h1 h2 h3 h4 h5
  cases b0 <;> cases b1 <;> cases b2 <;> cases b3 <;> cases b4 <;> cases b5 <;> decide


theorem canMessageFlagsRendering_eq_ofBits (flags : Nat) :
    canMessageFlagsRendering flags
      = canMessageFlagsOfBits (flags.testBit 0) (flags.testBit 1) (flags.testBit 2)
          (flags.testBit 3) (flags.testBit 4) (flags.testBit 5) := by
  unfold canMessageFlagsRendering canMessageFlagNames canMessageFlagsOfBits
  simp only [List.filter]
  generalize flags.testBit 0 = b0
  generalize flags.testBit 1 = b1
  generalize flags.testBit 2 = b2
  generalize flags.testBit 3 = b3
  generalize flags.testBit 4 = b4
  generalize flags.testBit 5 = b5
  cases b0 <;> cases b1 <;> cases b2 <;> cases b3 <;> cases b4 <;> cases b5 <;> rfl

theorem canMessageFlagsOfBits_empty (b0 b1 b2 b3 b4 b5 : Bool) :
    canMessageFlagsOfBits b0 b1 b2 b3 b4 b5 = ""
      ↔ (b0 = false ∧ b1 = false ∧ b2 = false ∧ b3 = false ∧ b4 = false ∧ b5 = false) := by
  cases b0 <;> cases b1 <;> cases b2 <;> cases b3 <;> cases b4 <;> cases b5 <;> decide

theorem canMessageFlagsOfBits_commas (b0 b1 b2 b3 b4 b5 : Bool) :
    (canMessageFlagsOfBits b0 b1 b2 b3 b4 b5).data.head? ≠ some ',' ∧
    (canMessageFlagsOfBits b0 b1 b2 b3 b4 b5).data.getLast? ≠ some ',' := by
  cases b0 <;> cases b1 <;> cases b2 <;> cases b3 <;> cases b4 <;> cases b5 <;> decide

/-- C26: for every flags value, `CanMessageFlagsToString` returns the names of exactly
those flags among Loopback, Error, Drop, ExtendedId, BitRateSwitch and
FlexibleDataRateFormat whose bit is set, in that fixed order, separated by single commas,
with no leading and no trailing comma; the result is the empty string if and only if none
of the six bits is set; and a flags value that differs only in bits outside the six gives
the same result. -/
theorem C26_can_flags_rendering (flags : Nat) :
    CanMessageFlagsToString flags = canMessageFlagsRendering flags ∧
    (CanMessageFlagsToString flags).data.head? ≠ some ',' ∧
    (CanMessageFlagsToString flags).data.getLast? ≠ some ',' ∧
    (CanMessageFlagsToString flags = "" ↔ ∀ k < 6, flags.testBit k = false) ∧
    (∀ other : Nat, (∀ k < 6, other.testBit k = flags.testBit k) →
      CanMessageFlagsToString other = CanMessageFlagsToString flags) := by
  have hbits := canMessageFlagsRendering_eq_ofBits flags
  have hcode := CanMessageFlagsToString_eq_rendering flags
  refine ⟨hcode, ?_, ?_, ?_, fun other hother => ?_⟩
  · rw [hcode, hbits]; exact (canMessageFlagsOfBits_commas _ _ _ _ _ _).1
  · rw [hcode, hbits]; exact (canMessageFlagsOfBits_commas _ _ _ _ _ _).2
  · rw [hcode, hbits, canMessageFlagsOfBits_empty]
    constructor
    · rintro ⟨h0, h1, h2, h3, h4, h5⟩ k hk
      have : k = 0 ∨ k = 1 ∨ k = 2 ∨ k = 3 ∨ k = 4 ∨ k = 5 := by omega
      rcases this with rfl | rfl | rfl | rfl | rfl | rfl <;> assumption
    · intro h
      exact ⟨h 0 (by decide), h 1 (by decide), h 2 (by decide), h 3 (by decide),
        h 4 (by decide), h 5 (by decide)⟩
  · rw [hcode, CanMessageFlagsToString_eq_rendering other, hbits,
      canMessageFlagsRendering_eq_ofBits other, hother 0 (by decide), hother 1 (by decide),
      hother 2 (by decide), hother 3 (by decide), hother 4 (by decide), hother 5 (by decide)]

/-! ## Index safety of the ring buffer -/

namespace RingBuffer

variable {T : Type}

/-- The indices of the buffer lie inside its storage of `n` elements. -/
theorem call_indices (n : Nat) (hn : n < SizeMod) (rb : RingBuffer T) (c : Call T)
    (h : rb._capacity = n ∧ rb._items.length = n ∧ rb._readIndex < n ∧ rb._writeIndex < n) :
    (rb.call c)._capacity = n ∧ (rb.call c)._items.length = n ∧
    (rb.call c)._readIndex < n ∧ (rb.call c)._writeIndex < n := by
  obtain ⟨hcap, hlen, hr, hw⟩ := h
  cases c with
  | push x =>
    have hmod : (rb._writeIndex + 1) % SizeMod = rb._writeIndex + 1 :=
      Nat.mod_eq_of_lt (by omega)
    refine ⟨hcap, ?_, hr, ?_⟩
    · show (rb._items.set rb._writeIndex x).length = n
      rw [List.length_set]; exact hlen
    · show (if (rb._writeIndex + 1) % SizeMod = rb._capacity then 0
        else (rb._writeIndex + 1) % SizeMod) < n
      rw [hmod, hcap]
      split_ifs <;> omega
  | pop =>
    have hmod : (rb._readIndex + 1) % SizeMod = rb._readIndex + 1 :=
      Nat.mod_eq_of_lt (by omega)
    refine ⟨hcap, hlen, ?_, hw⟩
    show (if (rb._readIndex + 1) % SizeMod = rb._capacity then 0
      else (rb._readIndex + 1) % SizeMod) < n
    rw [hmod, hcap]
    split_ifs <;> omega
  | clearData =>
    exact ⟨hcap, hlen, by show 0 < n; omega, by show 0 < n; omega⟩

theorem calls_indices (n : Nat) (hn : n < SizeMod) (cs : List (Call T)) :
    ∀ rb : RingBuffer T,
      rb._capacity = n ∧ rb._items.length = n ∧ rb._readIndex < n ∧ rb._writeIndex < n →
      (rb.calls cs)._capacity = n ∧ (rb.calls cs)._items.length = n ∧
      (rb.calls cs)._readIndex < n ∧ (rb.calls cs)._writeIndex < n := by
  induction cs with
  | nil => intro rb h; exact h
  | cons c cs ih =>
    intro rb h
    exact ih (rb.call c) (call_indices n hn rb c h)

theorem resize_indices [Inhabited T] (n : Nat) (hpos : 1 ≤ n) :
    ((fresh : RingBuffer T).Resize n)._capacity = n ∧
    ((fresh : RingBuffer T).Resize n)._items.length = n ∧
    ((fresh : RingBuffer T).Resize n)._readIndex < n ∧
    ((fresh : RingBuffer T).Resize n)._writeIndex < n := by
  refine ⟨rfl, ?_, hpos, hpos⟩
  simp [Resize, fresh, vectorResize]

end RingBuffer

/-- C27: for every `n >= 1` (a `size_t`), in every state reached from a fresh ring buffer
by `Resize(n)` followed by any sequence of `Push`, `Pop` and `ClearData` calls, with no
calling discipline (`Push` on a full buffer and `Pop` on an empty one included), the
storage has `n` elements and the read index and the write index are below `n`: the element
that the next `Push` writes and the element that the next `Pop` reads exist. -/
theorem C27_ring_buffer_index_safety {T : Type} [Inhabited T] (n : Nat) (hpos : 1 ≤ n)
    (hn : n < SizeMod) (cs : List (RingBuffer.Call T)) :
    ((RingBuffer.fresh.Resize n).calls cs)._items.length = n ∧
    ((RingBuffer.fresh.Resize n).calls cs)._readIndex < n ∧
    ((RingBuffer.fresh.Resize n).calls cs)._writeIndex < n ∧
    (∀ x : T, (((RingBuffer.fresh.Resize n).calls cs).Push x)._items.get?
        ((RingBuffer.fresh.Resize n).calls cs)._writeIndex = some x) ∧
    (∃ item, ((RingBuffer.fresh.Resize n).calls cs).Pop.1 = some item) := by
  obtain ⟨_, hlen, hr, hw⟩ := RingBuffer.calls_indices n hn cs _
    (RingBuffer.resize_indices n hpos)
  refine ⟨hlen, hr, hw, fun x => ?_, ?_⟩
  · show (((RingBuffer.fresh.Resize n).calls cs)._items.set
        ((RingBuffer.fresh.Resize n).calls cs)._writeIndex x).get?
        ((RingBuffer.fresh.Resize n).calls cs)._writeIndex = some x
    rw [List.get?_eq_getElem?, List.getElem?_set_self (by omega)]
  · show ∃ item, ((RingBuffer.fresh.Resize n).calls cs)._items[
        ((RingBuffer.fresh.Resize n).calls cs)._readIndex]? = some item
    exact ⟨_, List.getElem?_eq_getElem (by omega)⟩

/-- Witness of C27: a buffer of two elements after `Push`, `Push`, `Push` (on a full
buffer), `ClearData`, `Pop` (on an empty buffer). -/
theorem C27_ring_buffer_index_safety_witness :
    (((RingBuffer.fresh : RingBuffer Nat).Resize 2).calls
        [RingBuffer.Call.push 1, RingBuffer.Call.push 2, RingBuffer.Call.push 3,
          RingBuffer.Call.clearData, RingBuffer.Call.pop])._readIndex < 2 :=
  (C27_ring_buffer_index_safety 2 (by decide) (by decide)
    [RingBuffer.Call.push 1, RingBuffer.Call.push 2, RingBuffer.Call.push 3,
      RingBuffer.Call.clearData, RingBuffer.Call.pop]).2.1

/-! ## Frame of the port-mapper requests -/

namespace PortMapperServer

theorem find_erase_ne (ports : List (String × Nat)) (a b : String) (hab : a ≠ b) :
    find (erase ports a) b = find ports b := by
  induction ports with
  | nil => rfl
  | cons entry ports ih =>
    obtain ⟨key, value⟩ := entry
    by_cases hk : key = a
    · have hdrop : erase ((key, value) :: ports) a = erase ports a := by
        simp [erase, hk]
      have hb : (b == key) = false := by
        simp only [beq_eq_false_iff_ne, ne_eq]
        exact fun h => hab (by rw [← hk, ← h])
      rw [hdrop, ih]
      show find ports b = (match b == key with
        | true => some value
        | false => List.lookup b ports)
      rw [hb]
      rfl
    · have hkeep : erase ((key, value) :: ports) a = (key, value) :: erase ports a := by
        simp [erase, hk]
      rw [hkeep]
      show (match b == key with
        | true => some value
        | false => List.lookup b (erase ports a))
        = (match b == key with
          | true => some value
          | false => List.lookup b ports)
      cases hbk : b == key
      · exact ih
      · rfl

theorem find_assign_ne (ports : List (String × Nat)) (a b : String) (port : Nat)
    (hab : a ≠ b) : find (assign ports a port) b = find ports b := by
  have hb : (b == a) = false := by
    simp only [beq_eq_false_iff_ne, ne_eq]
    exact fun h => hab h.symm
  show (match b == a with
    | true => some port
    | false => List.lookup b (erase ports a)) = find ports b
  rw [hb]
  exact find_erase_ne ports a b hab

end PortMapperServer

/-- C28: for every map state and all names `a != b`, handling `SetPort(a, p)` or
`UnsetPort(a)` leaves the binding of `b` (present with its port, or absent) unchanged, and
handling `GetPort(a)` leaves the whole map unchanged whether or not `a` is bound. The
request is read from a connected channel whose next frame it is. -/
theorem C28_port_requests_touch_one_binding (server : PortMapperServer) (channel : Channel)
    (a b : String) (p : Nat) (rest : List Frame) (hab : a ≠ b)
    (hconn : channel.connected = true) :
    (channel.pending = Frame.setPort a p :: rest →
      PortMapperServer.find (PortMapperServer.HandleClient server channel).server._ports b
        = PortMapperServer.find server._ports b) ∧
    (channel.pending = Frame.unsetPort a :: rest →
      PortMapperServer.find (PortMapperServer.HandleClient server channel).server._ports b
        = PortMapperServer.find server._ports b) ∧
    (channel.pending = Frame.getPort a :: rest →
      (PortMapperServer.HandleClient server channel).server._ports = server._ports) := by
  refine ⟨fun hreq => ?_, fun hreq => ?_, fun hreq => ?_⟩
  · rw [(PortMapperServer.HandleClient_setPort server channel a p rest hconn hreq).2.2.1]
    exact PortMapperServer.find_assign_ne _ a b p hab
  · rw [(PortMapperServer.HandleClient_unsetPort server channel a rest hconn hreq).2.2.1]
    exact PortMapperServer.find_erase_ne _ a b hab
  · cases hfind : PortMapperServer.find server._ports a with
    | none =>
      exact (PortMapperServer.HandleClient_getPort_miss server channel a rest hfind hconn
        hreq).2.2.1
    | some port =>
      exact (PortMapperServer.HandleClient_getPort_hit server channel a port rest hfind hconn
        hreq).2.2.1

/-- Witness of C28: the map binds "b" to 7; a request `SetPort("a", 5)` arrives. -/
theorem C28_port_requests_touch_one_binding_witness :
    PortMapperServer.find
        (PortMapperServer.HandleClient ⟨[("b", 7)], false, []⟩
          (Channel.carrying (Frame.setPort "a" 5))).server._ports "b"
      = PortMapperServer.find [("b", 7)] "b" :=
  (C28_port_requests_touch_one_binding ⟨[("b", 7)], false, []⟩
    (Channel.carrying (Frame.setPort "a" 5)) "a" "b" 5 [] (by decide) rfl).1 rfl

/-! ## Endpoints of distinct server names -/

theorem takeWhile_append_replicate_zero (body : List Nat) (n : Nat)
    (hbody : ∀ b ∈ body, b ≠ 0) :
    (body ++ List.replicate n 0).takeWhile (fun b => b != 0) = body := by
  rw [List.takeWhile_append_of_pos (fun b hb => by simpa using hbody b hb)]
  cases n with
  | zero => simp
  | succ n => simp [List.replicate_succ]

theorem c_str_no_nul (s : List Nat) : ∀ b ∈ c_str s, b ≠ 0 := by
  intro b hb
  have := List.mem_takeWhile_imp hb
  simpa using this

/-- The socket address built for a name, as a function of the first 89 bytes of the C
string of the name. -/
theorem uds_sun_path (name : List Nat) :
    0 :: (((c_str (GetUdsPath name)).take 107
        ++ List.replicate (108 - ((c_str (GetUdsPath name)).take 107).length) 0).tail)
      = 0 :: ([83, 80, 65, 67, 69, 46, 86, 69, 79, 83, 46, 67, 111, 83, 105, 109, 46]
          ++ ((c_str name).take 89
            ++ List.replicate (90 - ((c_str name).take 89).length) 0)) := by
  rw [take_c_str_GetUdsPath]
  have h1 : 108 - (100 :: ([83, 80, 65, 67, 69, 46, 86, 69, 79, 83, 46, 67, 111, 83, 105,
      109, 46] ++ (c_str name).take 89)).length = 90 - ((c_str name).take 89).length := by
    simp only [List.length_cons, List.length_append, List.length_nil]
    omega
  rw [h1]
  simp

theorem uds_sun_path_eq_iff (a b : List Nat) :
    (0 :: (((c_str (GetUdsPath a)).take 107
        ++ List.replicate (108 - ((c_str (GetUdsPath a)).take 107).length) 0).tail)
      = 0 :: (((c_str (GetUdsPath b)).take 107
        ++ List.replicate (108 - ((c_str (GetUdsPath b)).take 107).length) 0).tail))
      ↔ (c_str a).take 89 = (c_str b).take 89 := by
  rw [uds_sun_path a, uds_sun_path b]
  constructor
  · intro h
    have h2 := List.append_cancel_left (List.cons.inj h).2
    have ha := takeWhile_append_replicate_zero ((c_str a).take 89)
      (90 - ((c_str a).take 89).length)
      (fun x hx => c_str_no_nul a x (List.mem_of_mem_take hx))
    have hb := takeWhile_append_replicate_zero ((c_str b).take 89)
      (90 - ((c_str b).take 89).length)
      (fun x hx => c_str_no_nul b x (List.mem_of_mem_take hx))
    rw [← ha, ← hb, h2]
  · intro h
    rw [h]

/-- C29, the names for which it fails: two names of 90 bytes that differ in the last byte
only (89 times "a", then "1" or "2") are non-empty and distinct, and `Bind` builds the same
socket address for both, which is also the address `TryConnect` builds for the second. -/
theorem C29_long_names_share_endpoint_counterexample :
    List.replicate 89 97 ++ [49] ≠ List.replicate 89 97 ++ [50] ∧
    ((⟨3, AddressFamily.Uds, []⟩ : Socket).BindName (List.replicate 89 97 ++ [49]) 0 0).address
      = ((⟨4, AddressFamily.Uds, []⟩ : Socket).BindName
          (List.replicate 89 97 ++ [50]) 0 0).address ∧
    ((⟨3, AddressFamily.Uds, []⟩ : Socket).BindName (List.replicate 89 97 ++ [49]) 0 0).address
      = ((⟨5, AddressFamily.Uds, []⟩ : Socket).TryConnectName
          (List.replicate 89 97 ++ [50]) 0).address := by
  refine ⟨by decide, ?_, ?_⟩
  · rw [BindName_address _ _ _ _ (by decide) rfl (by decide),
      BindName_address _ _ _ _ (by decide) rfl (by decide)]
    exact congrArg (fun path => some (sockaddr_un.mk AF_UNIX path))
      ((uds_sun_path_eq_iff _ _).mpr (by decide))
  · rw [BindName_address _ _ _ _ (by decide) rfl (by decide),
      TryConnectName_address _ _ _ (by decide) rfl (by decide)]
    exact congrArg (fun path => some (sockaddr_un.mk AF_UNIX path))
      ((uds_sun_path_eq_iff _ _).mpr (by decide))

/-- C29: on valid Unix-domain sockets, for all non-empty names `a` and `b`, the socket
address that `Bind(a)` builds equals the one that `Bind(b)` and `TryConnect(b)` build if
and only if the C strings of the names agree in their first 89 bytes. Hence names without
NUL byte of at most 89 bytes get distinct addresses whenever they are distinct. -/
theorem C29_distinct_names_distinct_endpoints (server other client : Socket)
    (a b : List Nat) (bindResultA bindErrorA bindResultB bindErrorB connectResult : Int)
    (hserver : server.IsValid = true) (hserverFamily : server._addressFamily = AddressFamily.Uds)
    (hother : other.IsValid = true) (hotherFamily : other._addressFamily = AddressFamily.Uds)
    (hclient : client.IsValid = true) (hclientFamily : client._addressFamily = AddressFamily.Uds)
    (ha : a ≠ []) (hb : b ≠ []) :
    ((server.BindName a bindResultA bindErrorA).address
        = (other.BindName b bindResultB bindErrorB).address
      ↔ (c_str a).take 89 = (c_str b).take 89) ∧
    ((server.BindName a bindResultA bindErrorA).address
        = (client.TryConnectName b connectResult).address
      ↔ (c_str a).take 89 = (c_str b).take 89) ∧
    ((∀ x ∈ a, x ≠ 0) → (∀ x ∈ b, x ≠ 0) → a.length ≤ 89 → b.length ≤ 89 → a ≠ b →
      (server.BindName a bindResultA bindErrorA).address
        ≠ (other.BindName b bindResultB bindErrorB).address ∧
      (server.BindName a bindResultA bindErrorA).address
        ≠ (client.TryConnectName b connectResult).address) := by
  have hA := BindName_address server a bindResultA bindErrorA hserver hserverFamily ha
  have hB := BindName_address other b bindResultB bindErrorB hother hotherFamily hb
  have hC := TryConnectName_address client b connectResult hclient hclientFamily hb
  have hiff := uds_sun_path_eq_iff a b
  have h1 : (server.BindName a bindResultA bindErrorA).address
        = (other.BindName b bindResultB bindErrorB).address
      ↔ (c_str a).take 89 = (c_str b).take 89 := by
    rw [hA, hB, ← hiff]
    simp only [Option.some.injEq, sockaddr_un.mk.injEq, true_and]
  have h2 : (server.BindName a bindResultA bindErrorA).address
        = (client.TryConnectName b connectResult).address
      ↔ (c_str a).take 89 = (c_str b).take 89 := by
    rw [hA, hC, ← hiff]
    simp only [Option.some.injEq, sockaddr_un.mk.injEq, true_and]
  refine ⟨h1, h2, fun hna hnb hla hlb hab => ?_⟩
  have hca : c_str a = a := by
    unfold c_str
    rw [List.takeWhile_eq_self_iff]
    intro x hx
    simpa using hna x hx
  have hcb : c_str b = b := by
    unfold c_str
    rw [List.takeWhile_eq_self_iff]
    intro x hx
    simpa using hnb x hx
  have hne : ¬ (c_str a).take 89 = (c_str b).take 89 := by
    rw [hca, hcb, List.take_of_length_le hla, List.take_of_length_le hlb]
    exact hab
  exact ⟨fun h => hne (h1.mp h), fun h => hne (h2.mp h)⟩

/-- Witness of C29: the names "a" and "b" on the sockets with handles 3, 4 and 5. -/
theorem C29_distinct_names_distinct_endpoints_witness :
    ((⟨3, AddressFamily.Uds, []⟩ : Socket).BindName [97] 0 0).address
      ≠ ((⟨4, AddressFamily.Uds, []⟩ : Socket).BindName [98] 0 0).address :=
  ((C29_distinct_names_distinct_endpoints ⟨3, AddressFamily.Uds, []⟩
    ⟨4, AddressFamily.Uds, []⟩ ⟨5, AddressFamily.Uds, []⟩ [97] [98] 0 0 0 0 0
    (by decide) rfl (by decide) rfl (by decide) rfl (by decide) (by decide)).2.2
    (by decide) (by decide) (by decide) (by decide) (by decide)).1

/-! ## Range of the generated 64-bit test values -/

/-- C30: for all draws `a` and `b` that `GenerateU32` can return (at most 123456789),
`GenerateU64` returns `a * 2^4 + b` (the shift amount is `sizeof(uint32_t) = 4`), so the
result is at most 2098765413, below `2^31`, and `GenerateI64` and `GenerateSimulationTime`
return the same value and never a negative one. -/
theorem C30_generated_u64_range (a b : Nat) (ha : a ≤ 123456789) (hb : b ≤ 123456789) :
    GenerateU64 a b = a * 2 ^ 4 + b ∧
    GenerateU64 a b ≤ 2098765413 ∧
    GenerateU64 a b < 2 ^ 31 ∧
    GenerateI64 a b = (GenerateU64 a b : Int) ∧
    0 ≤ GenerateI64 a b ∧
    GenerateSimulationTime a b = (GenerateU64 a b : Int) ∧
    0 ≤ GenerateSimulationTime a b := by
  have hvalue : GenerateU64 a b = a * 2 ^ 4 + b := by
    unfold GenerateU64
    norm_num
    omega
  have hsmall : GenerateU64 a b < 2 ^ 63 := by
    rw [hvalue]
    norm_num
    omega
  have hint : toInt64 (GenerateU64 a b) = (GenerateU64 a b : Int) := by
    unfold toInt64
    rw [if_pos hsmall]
  refine ⟨hvalue, ?_, ?_, hint, ?_, hint, ?_⟩
  · rw [hvalue]; norm_num; omega
  · rw [hvalue]; norm_num; omega
  · show 0 ≤ toInt64 (GenerateU64 a b)
    rw [hint]; exact Int.ofNat_nonneg _
  · show 0 ≤ toInt64 (GenerateU64 a b)
    rw [hint]; exact Int.ofNat_nonneg _

/-- Witness of C30: both draws are the largest value, 123456789. -/
theorem C30_generated_u64_range_witness : GenerateU64 123456789 123456789 ≤ 2098765413 :=
  (C30_generated_u64_range 123456789 123456789 (by decide) (by decide)).2.1

/-- Witness of C22: the same signal, with id 7, is given once as incoming and once as
outgoing signal. -/
theorem C22_io_buffer_construction_witness :
    ∃ id, 2 ≤ List.count id (List.map (fun s : IoSignal => s.id)
        ([⟨7, 2, DsVeosCoSim_DataType_UInt16, DsVeosCoSim_SizeKind_Fixed, [83]⟩]
          ++ [⟨7, 2, DsVeosCoSim_DataType_UInt16, DsVeosCoSim_SizeKind_Fixed, [83]⟩])) ∧
      IoBuffer.construct
          [⟨7, 2, DsVeosCoSim_DataType_UInt16, DsVeosCoSim_SizeKind_Fixed, [83]⟩]
          [⟨7, 2, DsVeosCoSim_DataType_UInt16, DsVeosCoSim_SizeKind_Fixed, [83]⟩]
        = Except.error (asciiBytes "Duplicated IO signal id " ++ decimalBytes id
            ++ asciiBytes ".") :=
  (C22_io_buffer_construction
    [⟨7, 2, DsVeosCoSim_DataType_UInt16, DsVeosCoSim_SizeKind_Fixed, [83]⟩]
    [⟨7, 2, DsVeosCoSim_DataType_UInt16, DsVeosCoSim_SizeKind_Fixed, [83]⟩]).1 (by decide)

/-- Witness of C25: the Unix-domain socket with handle 3 after `Bind("x")`. -/
theorem C25_close_idempotent_witness :
    ((⟨3, AddressFamily.Uds, []⟩ : Socket).BindName [120] 0 0).self.Close.1.Close.1
      = ((⟨3, AddressFamily.Uds, []⟩ : Socket).BindName [120] 0 0).self.Close.1 :=
  (C25_close_idempotent ((⟨3, AddressFamily.Uds, []⟩ : Socket).BindName [120] 0 0).self
    (Socket.consistent_of_reachable _
      (Socket.Reachable.bound ⟨3, AddressFamily.Uds, []⟩ [120] 0 0
        (Socket.Reachable.created 3 AddressFamily.Uds (by decide))))).1

end DsVeosCoSim
